import Mathlib

/-!
# Sandquake core — shallow embedding and verification

Shallow embedding of the Sandquake core components in Lean 4:

* `SeismographData` — the Signal Deriver's circular sample buffer
  (`src/core/SeismographData.js`): `addSample`, `getSignalData`.
* `SandPile` — the Grid Engine (the `SandPile` class with the stochastic
  avalanche extension): `addSand`, `getSand`, `processAvalanches`, `topple`,
  `distributeToNeighbors`, `distributeWithRandomness`, `distributeJitteredSand`,
  `addSandToCell`, `stabilize`, `isStable`.
* `SandSource` — emission points (`src/core/SandSource.js`): `update`.
* `Simulation` — the Simulation Controller (`src/core/Simulation.js`):
  `update`, `updateSources`, `processAvalanches`, `removeSource`, `setPaused`.

Modelling conventions:

* JavaScript numbers are modelled as `ℤ` where the program only ever holds
  integers (grid heights, sand amounts, grain counts) and as `ℚ` where
  fractional values occur (rates, accumulators, randomness factor, time).
* `Math.random()` is modelled as an explicit tape `t : ℕ → ℚ` together with a
  cursor `rngCount` in the state; each draw reads `t rngCount` and advances the
  cursor.  The contract of `Math.random` (values in `[0,1)`) becomes an
  explicit hypothesis where a theorem needs it.
* JavaScript `%` on possibly-negative integers is truncated division remainder,
  i.e. `Int.tmod`; `Math.floor(h/4)` is `Int.fdiv h 4`; `Math.floor` of a
  fractional value is `Int.floor`.
* A JavaScript `Set` of coordinate strings is modelled as a duplicate-free
  `List (ℕ × ℕ)` in insertion order (JS `Set` iteration order).
* A `Float32Array` cell is modelled as `Option ℚ`: `some q` is a stored number
  (numeric values abstracted as exact rationals), `none` is the `NaN` that a
  `Float32Array` stores when assigned `undefined` (the result of reading the
  backing array at a negative index).
* The field `lostSand` on `SandPile` is ghost instrumentation: it is
  incremented in exactly the places where the source decrements `totalSand`
  for sand leaving the grid (off-grid topple shares, off-grid base neighbors
  under randomness, jitter with no candidates).  It affects nothing else.
* Weights in the jitter redistribution are `1/(1 + √(dx²+dy²))`.  Because the
  jitter radius is `⌈2r⌉ ≤ 2` for `r ∈ [0,1]`, every candidate has
  `dx²+dy² ∈ {1, 2, 4}`, so all weights live in the field `ℚ(√2)`, embedded
  here as the computable type `Qrt2` (pairs `a + b·√2`).  The source's
  `distance <= radius` test is decided by the equivalent comparison of squares.
-/

/-! ## ℚ(√2): exact arithmetic for the jitter weights -/

/-- An element `a + b·√2` of the real quadratic field ℚ(√2), with exact
computable arithmetic.  Used to represent the jitter redistribution weights
`1/(1+√(dx²+dy²))` (`dx²+dy² ∈ {1,2,4}` within the jitter radius). -/
structure Qrt2 where
  a : ℚ
  b : ℚ
deriving DecidableEq, Repr

namespace Qrt2

def ofRat (q : ℚ) : Qrt2 := ⟨q, 0⟩

def ofInt (n : ℤ) : Qrt2 := ⟨(n : ℚ), 0⟩

def add (x y : Qrt2) : Qrt2 := ⟨x.a + y.a, x.b + y.b⟩

def sub (x y : Qrt2) : Qrt2 := ⟨x.a - y.a, x.b - y.b⟩

def mul (x y : Qrt2) : Qrt2 := ⟨x.a * y.a + 2 * (x.b * y.b), x.a * y.b + x.b * y.a⟩

/-- Multiplicative inverse: `(a + b√2)⁻¹ = (a - b√2)/(a² - 2b²)`.
For `x ≠ 0` the denominator is nonzero since `√2` is irrational. -/
def inv (x : Qrt2) : Qrt2 :=
  let d := x.a * x.a - 2 * (x.b * x.b)
  ⟨x.a / d, -x.b / d⟩

/-- Whether `a + b√2 ≥ 0`, decided by sign analysis and squaring. -/
def nonneg (x : Qrt2) : Bool :=
  if 0 ≤ x.a then
    if 0 ≤ x.b then true else 2 * (x.b * x.b) ≤ x.a * x.a
  else
    if 0 ≤ x.b then x.a * x.a ≤ 2 * (x.b * x.b) else false

def le (x y : Qrt2) : Bool := nonneg (sub y x)

/-- `⌊b·√2⌋` for a rational `b ≥ 0`, via `Nat.sqrt`:
`⌊(p/q)·√2⌋ = ⌊√(2p²)⌋ / q`. -/
def sqrt2FloorNonneg (b : ℚ) : ℤ :=
  (Nat.sqrt (2 * b.num.toNat * b.num.toNat) / b.den : ℕ)

/-- `⌊b·√2⌋` for any rational `b`. -/
def sqrt2Floor (b : ℚ) : ℤ :=
  if 0 ≤ b then sqrt2FloorNonneg b
  else if b = 0 then 0 else -(sqrt2FloorNonneg (-b)) - 1

/-- `⌊a + b√2⌋`, computed from the candidate `⌊a⌋ + ⌊b√2⌋` with a one-step
upward correction. -/
def floor (x : Qrt2) : ℤ :=
  let base := ⌊x.a⌋ + sqrt2Floor x.b
  if le (ofInt (base + 1)) x then base + 1 else base

/-- `√d` as an element of ℚ(√2), for the natural numbers `d` that actually
occur as squared candidate distances within the jitter radius (`d ∈ {1,2,4}`;
more generally any `d` of the form `s²` or `2s²`).  Other inputs (unreachable
while the radius is at most 2) fall back to `0`. -/
def sqrtE (d : ℕ) : Qrt2 :=
  if Nat.sqrt d * Nat.sqrt d = d then ⟨(Nat.sqrt d : ℚ), 0⟩
  else if 2 ∣ d ∧ Nat.sqrt (d / 2) * Nat.sqrt (d / 2) = d / 2 then
    ⟨0, (Nat.sqrt (d / 2) : ℚ)⟩
  else ⟨0, 0⟩

end Qrt2

/-! ## MathUtils (`src/utils/MathUtils.js`) -/

/-- `isValidGridPosition(x, y, gridSize)`:
`x >= 0 && x < gridSize && y >= 0 && y < gridSize`. -/
def isValidGridPosition (x y : ℤ) (gridSize : ℕ) : Prop :=
  0 ≤ x ∧ x < (gridSize : ℤ) ∧ 0 ≤ y ∧ y < (gridSize : ℤ)

instance (x y : ℤ) (gridSize : ℕ) : Decidable (isValidGridPosition x y gridSize) := by
  unfold isValidGridPosition; infer_instance

/-- `getNeighbors(x, y)`: the four orthogonal neighbors, in source order
left, right, up, down.  Coordinates may leave the grid, hence `ℤ`. -/
def getNeighbors (x y : ℕ) : List (ℤ × ℤ) :=
  [((x : ℤ) - 1, (y : ℤ)), ((x : ℤ) + 1, (y : ℤ)),
   ((x : ℤ), (y : ℤ) - 1), ((x : ℤ), (y : ℤ) + 1)]

/-! ## SandPile — the Grid Engine -/

/-- A grid coordinate (always in range once stored). -/
abbrev Cell := ℕ × ℕ

/-- State of the `SandPile` class.  `grid` is a `size × size` matrix of
heights (row `x`, column `y`).  `unstableCells` models the JS `Set` of
coordinate keys: a duplicate-free list in insertion order.  `rngCount` is the
cursor into the `Math.random()` tape.  `lostSand` is ghost instrumentation
counting sand discarded at the open boundary (see the file header). -/
structure SandPile where
  size : ℕ
  criticalMass : ℤ
  grid : List (List ℤ)
  unstableCells : List Cell
  randomnessFactor : ℚ
  totalSand : ℤ
  totalAvalanches : ℕ
  avalancheSize : ℕ
  rngCount : ℕ
  lostSand : ℤ
deriving DecidableEq, Repr

namespace SandPile

/-- The constructor: all-zero grid, no unstable cells, randomness 0. -/
def init (size : ℕ) (criticalMass : ℤ) : SandPile :=
  { size := size
    criticalMass := criticalMass
    grid := List.replicate size (List.replicate size 0)
    unstableCells := []
    randomnessFactor := 0
    totalSand := 0
    totalAvalanches := 0
    avalancheSize := 0
    rngCount := 0
    lostSand := 0 }

/-- Read `this.grid[x][y]` (in-range reads only occur in the source). -/
def getGrid (s : SandPile) (x y : ℕ) : ℤ :=
  (s.grid.getD x []).getD y 0

/-- Write `this.grid[x][y] = v`. -/
def setGrid (s : SandPile) (x y : ℕ) (v : ℤ) : SandPile :=
  { s with grid := s.grid.set x ((s.grid.getD x []).set y v) }

/-- `Set.add` on the unstable-cell set: append if not already present. -/
def addCell (l : List Cell) (c : Cell) : List Cell :=
  if c ∈ l then l else l ++ [c]

/-- `addSand(x, y, amount)`. -/
def addSand (x y : ℤ) (amount : ℤ) (s : SandPile) : SandPile :=
  if isValidGridPosition x y s.size then
    let s1 := s.setGrid x.toNat y.toNat (s.getGrid x.toNat y.toNat + amount)
    let s2 := { s1 with totalSand := s1.totalSand + amount }
    if s2.criticalMass ≤ s2.getGrid x.toNat y.toNat then
      { s2 with unstableCells := addCell s2.unstableCells (x.toNat, y.toNat) }
    else s2
  else s

/-- `getSand(x, y)`. -/
def getSand (s : SandPile) (x y : ℤ) : ℤ :=
  if isValidGridPosition x y s.size then s.getGrid x.toNat y.toNat else 0

/-- `addSandToCell(x, y, amount, newUnstableCells)`: add to a (valid) cell and
record it in the new unstable set when it reaches the critical mass. -/
def addSandToCell (x y : ℕ) (amount : ℤ) (s : SandPile) (newU : List Cell) :
    SandPile × List Cell :=
  let s1 := s.setGrid x y (s.getGrid x y + amount)
  if s1.criticalMass ≤ s1.getGrid x y then (s1, addCell newU (x, y)) else (s1, newU)

/-- `distributeToNeighbors(sandPerNeighbor, neighbors, newUnstableCells)`:
the deterministic branch.  Off-grid shares are discarded and subtracted from
the running total (ghost-tracked in `lostSand`). -/
def distributeToNeighbors (n : ℤ) (neighbors : List (ℤ × ℤ)) (s : SandPile)
    (newU : List Cell) : SandPile × List Cell :=
  neighbors.foldl
    (fun acc nb =>
      if isValidGridPosition nb.1 nb.2 acc.1.size then
        addSandToCell nb.1.toNat nb.2.toNat n acc.1 acc.2
      else
        ({ acc.1 with totalSand := acc.1.totalSand - n,
                      lostSand := acc.1.lostSand + n }, acc.2))
    (s, newU)

/-- The offset sequence `-radius, …, radius` of the two candidate-search
loops of `distributeJitteredSand`. -/
def jitterOffsets (radius : ℕ) : List ℤ :=
  (List.range (2 * radius + 1)).map (fun i => (i : ℤ) - radius)

/-- The inner (`dy`) loop of the candidate search of `distributeJitteredSand`,
for one fixed `dx`: all valid positions `(centerX+dx, centerY+dy)` within the
radius (center excluded), with weight `1/(1+distance)`. -/
def jitterRow (centerX centerY : ℕ) (radius size : ℕ) (dx : ℤ) :
    List (ℕ × ℕ × Qrt2) :=
  (jitterOffsets radius).foldr
    (fun dy inner =>
      if dx = 0 ∧ dy = 0 then inner
      else
        if isValidGridPosition ((centerX : ℤ) + dx) ((centerY : ℤ) + dy) size then
          if dx * dx + dy * dy ≤ (radius : ℤ) * radius then
            (((centerX : ℤ) + dx).toNat, ((centerY : ℤ) + dy).toNat,
              Qrt2.inv (Qrt2.add (Qrt2.ofRat 1)
                (Qrt2.sqrtE (dx * dx + dy * dy).toNat))) :: inner
          else inner
        else inner)
    []

/-- The candidate list of `distributeJitteredSand`: all valid positions within
`radius` of the center (center excluded), with weight `1/(1+distance)`.
The source compares `Math.sqrt(dx²+dy²) <= radius`; here the equivalent
comparison of squares `dx²+dy² ≤ radius²` is used, and the weight's
`√(dx²+dy²)` is the exact `Qrt2.sqrtE`. -/
def jitterCandidates (centerX centerY : ℕ) (radius : ℕ) (size : ℕ) :
    List (ℕ × ℕ × Qrt2) :=
  (jitterOffsets radius).foldr
    (fun dx acc => jitterRow centerX centerY radius size dx ++ acc) []

/-- One iteration of the weighted-distribution loop of
`distributeJitteredSand`: while jitter remains, send
`min(remaining, ⌊totalJitter·weight/totalWeight⌋)` to the candidate.  The
accumulator carries (state, new unstable set, remaining jitter). -/
def jitterStep (totalJitter : ℤ) (totalWeight : Qrt2)
    (acc : SandPile × List Cell × ℤ) (c : ℕ × ℕ × Qrt2) :
    SandPile × List Cell × ℤ :=
  if 0 < acc.2.2 then
    let proportion := Qrt2.mul c.2.2 (Qrt2.inv totalWeight)
    let amount := min acc.2.2 (Qrt2.floor (Qrt2.mul (Qrt2.ofInt totalJitter) proportion))
    if 0 < amount then
      let r := addSandToCell c.1 c.2.1 amount acc.1 acc.2.1
      (r.1, r.2, acc.2.2 - amount)
    else acc
  else acc

/-- `distributeJitteredSand(centerX, centerY, totalJitter, radius,
newUnstableCells)`: proportional weighted redistribution of the jitter amount,
with the rounding remainder going to a randomly chosen candidate; if no
candidate is in range, the jitter is discarded from the running total. -/
def distributeJitteredSand (t : ℕ → ℚ) (centerX centerY : ℕ) (totalJitter : ℤ)
    (radius : ℕ) (s : SandPile) (newU : List Cell) : SandPile × List Cell :=
  let candidates := jitterCandidates centerX centerY radius s.size
  if candidates.isEmpty then
    ({ s with totalSand := s.totalSand - totalJitter,
              lostSand := s.lostSand + totalJitter }, newU)
  else
    let totalWeight := candidates.foldl (fun w c => Qrt2.add w c.2.2) (Qrt2.ofRat 0)
    let step := candidates.foldl (jitterStep totalJitter totalWeight) (s, newU, totalJitter)
    if 0 < step.2.2 then
      let u := t step.1.rngCount
      let s2 := { step.1 with rngCount := step.1.rngCount + 1 }
      let idx := (Int.floor (u * (candidates.length : ℚ))).toNat
      let c := candidates.getD idx (0, 0, Qrt2.ofRat 0)
      addSandToCell c.1 c.2.1 step.2.2 s2 step.2.1
    else (step.1, step.2.1)

/-- One iteration of the per-neighbor loop of `distributeWithRandomness`:
draw `U = Math.random()`, split the share into `⌊n·r·U⌋` jitter and a stable
remainder for the neighbor itself, and redistribute the jitter nearby;
an off-grid neighbor loses its whole share from the running total. -/
def randomNeighborStep (t : ℕ → ℚ) (sandPerNeighbor : ℤ) (jitterRadius : ℕ)
    (acc : SandPile × List Cell) (nb : ℤ × ℤ) : SandPile × List Cell :=
  if isValidGridPosition nb.1 nb.2 acc.1.size then
    let urand := t acc.1.rngCount
    let st1 := { acc.1 with rngCount := acc.1.rngCount + 1 }
    let jitterAmount : ℤ :=
      Int.floor ((sandPerNeighbor : ℚ) * st1.randomnessFactor * urand)
    let stableAmount := sandPerNeighbor - jitterAmount
    let r := addSandToCell nb.1.toNat nb.2.toNat stableAmount st1 acc.2
    if 0 < jitterAmount then
      distributeJitteredSand t nb.1.toNat nb.2.toNat jitterAmount jitterRadius r.1 r.2
    else r
  else
    ({ acc.1 with totalSand := acc.1.totalSand - sandPerNeighbor,
                  lostSand := acc.1.lostSand + sandPerNeighbor }, acc.2)

/-- `distributeWithRandomness(sourceX, sourceY, sandPerNeighbor, baseNeighbors,
newUnstableCells)`: split each neighbor share into a jittered part
`⌊n·r·U⌋` (one `Math.random()` draw per in-range neighbor) and a stable
remainder.  The `distributionMap` built at the top of the source function is
dead code (never read) and is omitted. -/
def distributeWithRandomness (t : ℕ → ℚ) (sandPerNeighbor : ℤ)
    (baseNeighbors : List (ℤ × ℤ)) (s : SandPile) (newU : List Cell) :
    SandPile × List Cell :=
  let jitterRadius := (Int.ceil (s.randomnessFactor * 2)).toNat
  baseNeighbors.foldl (randomNeighborStep t sandPerNeighbor jitterRadius) (s, newU)

/-- `topple(x, y, newUnstableCells)`. -/
def topple (t : ℕ → ℚ) (x y : ℕ) (s : SandPile) (newU : List Cell) :
    SandPile × List Cell :=
  let sandToDistribute := s.getGrid x y
  let sandPerNeighbor := Int.fdiv sandToDistribute 4
  let remainder := Int.tmod sandToDistribute 4
  let s1 := s.setGrid x y remainder
  let neighbors := getNeighbors x y
  let res :=
    if 0 < s1.randomnessFactor then
      distributeWithRandomness t sandPerNeighbor neighbors s1 newU
    else
      distributeToNeighbors sandPerNeighbor neighbors s1 newU
  if res.1.criticalMass ≤ res.1.getGrid x y then
    (res.1, addCell res.2 (x, y))
  else res

/-- One iteration of the `processAvalanches` loop body: re-check the cell
against the critical mass and topple it, counting the avalanche.  The
accumulator carries (state, new unstable set, whether any topple occurred). -/
def processCell (t : ℕ → ℚ) (acc : SandPile × List Cell × Bool) (c : Cell) :
    SandPile × List Cell × Bool :=
  if acc.1.criticalMass ≤ acc.1.getGrid c.1 c.2 then
    let r := topple t c.1 c.2 acc.1 acc.2.1
    ({ r.1 with avalancheSize := r.1.avalancheSize + 1 }, r.2, true)
  else acc

/-- `processAvalanches()`: one relaxation pass over the current unstable set. -/
def processAvalanches (t : ℕ → ℚ) (s : SandPile) : SandPile × Bool :=
  if s.unstableCells.isEmpty then (s, false)
  else
    let start := { s with avalancheSize := 0 }
    let res := s.unstableCells.foldl (processCell t) (start, [], false)
    let s1 := { res.1 with unstableCells := res.2.1 }
    if res.2.2 then
      ({ s1 with totalAvalanches := s1.totalAvalanches + 1 }, true)
    else (s1, false)

/-- The `while` loop of `stabilize`, by fuel (`maxIterations - iterations`);
returns the final state and the number of iterations consumed. -/
def stabilizeGo (t : ℕ → ℚ) : ℕ → SandPile → SandPile × ℕ
  | 0, s => (s, 0)
  | fuel + 1, s =>
    if s.unstableCells.isEmpty then (s, 0)
    else
      let s1 := (processAvalanches t s).1
      let res := stabilizeGo t fuel s1
      (res.1, res.2 + 1)

/-- `stabilize(maxIterations)` (the source default is `1000`). -/
def stabilize (t : ℕ → ℚ) (s : SandPile) (maxIterations : ℕ) : SandPile × ℕ :=
  stabilizeGo t maxIterations s

/-- `isStable()`. -/
def isStable (s : SandPile) : Bool := s.unstableCells.isEmpty

/-- `setRandomnessFactor(factor)`: clamp to `[0,1]`. -/
def setRandomnessFactor (factor : ℚ) (s : SandPile) : SandPile :=
  { s with randomnessFactor := max 0 (min 1 factor) }

/-- Sum of all grid heights. -/
def gridSum (s : SandPile) : ℤ := (s.grid.map List.sum).sum

end SandPile

/-- A driver operation on the Grid Engine, for stating trace properties. -/
inductive GridOp where
  | addSand (x y amount : ℤ)
  | processAvalanches
  | stabilize (maxIterations : ℕ)
  | setRandomnessFactor (factor : ℚ)
deriving DecidableEq, Repr

/-- Apply one driver operation. -/
def applyGridOp (t : ℕ → ℚ) (s : SandPile) : GridOp → SandPile
  | .addSand x y a => SandPile.addSand x y a s
  | .processAvalanches => (SandPile.processAvalanches t s).1
  | .stabilize m => (SandPile.stabilize t s m).1
  | .setRandomnessFactor f => SandPile.setRandomnessFactor f s

/-- Run a sequence of driver operations. -/
def runGridOps (t : ℕ → ℚ) (ops : List GridOp) (s : SandPile) : SandPile :=
  ops.foldl (applyGridOp t) s

/-! ## SeismographData — the Signal Deriver's circular buffer
(`src/core/SeismographData.js`) -/

/-- The buffer-relevant state of `SeismographData`.  Sample values are
abstracted as exact rationals; a buffer cell is `Option ℚ` where `none` is the
`NaN` a `Float32Array` yields/stores for an out-of-range (negative-index)
read. -/
structure SeismographData where
  bufferSize : ℕ
  signalBuffer : List (Option ℚ)
  bufferIndex : ℕ
  bufferFull : Bool
deriving DecidableEq, Repr

namespace SeismographData

/-- Constructor: zero-filled `Float32Array(bufferSize)`, cursor 0, not full. -/
def init (bufferSize : ℕ) : SeismographData :=
  { bufferSize := bufferSize
    signalBuffer := List.replicate bufferSize (some 0)
    bufferIndex := 0
    bufferFull := false }

/-- `addSample(sample)`. -/
def addSample (sample : ℚ) (d : SeismographData) : SeismographData :=
  let buf := d.signalBuffer.set d.bufferIndex (some sample)
  let idx := (d.bufferIndex + 1) % d.bufferSize
  { d with signalBuffer := buf
           bufferIndex := idx
           bufferFull := if idx = 0 then true else d.bufferFull }

/-- `getAvailableDataLength()`. -/
def getAvailableDataLength (d : SeismographData) : ℕ :=
  if d.bufferFull then d.bufferSize else d.bufferIndex

/-- `getSignalData(length)`.  `length = 0` plays the role of the absent /
falsy argument (`length || available`).  In the second branch the source
computes `(bufferIndex - dataLength + i + bufferSize) % bufferSize` with the
JS truncated `%`, which is negative when the numerator is negative; a
`Float32Array` read at a negative index yields `undefined`, stored as `NaN`
(`none`). -/
def getSignalData (d : SeismographData) (length : ℕ) : List (Option ℚ) :=
  let dataLength := if length = 0 then d.getAvailableDataLength else length
  if d.bufferFull = false ∧ d.bufferIndex < dataLength then
    (List.range dataLength).map
      (fun i => if i < d.bufferIndex then d.signalBuffer.getD i (some 0) else some 0)
  else
    (List.range dataLength).map
      (fun (i : ℕ) =>
        let bufferPos : ℤ :=
          Int.tmod ((d.bufferIndex : ℤ) - dataLength + (i : ℤ) + d.bufferSize) d.bufferSize
        if 0 ≤ bufferPos ∧ bufferPos < (d.bufferSize : ℤ) then
          d.signalBuffer.getD bufferPos.toNat (some 0)
        else none)

/-- The effect on the buffer of a sequence of `update(currentGrid)` calls:
each `update` computes one signal value (from the grid delta, noise and
smoothing — abstracted here as the pushed value) and pushes it with
`addSample`. -/
def pushSamples (samples : List ℚ) (d : SeismographData) : SeismographData :=
  samples.foldl (fun st v => addSample v st) d

end SeismographData

/-! ## SandSource (`src/core/SandSource.js`) -/

/-- State of a `SandSource` (visual/world fields omitted; they are outputs of
the excluded rendering layer and do not feed back into the core). -/
structure SandSource where
  gridX : ℕ
  gridY : ℕ
  sandRate : ℚ
  accumulator : ℚ
  active : Bool
deriving DecidableEq, Repr

namespace SandSource

/-- `update(deltaTime, globalSpeedMultiplier)`: returns the integer number of
grains to add this frame, and the updated source. -/
def update (deltaTime globalSpeedMultiplier : ℚ) (src : SandSource) :
    ℤ × SandSource :=
  if src.active = false then (0, src)
  else
    let effectiveRate := src.sandRate * globalSpeedMultiplier
    let acc := src.accumulator + effectiveRate * deltaTime
    let grainsToAdd := Int.floor acc
    (grainsToAdd, { src with accumulator := acc - grainsToAdd })

end SandSource

/-! ## Simulation — the Simulation Controller (`src/core/Simulation.js`) -/

/-- State of the `Simulation` class (timing scalars as exact rationals;
`performance.now()` is an input to `update`). -/
structure Simulation where
  sandPile : SandPile
  sources : List SandSource
  globalSpeed : ℚ
  paused : Bool
  gridSize : ℕ
  frameCount : ℕ
  simulationTime : ℚ
  lastUpdateTime : ℚ
deriving DecidableEq, Repr

namespace Simulation

/-- `updateSources(deltaTime)`: update each source in order and feed its
grains to the sand pile. -/
def updateSources (deltaTime : ℚ) (sim : Simulation) : Simulation :=
  let res := sim.sources.foldl
    (fun (acc : SandPile × List SandSource) source =>
      let (grains, source2) := source.update deltaTime sim.globalSpeed
      let pile :=
        if 0 < grains then
          SandPile.addSand (source2.gridX : ℤ) (source2.gridY : ℤ) grains acc.1
        else acc.1
      (pile, acc.2 ++ [source2]))
    (sim.sandPile, [])
  { sim with sandPile := res.1, sources := res.2 }

/-- The bounded relaxation loop of `Simulation.processAvalanches`
(`maxIterationsPerFrame = 5`), by fuel. -/
def processLoop (t : ℕ → ℚ) : ℕ → SandPile → SandPile
  | 0, p => p
  | fuel + 1, p =>
    if p.isStable then p
    else processLoop t fuel (SandPile.processAvalanches t p).1

/-- `Simulation.processAvalanches()`: at most 5 relaxation passes per frame. -/
def processAvalanches (t : ℕ → ℚ) (sim : Simulation) : Simulation :=
  { sim with sandPile := processLoop t 5 sim.sandPile }

/-- `update()`: short-circuits when paused; otherwise advances time, emits
sand from the sources and runs the bounded avalanche relaxation.
`currentTime` is the `performance.now()` reading (milliseconds). -/
def update (t : ℕ → ℚ) (currentTime : ℚ) (sim : Simulation) : Simulation :=
  if sim.paused then sim
  else
    let deltaTime := (currentTime - sim.lastUpdateTime) / 1000
    let sim1 := { sim with lastUpdateTime := currentTime
                           simulationTime := sim.simulationTime + deltaTime
                           frameCount := sim.frameCount + 1 }
    let sim2 := updateSources deltaTime sim1
    processAvalanches t sim2

/-- `setPaused(paused)`: on resume the elapsed-time baseline is reset to the
current `performance.now()` reading. -/
def setPaused (paused : Bool) (currentTime : ℚ) (sim : Simulation) : Simulation :=
  let sim1 := { sim with paused := paused }
  if paused = false then { sim1 with lastUpdateTime := currentTime } else sim1

/-- `removeSource(index)` (source default `index = -1`): returns the removed
source (or `null`) and the updated controller. -/
def removeSource (sim : Simulation) (index : ℤ) : Option SandSource × Simulation :=
  if sim.sources.length = 0 then (none, sim)
  else if index = -1 then
    (sim.sources.getLast?, { sim with sources := sim.sources.dropLast })
  else if 0 ≤ index ∧ index < sim.sources.length then
    (sim.sources.get? index.toNat, { sim with sources := sim.sources.eraseIdx index.toNat })
  else (none, sim)

/-- `getSourceCount()`. -/
def getSourceCount (sim : Simulation) : ℕ := sim.sources.length

end Simulation

/-! ## Auxiliary definitions for the verification -/

namespace SandPile

/-- Shape well-formedness of the grid: a `size × size` matrix. -/
def wf (s : SandPile) : Prop :=
  s.grid.length = s.size ∧ ∀ row ∈ s.grid, row.length = s.size

instance (s : SandPile) : Decidable s.wf := by
  unfold wf
  infer_instance

/-- The amount injected by a driver operation (0 for non-`addSand` ops). -/
def opAmount : GridOp → ℤ
  | .addSand _ _ a => a
  | _ => 0

/-- Every cell (within the region `R`) whose height has reached the critical
mass is recorded in `u` or in the pending set `S`. -/
def covered (s : SandPile) (R : ℕ → ℕ → Prop) (u S : List Cell) : Prop :=
  ∀ p q : ℕ, R p q → s.criticalMass ≤ s.getGrid p q → (p, q) ∈ u ∨ (p, q) ∈ S

/-- Whether a (possibly off-grid) ℤ-coordinate pair is in range and lands on
the natural-number cell `(p, q)`.  Used to count how many entries of a
neighbor list write to a given cell. -/
def hits (size p q : ℕ) (nb : ℤ × ℤ) : Bool :=
  decide (isValidGridPosition nb.1 nb.2 size) &&
    decide (nb.1.toNat = p) && decide (nb.2.toNat = q)

/-- The conservation invariant of the Grid Engine: a well-formed grid of
non-negative heights, a randomness factor clamped to `[0,1]`, only in-range
unstable cells, and a running total that equals the sum of all heights. -/
def conserved (s : SandPile) : Prop :=
  s.wf ∧ (∀ p q : ℕ, 0 ≤ s.getGrid p q) ∧
  0 ≤ s.randomnessFactor ∧ s.randomnessFactor ≤ 1 ∧
  (∀ c ∈ s.unstableCells, c.1 < s.size ∧ c.2 < s.size) ∧
  s.totalSand = s.gridSum

end SandPile

/-- The all-zeros `Math.random` tape (used for runs that never draw). -/
def tapeZero : ℕ → ℚ := fun _ => 0

/-! # Theorems -/

/-! ## C6 — boundary leniency of `addSand` / `getSand` -/

/-- **C6.** Out-of-range coordinates passed to `addSand` are a complete no-op:
the entire state (grid, `totalSand`, unstable set, statistics) is unchanged;
and `getSand` at out-of-range coordinates returns 0.  Neither raises an
error. -/
theorem SandPile.boundary_leniency (s : SandPile) (x y a : ℤ)
    (h : ¬ isValidGridPosition x y s.size) :
    SandPile.addSand x y a s = s ∧ SandPile.getSand s x y = 0 := by
  constructor
  · simp [SandPile.addSand, h]
  · simp [SandPile.getSand, h]

/-- Witness for C6 at the spec's example input `addSand(-1, -1, 5)` on a
concrete 3×3 grid. -/
theorem SandPile.boundary_leniency_witness :
    SandPile.addSand (-1) (-1) 5 (SandPile.init 3 4) = SandPile.init 3 4 ∧
    SandPile.getSand (SandPile.init 3 4) (-1) (-1) = 0 :=
  SandPile.boundary_leniency (SandPile.init 3 4) (-1) (-1) 5 (by decide)

/-! ## C8 — pause freezes the Simulation Controller -/

/-- **C8.** When the Simulation Controller is paused, `update()` short-circuits
before any mutation: the resulting state (sand pile grid, sources with their
carry accumulators, statistics, frame count, simulation time, timing baseline)
is exactly the state before the call. -/
theorem Simulation.update_paused_frozen (t : ℕ → ℚ) (currentTime : ℚ)
    (sim : Simulation) (h : sim.paused = true) :
    Simulation.update t currentTime sim = sim := by
  simp [Simulation.update, h]

/-- Witness for C8 on a concrete paused controller with one source. -/
theorem Simulation.update_paused_frozen_witness :
    Simulation.update tapeZero 500
      { sandPile := SandPile.init 4 4
        sources := [{ gridX := 1, gridY := 2, sandRate := 1, accumulator := 1/2, active := true }]
        globalSpeed := 1
        paused := true
        gridSize := 4
        frameCount := 7
        simulationTime := 3
        lastUpdateTime := 100 } =
      { sandPile := SandPile.init 4 4
        sources := [{ gridX := 1, gridY := 2, sandRate := 1, accumulator := 1/2, active := true }]
        globalSpeed := 1
        paused := true
        gridSize := 4
        frameCount := 7
        simulationTime := 3
        lastUpdateTime := 100 } :=
  Simulation.update_paused_frozen tapeZero 500 _ rfl

/-! ## C9 — exact emission carry of a sand source -/

/-- **C9.** One `update(deltaTime, speed)` step of an active source adds
`rate·speed·deltaTime` to the carry accumulator, returns the floor of the new
accumulator value as the grain count, and retains exactly the fractional part:
grains + accumulator-after = accumulator-before + rate·speed·deltaTime, and
the accumulator after the call lies in `[0, 1)`.  An inactive source returns 0
grains and is left entirely unchanged. -/
theorem SandSource.update_carry_exact (src : SandSource) (dt mult : ℚ) :
    (src.active = true →
      (src.update dt mult).1 = ⌊src.accumulator + src.sandRate * mult * dt⌋ ∧
      ((src.update dt mult).1 : ℚ) + (src.update dt mult).2.accumulator =
        src.accumulator + src.sandRate * mult * dt ∧
      0 ≤ (src.update dt mult).2.accumulator ∧
      (src.update dt mult).2.accumulator < 1) ∧
    (src.active = false → src.update dt mult = (0, src)) := by
  constructor
  · intro h
    refine ⟨?_, ?_, ?_, ?_⟩
    · simp [SandSource.update, h]
    · simp only [SandSource.update, h, Bool.true_eq_false, if_false]
      ring
    · simp only [SandSource.update, h, Bool.true_eq_false, if_false]
      rw [Int.self_sub_floor]
      exact Int.fract_nonneg _
    · simp only [SandSource.update, h, Bool.true_eq_false, if_false]
      rw [Int.self_sub_floor]
      exact Int.fract_lt_one _
  · intro h
    simp [SandSource.update, h]

/-- Witness for C9: an active source with rate 3/2, accumulator 1/4, speed 2,
elapsed time 1/2 emits `⌊1/4 + 3/2·2·1/2⌋ = 1` grain and keeps carry 3/4; an
inactive copy is untouched. -/
theorem SandSource.update_carry_exact_witness :
    (({ gridX := 0, gridY := 0, sandRate := 3/2, accumulator := 1/4,
        active := true } : SandSource).update (1/2) 2).1 =
      ⌊(1/4 : ℚ) + 3/2 * 2 * (1/2)⌋ ∧
    (({ gridX := 0, gridY := 0, sandRate := 3/2, accumulator := 1/4,
        active := false } : SandSource).update (1/2) 2) =
      (0, { gridX := 0, gridY := 0, sandRate := 3/2, accumulator := 1/4,
            active := false }) :=
  ⟨((SandSource.update_carry_exact _ (1/2) 2).1 rfl).1,
   (SandSource.update_carry_exact _ (1/2) 2).2 rfl⟩

/-! ## C10 — `removeSource` edge cases -/

/-- **C10.** `removeSource` returns `null` and leaves the source collection
unchanged when the collection is empty, or when an explicit index other than
`-1` lies outside `[0, sourceCount)`.  Otherwise it removes exactly one
source — the most recently added one for index `-1` (the default), else the
one at the given index — returns it, and decreases the count by one. -/
theorem Simulation.removeSource_spec (sim : Simulation) (index : ℤ) :
    (sim.sources = [] → sim.removeSource index = (none, sim)) ∧
    (index ≠ -1 → (index < 0 ∨ (sim.sources.length : ℤ) ≤ index) →
      sim.removeSource index = (none, sim)) ∧
    (sim.sources ≠ [] →
      (sim.removeSource (-1)).1 = sim.sources[sim.sources.length - 1]? ∧
      (sim.removeSource (-1)).2.sources = sim.sources.take (sim.sources.length - 1) ∧
      (sim.removeSource (-1)).2.sources.length + 1 = sim.sources.length) ∧
    (0 ≤ index → index < sim.sources.length →
      (sim.removeSource index).1 = sim.sources[index.toNat]? ∧
      (sim.removeSource index).2.sources =
        sim.sources.take index.toNat ++ sim.sources.drop (index.toNat + 1) ∧
      (sim.removeSource index).2.sources.length + 1 = sim.sources.length) := by
  refine ⟨?_, ?_, ?_, ?_⟩
  · intro h
    simp [Simulation.removeSource, h]
  · intro h1 h2
    have hlen : ¬ (sim.sources.length = 0) ∨ sim.sources.length = 0 := by tauto
    rcases Decidable.em (sim.sources.length = 0) with h0 | h0
    · simp [Simulation.removeSource, h0]
    · have : ¬ (0 ≤ index ∧ index < (sim.sources.length : ℤ)) := by omega
      simp [Simulation.removeSource, h0, h1, this]
  · intro h
    have h0 : ¬ (sim.sources.length = 0) := by
      simpa [List.length_eq_zero] using h
    constructor
    · simp [Simulation.removeSource, h0, List.getLast?_eq_getElem?]
    constructor
    · simp [Simulation.removeSource, h0, List.dropLast_eq_take]
    · simp only [Simulation.removeSource, h0, if_false, if_true, reduceIte]
      have : sim.sources.dropLast.length = sim.sources.length - 1 :=
        List.length_dropLast _
      omega
  · intro h1 h2
    have h0 : ¬ (sim.sources.length = 0) := by omega
    have hne : index ≠ -1 := by omega
    have hin : 0 ≤ index ∧ index < (sim.sources.length : ℤ) := ⟨h1, h2⟩
    have hlt : index.toNat < sim.sources.length := by omega
    refine ⟨?_, ?_, ?_⟩
    · simp [Simulation.removeSource, h0, hne, hin]
    · simp [Simulation.removeSource, h0, hne, hin, List.eraseIdx_eq_take_drop_succ]
    · simp only [Simulation.removeSource, h0, hne, hin, if_false, if_true, reduceIte,
        and_self]
      rw [List.length_eraseIdx]
      simp only [hlt, if_true]
      omega

/-- Witness for C10: on a two-source collection, default removal pops the most
recent source; an out-of-range index 5 is a no-op returning `null`. -/
theorem Simulation.removeSource_spec_witness :
    (let sim : Simulation :=
      { sandPile := SandPile.init 2 4
        sources := [{ gridX := 0, gridY := 0, sandRate := 1, accumulator := 0, active := true },
                    { gridX := 1, gridY := 1, sandRate := 2, accumulator := 0, active := true }]
        globalSpeed := 1, paused := false, gridSize := 2
        frameCount := 0, simulationTime := 0, lastUpdateTime := 0 }
     (sim.removeSource (-1)).1 = sim.sources[1]? ∧
     (sim.removeSource (-1)).2.sources.length + 1 = 2 ∧
     sim.removeSource 5 = (none, sim)) := by
  refine ⟨((Simulation.removeSource_spec _ (-1)).2.2.1 (by decide)).1, ?_, ?_⟩
  · exact ((Simulation.removeSource_spec _ (-1)).2.2.1 (by decide)).2.2
  · exact (Simulation.removeSource_spec _ 5).2.1 (by decide) (by decide)

/-! ## Grid access lemmas -/

theorem getD_set_self {α : Type} (l : List α) (i : ℕ) (a d : α) (h : i < l.length) :
    (l.set i a).getD i d = a := by
  induction l generalizing i with
  | nil => simp at h
  | cons b tl ih =>
    cases i with
    | zero => rfl
    | succ j => simpa using ih j (by simpa using h)

theorem getD_set_ne {α : Type} (l : List α) (i j : ℕ) (a d : α) (h : i ≠ j) :
    (l.set i a).getD j d = l.getD j d := by
  induction l generalizing i j with
  | nil => simp [List.set]
  | cons b tl ih =>
    cases i with
    | zero =>
      cases j with
      | zero => exact absurd rfl h
      | succ k => rfl
    | succ m =>
      cases j with
      | zero => rfl
      | succ k => simpa using ih m k (by omega)

theorem getD_eq_default' {α : Type} (l : List α) (i : ℕ) (d : α) (h : l.length ≤ i) :
    l.getD i d = d := by
  induction l generalizing i with
  | nil => simp
  | cons b tl ih =>
    cases i with
    | zero => simp at h
    | succ j => simpa using ih j (by simpa using h)

namespace SandPile

theorem getGrid_setGrid_ne (s : SandPile) (x y : ℕ) (v : ℤ) (p q : ℕ)
    (h : ¬(p = x ∧ q = y)) : (s.setGrid x y v).getGrid p q = s.getGrid p q := by
  unfold getGrid setGrid
  simp only
  rcases Decidable.em (p = x) with hp | hp
  · subst hp
    have hq : q ≠ y := by tauto
    rcases Decidable.em (p < s.grid.length) with hl | hl
    · rw [getD_set_self _ _ _ _ hl, getD_set_ne _ _ _ _ _ (by omega)]
    · rw [List.set_eq_of_length_le (by omega)]
  · rw [getD_set_ne _ _ _ _ _ (fun hc => hp hc.symm)]

theorem getGrid_setGrid_self (s : SandPile) (x y : ℕ) (v : ℤ)
    (hx : x < s.grid.length) (hy : y < (s.grid.getD x []).length) :
    (s.setGrid x y v).getGrid x y = v := by
  unfold getGrid setGrid
  simp only
  rw [getD_set_self _ _ _ _ hx, getD_set_self _ _ _ _ hy]

theorem wf_setGrid (s : SandPile) (x y : ℕ) (v : ℤ) (hwf : s.wf) :
    (s.setGrid x y v).wf := by
  obtain ⟨hlen, hrows⟩ := hwf
  rcases Decidable.em (x < s.grid.length) with hl | hl
  · refine ⟨by simpa [setGrid] using hlen, ?_⟩
    intro row hrow
    simp only [setGrid] at hrow
    rcases List.mem_or_eq_of_mem_set hrow with hmem | heq
    · exact hrows row hmem
    · subst heq
      rw [List.length_set]
      have hgx : s.grid.getD x [] = s.grid[x] := by
        rw [List.getD_eq_getElem?_getD, List.getElem?_eq_getElem hl]
        rfl
      rw [hgx]
      exact hrows _ (List.getElem_mem hl)
  · have hid : s.grid.set x ((s.grid.getD x []).set y v) = s.grid :=
      List.set_eq_of_length_le (by omega)
    unfold setGrid
    rw [hid]
    exact ⟨hlen, hrows⟩

theorem size_setGrid (s : SandPile) (x y : ℕ) (v : ℤ) :
    (s.setGrid x y v).size = s.size := rfl

theorem sum_set_int (l : List ℤ) (i : ℕ) (v : ℤ) (h : i < l.length) :
    (l.set i v).sum = l.sum + v - l.getD i 0 := by
  induction l generalizing i with
  | nil => simp at h
  | cons a tl ih =>
    cases i with
    | zero => simp [List.set]; ring
    | succ j =>
      simp only [List.set, List.sum_cons, List.getD_cons_succ]
      rw [ih j (by simpa using h)]
      ring

theorem gridSum_setGrid (s : SandPile) (x y : ℕ) (v : ℤ) (hwf : s.wf)
    (hx : x < s.size) (hy : y < s.size) :
    (s.setGrid x y v).gridSum = s.gridSum + v - s.getGrid x y := by
  obtain ⟨hlen, hrows⟩ := hwf
  have hx2 : x < s.grid.length := by omega
  have hrow : s.grid.getD x [] = s.grid[x] := by
    rw [List.getD_eq_getElem?_getD, List.getElem?_eq_getElem hx2]
    rfl
  have hy2 : y < (s.grid.getD x []).length := by
    rw [hrow]
    have := hrows _ (List.getElem_mem hx2)
    omega
  unfold gridSum setGrid getGrid
  simp only [List.map_set]
  rw [sum_set_int _ x _ (by simpa using hx2), sum_set_int _ y v hy2]
  have hmap : (s.grid.map List.sum).getD x 0 = (s.grid.getD x []).sum := by
    rw [List.getD_eq_getElem?_getD, List.getElem?_map, List.getElem?_eq_getElem hx2, hrow]
    rfl
  rw [hmap]
  ring

theorem addSandToCell_fst (x y : ℕ) (a : ℤ) (s : SandPile) (u : List Cell) :
    (SandPile.addSandToCell x y a s u).1 = s.setGrid x y (s.getGrid x y + a) := by
  simp only [addSandToCell]
  split <;> rfl

theorem addSandToCell_snd (x y : ℕ) (a : ℤ) (s : SandPile) (u : List Cell) :
    (SandPile.addSandToCell x y a s u).2 = u ∨
    (SandPile.addSandToCell x y a s u).2 = addCell u (x, y) := by
  simp only [addSandToCell]
  split
  · right; rfl
  · left; rfl

end SandPile

/-! ## Deterministic distribution and topple characterization -/

namespace SandPile

/-- Pointwise effect of a single `addSandToCell` on the grid, for in-range
target coordinates. -/
theorem addSandToCell_getGrid (x y : ℕ) (a : ℤ) (s : SandPile) (u : List Cell)
    (hwf : s.wf) (hx : x < s.size) (hy : y < s.size) (p q : ℕ) :
    (SandPile.addSandToCell x y a s u).1.getGrid p q =
      if p = x ∧ q = y then s.getGrid x y + a else s.getGrid p q := by
  rw [addSandToCell_fst]
  rcases Decidable.em (p = x ∧ q = y) with hc | hc
  · obtain ⟨rfl, rfl⟩ := hc
    rw [if_pos ⟨rfl, rfl⟩]
    obtain ⟨hlen, hrows⟩ := hwf
    have hx2 : p < s.grid.length := by omega
    refine getGrid_setGrid_self s p q _ hx2 ?_
    have hrow : s.grid.getD p [] = s.grid[p] := by
      rw [List.getD_eq_getElem?_getD, List.getElem?_eq_getElem hx2]
      rfl
    rw [hrow]
    have := hrows _ (List.getElem_mem hx2)
    omega
  · rw [if_neg hc]
    exact getGrid_setGrid_ne s x y _ p q hc

/-- Frame facts for `addSandToCell`: everything except the grid and the new
unstable set is untouched. -/
theorem addSandToCell_frame (x y : ℕ) (a : ℤ) (s : SandPile) (u : List Cell) :
    (SandPile.addSandToCell x y a s u).1.size = s.size ∧
    (SandPile.addSandToCell x y a s u).1.criticalMass = s.criticalMass ∧
    (SandPile.addSandToCell x y a s u).1.randomnessFactor = s.randomnessFactor ∧
    (SandPile.addSandToCell x y a s u).1.totalSand = s.totalSand ∧
    (SandPile.addSandToCell x y a s u).1.lostSand = s.lostSand ∧
    (SandPile.addSandToCell x y a s u).1.rngCount = s.rngCount ∧
    (SandPile.addSandToCell x y a s u).1.unstableCells = s.unstableCells := by
  rw [addSandToCell_fst]
  exact ⟨rfl, rfl, rfl, rfl, rfl, rfl, rfl⟩

/-- Characterization of the deterministic neighbor distribution: each cell
gains `n` for every entry of the neighbor list that is in range and lands on
it, and the shape facts are preserved. -/
theorem distributeToNeighbors_spec (n : ℤ) (nbs : List (ℤ × ℤ)) :
    ∀ (s : SandPile) (u : List Cell), s.wf →
      (SandPile.distributeToNeighbors n nbs s u).1.wf ∧
      (SandPile.distributeToNeighbors n nbs s u).1.size = s.size ∧
      (SandPile.distributeToNeighbors n nbs s u).1.criticalMass = s.criticalMass ∧
      (SandPile.distributeToNeighbors n nbs s u).1.randomnessFactor = s.randomnessFactor ∧
      (SandPile.distributeToNeighbors n nbs s u).1.rngCount = s.rngCount ∧
      ∀ p q : ℕ,
        (SandPile.distributeToNeighbors n nbs s u).1.getGrid p q =
          s.getGrid p q + n * ((nbs.filter (SandPile.hits s.size p q)).length : ℤ) := by
  induction nbs with
  | nil =>
    intro s u hwf
    refine ⟨hwf, rfl, rfl, rfl, rfl, ?_⟩
    intro p q
    simp [distributeToNeighbors]
  | cons nb rest ih =>
    intro s u hwf
    rcases Decidable.em (isValidGridPosition nb.1 nb.2 s.size) with hv | hv
    · have hstep : SandPile.distributeToNeighbors n (nb :: rest) s u =
          SandPile.distributeToNeighbors n rest
            (SandPile.addSandToCell nb.1.toNat nb.2.toNat n s u).1
            (SandPile.addSandToCell nb.1.toNat nb.2.toNat n s u).2 := by
        simp only [distributeToNeighbors, List.foldl_cons, if_pos hv]
      obtain ⟨hv1, hv2, hv3, hv4⟩ := hv
      have hxlt : nb.1.toNat < s.size := by omega
      have hylt : nb.2.toNat < s.size := by omega
      set s1 := (SandPile.addSandToCell nb.1.toNat nb.2.toNat n s u).1 with hs1
      have hwf1 : s1.wf := by
        rw [hs1, addSandToCell_fst]
        exact wf_setGrid s _ _ _ hwf
      have hsz1 : s1.size = s.size := (addSandToCell_frame _ _ _ _ _).1
      obtain ⟨hw, hsz, hcm, hrf, hrng, hpt⟩ :=
        ih s1 (SandPile.addSandToCell nb.1.toNat nb.2.toNat n s u).2 hwf1
      rw [hstep]
      refine ⟨hw, by rw [hsz, hsz1], ?_, ?_, ?_, ?_⟩
      · rw [hcm, hs1]; exact (addSandToCell_frame _ _ _ _ _).2.1
      · rw [hrf, hs1]; exact (addSandToCell_frame _ _ _ _ _).2.2.1
      · rw [hrng, hs1]; exact (addSandToCell_frame _ _ _ _ _).2.2.2.2.2.1
      · intro p q
        rw [hpt p q, hsz1]
        rw [hs1, addSandToCell_getGrid _ _ _ _ _ hwf hxlt hylt]
        have hvd : decide (isValidGridPosition nb.1 nb.2 s.size) = true := by
          simpa using ⟨hv1, hv2, hv3, hv4⟩
        have hhit : SandPile.hits s.size p q nb =
            decide (p = nb.1.toNat ∧ q = nb.2.toNat) := by
          unfold hits
          rw [hvd, Bool.true_and, ← Bool.decide_and]
          apply decide_eq_decide.mpr
          constructor
          · rintro ⟨h1, h2⟩
            exact ⟨h1.symm, h2.symm⟩
          · rintro ⟨h1, h2⟩
            exact ⟨h1.symm, h2.symm⟩
        rw [List.filter_cons, hhit]
        rcases Decidable.em (p = nb.1.toNat ∧ q = nb.2.toNat) with hc | hc
        · have hd : decide (p = nb.1.toNat ∧ q = nb.2.toNat) = true := by
            simpa using hc
          rw [hd, if_pos hc]
          simp only [if_true, List.length_cons]
          obtain ⟨rfl, rfl⟩ := hc
          push_cast
          ring
        · have hd : decide (p = nb.1.toNat ∧ q = nb.2.toNat) = false := by
            simpa using hc
          rw [hd, if_neg hc]
          simp only [Bool.false_eq_true, if_false]
    · have hstep : SandPile.distributeToNeighbors n (nb :: rest) s u =
          SandPile.distributeToNeighbors n rest
            { s with totalSand := s.totalSand - n, lostSand := s.lostSand + n } u := by
        simp only [distributeToNeighbors, List.foldl_cons, if_neg hv]
      set s1 : SandPile := { s with totalSand := s.totalSand - n, lostSand := s.lostSand + n }
      have hwf1 : s1.wf := hwf
      obtain ⟨hw, hsz, hcm, hrf, hrng, hpt⟩ := ih s1 u hwf1
      rw [hstep]
      refine ⟨hw, hsz, hcm, hrf, hrng, ?_⟩
      intro p q
      rw [hpt p q]
      have hgg : s1.getGrid p q = s.getGrid p q := rfl
      have hhit : SandPile.hits s.size p q nb = false := by
        simp only [hits, Bool.and_eq_true, decide_eq_true_eq]
        simp [hv]
      rw [hgg, List.filter_cons]
      have hsz1 : s1.size = s.size := rfl
      rw [hsz1, hhit]
      simp only [Bool.false_eq_true, if_false]

end SandPile

namespace SandPile

/-- In the deterministic case (`randomnessFactor = 0`), `topple` sets the
toppled cell to `h tmod 4` and gives `h fdiv 4` to every neighbor-list entry
that lands on a cell (counting multiplicity, which is 0 or 1 here). -/
theorem topple_rand0_spec (t : ℕ → ℚ) (x y : ℕ) (s : SandPile) (u : List Cell)
    (hwf : s.wf) (hr : s.randomnessFactor = 0) (hx : x < s.size) (hy : y < s.size) :
    (SandPile.topple t x y s u).1.wf ∧
    (SandPile.topple t x y s u).1.size = s.size ∧
    ∀ p q : ℕ,
      (SandPile.topple t x y s u).1.getGrid p q =
        (if p = x ∧ q = y then Int.tmod (s.getGrid x y) 4 else s.getGrid p q) +
        Int.fdiv (s.getGrid x y) 4 *
          (((getNeighbors x y).filter (SandPile.hits s.size p q)).length : ℤ) := by
  have hlen := hwf.1
  have hx2 : x < s.grid.length := by omega
  have hrowlen : y < (s.grid.getD x []).length := by
    have hget : s.grid.getD x [] = s.grid[x] := by
      rw [List.getD_eq_getElem?_getD, List.getElem?_eq_getElem hx2]
      rfl
    rw [hget]
    have := hwf.2 _ (List.getElem_mem hx2)
    omega
  set s1 := s.setGrid x y (Int.tmod (s.getGrid x y) 4) with hs1
  have hwf1 : s1.wf := wf_setGrid s _ _ _ hwf
  have hsz1 : s1.size = s.size := rfl
  have hr1 : s1.randomnessFactor = 0 := hr
  have hnotr : ¬ (0 < s1.randomnessFactor) := by
    rw [hr1]
    exact lt_irrefl 0
  have hfst : (SandPile.topple t x y s u).1 =
      (SandPile.distributeToNeighbors (Int.fdiv (s.getGrid x y) 4)
        (getNeighbors x y) s1 u).1 := by
    simp only [topple, hnotr, if_false]
    split <;> rfl
  obtain ⟨hw, hsz, _, _, _, hpt⟩ :=
    distributeToNeighbors_spec (Int.fdiv (s.getGrid x y) 4) (getNeighbors x y) s1 u hwf1
  rw [hfst]
  refine ⟨hw, by rw [hsz, hsz1], ?_⟩
  intro p q
  rw [hpt p q, hsz1]
  congr 1
  rcases Decidable.em (p = x ∧ q = y) with hc | hc
  · obtain ⟨rfl, rfl⟩ := hc
    rw [if_pos ⟨rfl, rfl⟩, hs1]
    exact getGrid_setGrid_self s p q _ hx2 hrowlen
  · rw [if_neg hc, hs1]
    exact getGrid_setGrid_ne s x y _ p q hc

end SandPile

namespace SandPile

theorem hits_eq_true_iff (size p q : ℕ) (nb : ℤ × ℤ) :
    SandPile.hits size p q nb = true ↔
      isValidGridPosition nb.1 nb.2 size ∧ nb.1.toNat = p ∧ nb.2.toNat = q := by
  simp [hits, and_assoc]

/-- The toppled cell itself is hit by none of its four neighbors. -/
theorem filter_hits_center (size x y : ℕ) :
    (getNeighbors x y).filter (SandPile.hits size x y) = [] := by
  rw [List.filter_eq_nil_iff]
  intro nb hmem
  intro hcon
  rw [hits_eq_true_iff] at hcon
  obtain ⟨⟨hv1, hv2, hv3, hv4⟩, ha, hb⟩ := hcon
  simp only [getNeighbors, List.mem_cons, List.not_mem_nil, or_false] at hmem
  rcases hmem with rfl | rfl | rfl | rfl <;> simp only at ha hb hv1 hv2 hv3 hv4 <;> omega

/-- Each in-range neighbor is hit exactly once by the four-element neighbor
list. -/
theorem filter_hits_neighbor (size x y : ℕ) (nb : ℤ × ℤ)
    (hmem : nb ∈ getNeighbors x y) (hv : isValidGridPosition nb.1 nb.2 size) :
    ((getNeighbors x y).filter (SandPile.hits size nb.1.toNat nb.2.toNat)).length = 1 := by
  obtain ⟨hv1, hv2, hv3, hv4⟩ := hv
  have self_true : SandPile.hits size nb.1.toNat nb.2.toNat nb = true :=
    (hits_eq_true_iff _ _ _ _).mpr ⟨⟨hv1, hv2, hv3, hv4⟩, rfl, rfl⟩
  have other_false : ∀ mb ∈ getNeighbors x y, mb ≠ nb →
      SandPile.hits size nb.1.toNat nb.2.toNat mb = false := by
    intro mb hmb hne
    apply Bool.eq_false_iff.mpr
    intro hcon
    rw [hits_eq_true_iff] at hcon
    obtain ⟨⟨hw1, hw2, hw3, hw4⟩, ha, hb⟩ := hcon
    simp only [getNeighbors, List.mem_cons, List.not_mem_nil, or_false] at hmb hmem
    apply hne
    rcases hmb with rfl | rfl | rfl | rfl <;>
      rcases hmem with rfl | rfl | rfl | rfl <;>
      simp only at ha hb hv1 hv2 hv3 hv4 hw1 hw2 hw3 hw4 ⊢ <;>
      first
        | rfl
        | (exact Prod.ext (by omega) (by omega))
  have d1 : ((x : ℤ) - 1, (y : ℤ)) ≠ ((x : ℤ) + 1, (y : ℤ)) := by
    intro hh
    rw [Prod.mk.injEq] at hh
    omega
  have d2 : ((x : ℤ) - 1, (y : ℤ)) ≠ ((x : ℤ), (y : ℤ) - 1) := by
    intro hh
    rw [Prod.mk.injEq] at hh
    omega
  have d3 : ((x : ℤ) - 1, (y : ℤ)) ≠ ((x : ℤ), (y : ℤ) + 1) := by
    intro hh
    rw [Prod.mk.injEq] at hh
    omega
  have d4 : ((x : ℤ) + 1, (y : ℤ)) ≠ ((x : ℤ), (y : ℤ) - 1) := by
    intro hh
    rw [Prod.mk.injEq] at hh
    omega
  have d5 : ((x : ℤ) + 1, (y : ℤ)) ≠ ((x : ℤ), (y : ℤ) + 1) := by
    intro hh
    rw [Prod.mk.injEq] at hh
    omega
  have d6 : ((x : ℤ), (y : ℤ) - 1) ≠ ((x : ℤ), (y : ℤ) + 1) := by
    intro hh
    rw [Prod.mk.injEq] at hh
    omega
  have m1 : ((x : ℤ) - 1, (y : ℤ)) ∈ getNeighbors x y := by simp [getNeighbors]
  have m2 : ((x : ℤ) + 1, (y : ℤ)) ∈ getNeighbors x y := by simp [getNeighbors]
  have m3 : ((x : ℤ), (y : ℤ) - 1) ∈ getNeighbors x y := by simp [getNeighbors]
  have m4 : ((x : ℤ), (y : ℤ) + 1) ∈ getNeighbors x y := by simp [getNeighbors]
  simp only [getNeighbors, List.mem_cons, List.not_mem_nil, or_false] at hmem
  rcases hmem with h | h | h | h
  · have f1 : SandPile.hits size nb.1.toNat nb.2.toNat ((x : ℤ) - 1, (y : ℤ)) = true := by
      rw [← h]
      exact self_true
    have f2 := other_false _ m2 (by rw [h]; exact d1.symm)
    have f3 := other_false _ m3 (by rw [h]; exact d2.symm)
    have f4 := other_false _ m4 (by rw [h]; exact d3.symm)
    simp [getNeighbors, List.filter_cons, f1, f2, f3, f4]
  · have f2 : SandPile.hits size nb.1.toNat nb.2.toNat ((x : ℤ) + 1, (y : ℤ)) = true := by
      rw [← h]
      exact self_true
    have f1 := other_false _ m1 (by rw [h]; exact d1)
    have f3 := other_false _ m3 (by rw [h]; exact d4.symm)
    have f4 := other_false _ m4 (by rw [h]; exact d5.symm)
    simp [getNeighbors, List.filter_cons, f1, f2, f3, f4]
  · have f3 : SandPile.hits size nb.1.toNat nb.2.toNat ((x : ℤ), (y : ℤ) - 1) = true := by
      rw [← h]
      exact self_true
    have f1 := other_false _ m1 (by rw [h]; exact d2)
    have f2 := other_false _ m2 (by rw [h]; exact d4)
    have f4 := other_false _ m4 (by rw [h]; exact d6.symm)
    simp [getNeighbors, List.filter_cons, f1, f2, f3, f4]
  · have f4 : SandPile.hits size nb.1.toNat nb.2.toNat ((x : ℤ), (y : ℤ) + 1) = true := by
      rw [← h]
      exact self_true
    have f1 := other_false _ m1 (by rw [h]; exact d3)
    have f2 := other_false _ m2 (by rw [h]; exact d5)
    have f3 := other_false _ m3 (by rw [h]; exact d6)
    simp [getNeighbors, List.filter_cons, f1, f2, f3, f4]

end SandPile

/-- JS `h % 4` (truncated remainder) agrees with the euclidean `%` for
non-negative `h`. -/
theorem tmod_four_eq_emod (a : ℤ) (h : 0 ≤ a) : Int.tmod a 4 = a % 4 := by
  obtain ⟨n, rfl⟩ := Int.eq_ofNat_of_zero_le h
  cases n <;> rfl

/-- JS `Math.floor(h/4)` (floor division) agrees with the euclidean `/` for
non-negative `h`. -/
theorem fdiv_four_eq_ediv (a : ℤ) (h : 0 ≤ a) : Int.fdiv a 4 = a / 4 := by
  obtain ⟨n, rfl⟩ := Int.eq_ofNat_of_zero_le h
  cases n <;> rfl

/-! ## C5 — topple step, concrete scenario and general rule -/

/-- **C5.** On an 8×8 grid with criticalMass 4 and randomness 0, starting from
all zeros, `addSand(4,4,4)` followed by one `processAvalanches()` leaves cell
(4,4) at height 0 and each orthogonal neighbor at height 1, and
`processAvalanches` returns `true`.  In general (randomness 0, non-negative
height), a topple sets the cell to `h mod 4` and adds `⌊h/4⌋` to each
in-range orthogonal neighbor. -/
theorem SandPile.topple_scenario_and_rule :
    ((SandPile.processAvalanches tapeZero
        (SandPile.addSand 4 4 4 (SandPile.init 8 4))).2 = true ∧
      (SandPile.processAvalanches tapeZero
        (SandPile.addSand 4 4 4 (SandPile.init 8 4))).1.getGrid 4 4 = 0 ∧
      (SandPile.processAvalanches tapeZero
        (SandPile.addSand 4 4 4 (SandPile.init 8 4))).1.getGrid 3 4 = 1 ∧
      (SandPile.processAvalanches tapeZero
        (SandPile.addSand 4 4 4 (SandPile.init 8 4))).1.getGrid 5 4 = 1 ∧
      (SandPile.processAvalanches tapeZero
        (SandPile.addSand 4 4 4 (SandPile.init 8 4))).1.getGrid 4 3 = 1 ∧
      (SandPile.processAvalanches tapeZero
        (SandPile.addSand 4 4 4 (SandPile.init 8 4))).1.getGrid 4 5 = 1) ∧
    (∀ (t : ℕ → ℚ) (s : SandPile) (u : List Cell) (x y : ℕ),
      s.wf → s.randomnessFactor = 0 → x < s.size → y < s.size →
      0 ≤ s.getGrid x y →
      (SandPile.topple t x y s u).1.getGrid x y = s.getGrid x y % 4 ∧
      ∀ nb ∈ getNeighbors x y, isValidGridPosition nb.1 nb.2 s.size →
        (SandPile.topple t x y s u).1.getGrid nb.1.toNat nb.2.toNat =
          s.getGrid nb.1.toNat nb.2.toNat + s.getGrid x y / 4) := by
  constructor
  · exact ⟨by decide, by decide, by decide, by decide, by decide, by decide⟩
  · intro t s u x y hwf hr hx hy hnn
    obtain ⟨_, _, hpt⟩ := SandPile.topple_rand0_spec t x y s u hwf hr hx hy
    constructor
    · rw [hpt x y, SandPile.filter_hits_center]
      simp only [List.length_nil, Nat.cast_zero, mul_zero, add_zero,
        if_pos (And.intro rfl rfl)]
      exact tmod_four_eq_emod _ hnn
    · intro nb hmem hv
      rw [hpt nb.1.toNat nb.2.toNat, SandPile.filter_hits_neighbor s.size x y nb hmem hv]
      have hne : ¬ (nb.1.toNat = x ∧ nb.2.toNat = y) := by
        obtain ⟨hv1, hv2, hv3, hv4⟩ := hv
        simp only [getNeighbors, List.mem_cons, List.not_mem_nil, or_false] at hmem
        rcases hmem with rfl | rfl | rfl | rfl <;>
          simp only at hv1 hv2 hv3 hv4 <;> intro hc <;> omega
      rw [if_neg hne, fdiv_four_eq_ediv _ hnn]
      simp

/-- Witness for the general rule of C5, instantiated on the claim's 8×8
scenario at cell (4,4) with height 4. -/
theorem SandPile.topple_scenario_and_rule_witness :
    (SandPile.topple tapeZero 4 4 (SandPile.addSand 4 4 4 (SandPile.init 8 4)) []).1.getGrid 4 4 =
      (SandPile.addSand 4 4 4 (SandPile.init 8 4)).getGrid 4 4 % 4 ∧
    ∀ nb ∈ getNeighbors 4 4,
      isValidGridPosition nb.1 nb.2 (SandPile.addSand 4 4 4 (SandPile.init 8 4)).size →
      (SandPile.topple tapeZero 4 4 (SandPile.addSand 4 4 4 (SandPile.init 8 4)) []).1.getGrid
          nb.1.toNat nb.2.toNat =
        (SandPile.addSand 4 4 4 (SandPile.init 8 4)).getGrid nb.1.toNat nb.2.toNat +
          (SandPile.addSand 4 4 4 (SandPile.init 8 4)).getGrid 4 4 / 4 :=
  SandPile.topple_scenario_and_rule.2 tapeZero
    (SandPile.addSand 4 4 4 (SandPile.init 8 4)) [] 4 4
    (by decide) (by decide) (by decide) (by decide) (by decide)

/-! ## C7 — stabilize after stabilize -/

namespace SandPile

/-- A stable state is a fixed point of the stabilize loop: 0 iterations,
state returned unchanged. -/
theorem stabilizeGo_of_stable (t : ℕ → ℚ) (fuel : ℕ) (s : SandPile)
    (h : s.unstableCells.isEmpty = true) :
    SandPile.stabilizeGo t fuel s = (s, 0) := by
  cases fuel with
  | zero => rfl
  | succ f => simp [stabilizeGo, h]

/-- The 1×1 grid with criticalMass 2 holding 2 grains relaxes to itself
forever: one relaxation pass reproduces the same grid and unstable set
(`topple` with `h = 2 < 4` redistributes nothing). -/
theorem processAvalanches_loopState (t : ℕ → ℚ) (s : SandPile)
    (h1 : s.size = 1) (h2 : s.criticalMass = 2) (h3 : s.grid = [[2]])
    (h4 : s.unstableCells = [(0, 0)]) (h5 : s.randomnessFactor = 0) :
    (SandPile.processAvalanches t s).1.size = 1 ∧
    (SandPile.processAvalanches t s).1.criticalMass = 2 ∧
    (SandPile.processAvalanches t s).1.grid = [[2]] ∧
    (SandPile.processAvalanches t s).1.unstableCells = [(0, 0)] ∧
    (SandPile.processAvalanches t s).1.randomnessFactor = 0 := by
  obtain ⟨sz, cm, g, uc, rf, ts, ta, av, rc, ls⟩ := s
  simp only at h1 h2 h3 h4 h5
  subst h1 h2 h3 h4 h5
  simp [SandPile.processAvalanches, SandPile.processCell, SandPile.topple,
    SandPile.distributeToNeighbors, SandPile.addSandToCell, SandPile.getGrid,
    SandPile.setGrid, SandPile.addCell, getNeighbors, isValidGridPosition,
    show Int.tmod 2 4 = 2 from by decide]

/-- On the looping state, the stabilize loop consumes all its fuel and keeps
looping state shape. -/
theorem stabilizeGo_loopState (t : ℕ → ℚ) (fuel : ℕ) :
    ∀ s : SandPile, s.size = 1 → s.criticalMass = 2 → s.grid = [[2]] →
    s.unstableCells = [(0, 0)] → s.randomnessFactor = 0 →
    (SandPile.stabilizeGo t fuel s).2 = fuel ∧
    (SandPile.stabilizeGo t fuel s).1.size = 1 ∧
    (SandPile.stabilizeGo t fuel s).1.criticalMass = 2 ∧
    (SandPile.stabilizeGo t fuel s).1.grid = [[2]] ∧
    (SandPile.stabilizeGo t fuel s).1.unstableCells = [(0, 0)] ∧
    (SandPile.stabilizeGo t fuel s).1.randomnessFactor = 0 := by
  induction fuel with
  | zero =>
    intro s h1 h2 h3 h4 h5
    exact ⟨rfl, h1, h2, h3, h4, h5⟩
  | succ f ih =>
    intro s h1 h2 h3 h4 h5
    have hne : s.unstableCells.isEmpty = false := by rw [h4]; rfl
    obtain ⟨p1, p2, p3, p4, p5⟩ := processAvalanches_loopState t s h1 h2 h3 h4 h5
    obtain ⟨q0, q1, q2, q3, q4, q5⟩ :=
      ih (SandPile.processAvalanches t s).1 p1 p2 p3 p4 p5
    simp only [stabilizeGo, hne, Bool.false_eq_true, if_false]
    exact ⟨by rw [q0], q1, q2, q3, q4, q5⟩

/-- **C7 (amended).** If a prior `stabilize()` achieved stability (left no
unstable cells), a subsequent `stabilize()` performs 0 iterations and returns
the state unchanged. -/
theorem stabilize_idempotent (t t2 : ℕ → ℚ) (s : SandPile) (m m2 : ℕ)
    (h : (SandPile.stabilize t s m).1.isStable = true) :
    SandPile.stabilize t2 (SandPile.stabilize t s m).1 m2 =
      ((SandPile.stabilize t s m).1, 0) :=
  stabilizeGo_of_stable t2 m2 _ h

/-- Witness for C7: one grain pile over the threshold on a 1×1 grid with
criticalMass 4 stabilizes in one pass (losing sand over the open boundary);
the second `stabilize(1000)` returns 0 iterations and the same state. -/
theorem stabilize_idempotent_witness :
    SandPile.stabilize tapeZero
      (SandPile.stabilize tapeZero (SandPile.addSand 0 0 5 (SandPile.init 1 4)) 1000).1 1000 =
    ((SandPile.stabilize tapeZero (SandPile.addSand 0 0 5 (SandPile.init 1 4)) 1000).1, 0) :=
  stabilize_idempotent tapeZero tapeZero _ 1000 1000 (by decide)

/-- **C7 (counterexample).** The claim fails for states whose first
`stabilize()` exhausts the 1000-iteration cap: on a 1×1 grid with
criticalMass 2, after `addSand(0,0,2)`, `stabilize()` spins for all 1000
iterations without reaching stability, and the immediately following
`stabilize()` again consumes 1000 iterations — not 0 as claimed. -/
theorem stabilize_idempotent_counterexample :
    (SandPile.stabilize tapeZero
      (SandPile.stabilize tapeZero (SandPile.addSand 0 0 2 (SandPile.init 1 2)) 1000).1
      1000).2 ≠ 0 := by
  have h0 : (SandPile.addSand 0 0 2 (SandPile.init 1 2)).size = 1 ∧
      (SandPile.addSand 0 0 2 (SandPile.init 1 2)).criticalMass = 2 ∧
      (SandPile.addSand 0 0 2 (SandPile.init 1 2)).grid = [[2]] ∧
      (SandPile.addSand 0 0 2 (SandPile.init 1 2)).unstableCells = [(0, 0)] ∧
      (SandPile.addSand 0 0 2 (SandPile.init 1 2)).randomnessFactor = 0 := by
    decide
  obtain ⟨h1, h2, h3, h4, h5⟩ := h0
  obtain ⟨_, q1, q2, q3, q4, q5⟩ :=
    stabilizeGo_loopState tapeZero 1000 _ h1 h2 h3 h4 h5
  have := (stabilizeGo_loopState tapeZero 1000 _ q1 q2 q3 q4 q5).1
  unfold SandPile.stabilize
  rw [this]
  decide

end SandPile

/-! ## C3 — determinism at randomness 0 -/

namespace SandPile

/-- `distributeToNeighbors` never touches the randomness factor, the RNG
cursor, the critical mass or the size (and mentions no random tape at all). -/
theorem distributeToNeighbors_frame (n : ℤ) (nbs : List (ℤ × ℤ)) :
    ∀ (s : SandPile) (u : List Cell),
      (SandPile.distributeToNeighbors n nbs s u).1.randomnessFactor = s.randomnessFactor ∧
      (SandPile.distributeToNeighbors n nbs s u).1.rngCount = s.rngCount ∧
      (SandPile.distributeToNeighbors n nbs s u).1.criticalMass = s.criticalMass ∧
      (SandPile.distributeToNeighbors n nbs s u).1.size = s.size := by
  induction nbs with
  | nil =>
    intro s u
    exact ⟨rfl, rfl, rfl, rfl⟩
  | cons nb rest ih =>
    intro s u
    rcases Decidable.em (isValidGridPosition nb.1 nb.2 s.size) with hv | hv
    · have hstep : SandPile.distributeToNeighbors n (nb :: rest) s u =
          SandPile.distributeToNeighbors n rest
            (SandPile.addSandToCell nb.1.toNat nb.2.toNat n s u).1
            (SandPile.addSandToCell nb.1.toNat nb.2.toNat n s u).2 := by
        simp only [distributeToNeighbors, List.foldl_cons, if_pos hv]
      rw [hstep]
      obtain ⟨i1, i2, i3, i4⟩ := ih (SandPile.addSandToCell nb.1.toNat nb.2.toNat n s u).1
        (SandPile.addSandToCell nb.1.toNat nb.2.toNat n s u).2
      obtain ⟨f1, f2, f3, _, _, f6, _⟩ := addSandToCell_frame nb.1.toNat nb.2.toNat n s u
      exact ⟨by rw [i1, f3], by rw [i2, f6], by rw [i3, f2], by rw [i4, f1]⟩
    · have hstep : SandPile.distributeToNeighbors n (nb :: rest) s u =
          SandPile.distributeToNeighbors n rest
            { s with totalSand := s.totalSand - n, lostSand := s.lostSand + n } u := by
        simp only [distributeToNeighbors, List.foldl_cons, if_neg hv]
      rw [hstep]
      exact ih _ u

/-- At randomness 0, `topple` takes the deterministic branch: its result does
not depend on the random tape, the RNG cursor is not advanced, and the
randomness factor, critical mass and size are preserved. -/
theorem topple_rand0_tape (t t2 : ℕ → ℚ) (x y : ℕ) (s : SandPile) (u : List Cell)
    (hr : s.randomnessFactor = 0) :
    SandPile.topple t x y s u = SandPile.topple t2 x y s u ∧
    (SandPile.topple t x y s u).1.randomnessFactor = 0 ∧
    (SandPile.topple t x y s u).1.rngCount = s.rngCount ∧
    (SandPile.topple t x y s u).1.criticalMass = s.criticalMass ∧
    (SandPile.topple t x y s u).1.size = s.size := by
  have hnot : ¬ (0 < (s.setGrid x y (Int.tmod (s.getGrid x y) 4)).randomnessFactor) := by
    have : (s.setGrid x y (Int.tmod (s.getGrid x y) 4)).randomnessFactor = 0 := hr
    rw [this]
    exact lt_irrefl 0
  obtain ⟨f1, f2, f3, f4⟩ :=
    distributeToNeighbors_frame (Int.fdiv (s.getGrid x y) 4) (getNeighbors x y)
      (s.setGrid x y (Int.tmod (s.getGrid x y) 4)) u
  refine ⟨?_, ?_, ?_, ?_, ?_⟩
  · simp only [topple, if_neg hnot]
  · simp only [topple, if_neg hnot]
    split <;> exact f1.trans hr
  · simp only [topple, if_neg hnot]
    split <;> exact f2
  · simp only [topple, if_neg hnot]
    split <;> exact f3
  · simp only [topple, if_neg hnot]
    split <;> exact f4

/-- One loop-body step of the relaxation pass, at randomness 0:
tape-independent, RNG cursor untouched, randomness/criticalMass/size
preserved. -/
theorem processCell_rand0 (t t2 : ℕ → ℚ) (acc : SandPile × List Cell × Bool)
    (c : Cell) (hr : acc.1.randomnessFactor = 0) :
    SandPile.processCell t acc c = SandPile.processCell t2 acc c ∧
    (SandPile.processCell t acc c).1.randomnessFactor = 0 ∧
    (SandPile.processCell t acc c).1.rngCount = acc.1.rngCount ∧
    (SandPile.processCell t acc c).1.criticalMass = acc.1.criticalMass ∧
    (SandPile.processCell t acc c).1.size = acc.1.size := by
  obtain ⟨e1, e2, e3, e4, e5⟩ := topple_rand0_tape t t2 c.1 c.2 acc.1 acc.2.1 hr
  refine ⟨?_, ?_, ?_, ?_, ?_⟩
  · unfold processCell
    rw [e1]
  · unfold processCell
    split
    · exact e2
    · exact hr
  · unfold processCell
    split
    · exact e3
    · rfl
  · unfold processCell
    split
    · exact e4
    · rfl
  · unfold processCell
    split
    · exact e5
    · rfl

set_option maxHeartbeats 1000000 in
/-- The relaxation pass's fold over the unstable set, at randomness 0. -/
theorem processAvalanchesFold_rand0 (t t2 : ℕ → ℚ) (cs : List Cell) :
    ∀ (acc : SandPile × List Cell × Bool), acc.1.randomnessFactor = 0 →
    List.foldl (SandPile.processCell t) acc cs =
      List.foldl (SandPile.processCell t2) acc cs ∧
    (List.foldl (SandPile.processCell t) acc cs).1.randomnessFactor = 0 ∧
    (List.foldl (SandPile.processCell t) acc cs).1.rngCount = acc.1.rngCount := by
  induction cs with
  | nil =>
    intro acc hr
    exact ⟨rfl, hr, rfl⟩
  | cons c rest ih =>
    intro acc hr
    simp only [List.foldl_cons]
    obtain ⟨e1, e2, e3, _, _⟩ := processCell_rand0 t t2 acc c hr
    obtain ⟨j1, j2, j3⟩ := ih (SandPile.processCell t acc c) e2
    exact ⟨by rw [j1, e1], j2, by rw [j3, e3]⟩

/-- `processAvalanches` at randomness 0: tape-independent, no random draw,
randomness factor preserved. -/
theorem processAvalanches_rand0 (t t2 : ℕ → ℚ) (s : SandPile)
    (hr : s.randomnessFactor = 0) :
    SandPile.processAvalanches t s = SandPile.processAvalanches t2 s ∧
    (SandPile.processAvalanches t s).1.randomnessFactor = 0 ∧
    (SandPile.processAvalanches t s).1.rngCount = s.rngCount := by
  rcases Decidable.em (s.unstableCells.isEmpty = true) with he | he
  · simp only [processAvalanches]
    rw [if_pos he, if_pos he]
    exact ⟨rfl, hr, rfl⟩
  · have he2 : s.unstableCells.isEmpty = false := by
      cases h : s.unstableCells.isEmpty
      · rfl
      · exact absurd h he
    have hr0 : ({ s with avalancheSize := 0 } : SandPile).randomnessFactor = 0 := hr
    obtain ⟨j1, j2, j3⟩ := processAvalanchesFold_rand0 t t2 s.unstableCells
      ({ s with avalancheSize := 0 }, [], false) hr0
    simp only [processAvalanches]
    rw [if_neg he, if_neg he]
    refine ⟨?_, ?_, ?_⟩
    · rw [j1]
    · split <;> exact j2
    · split <;> exact j3

end SandPile

namespace SandPile

/-- `addSand` never touches the randomness factor, RNG cursor, critical mass
or size (it mentions no random tape at all). -/
theorem addSand_frame (x y a : ℤ) (s : SandPile) :
    (SandPile.addSand x y a s).randomnessFactor = s.randomnessFactor ∧
    (SandPile.addSand x y a s).rngCount = s.rngCount ∧
    (SandPile.addSand x y a s).criticalMass = s.criticalMass ∧
    (SandPile.addSand x y a s).size = s.size := by
  simp only [addSand]
  split
  · split
    · exact ⟨rfl, rfl, rfl, rfl⟩
    · exact ⟨rfl, rfl, rfl, rfl⟩
  · exact ⟨rfl, rfl, rfl, rfl⟩

/-- The stabilize loop at randomness 0: tape-independent and no random
draws. -/
theorem stabilizeGo_rand0 (t t2 : ℕ → ℚ) (fuel : ℕ) :
    ∀ s : SandPile, s.randomnessFactor = 0 →
    SandPile.stabilizeGo t fuel s = SandPile.stabilizeGo t2 fuel s ∧
    (SandPile.stabilizeGo t fuel s).1.randomnessFactor = 0 ∧
    (SandPile.stabilizeGo t fuel s).1.rngCount = s.rngCount := by
  induction fuel with
  | zero =>
    intro s hr
    exact ⟨rfl, hr, rfl⟩
  | succ f ih =>
    intro s hr
    rcases Decidable.em (s.unstableCells.isEmpty = true) with he | he
    · rw [stabilizeGo_of_stable t _ _ he, stabilizeGo_of_stable t2 _ _ he]
      exact ⟨rfl, hr, rfl⟩
    · obtain ⟨e1, e2, e3⟩ := processAvalanches_rand0 t t2 s hr
      obtain ⟨j1, j2, j3⟩ := ih (SandPile.processAvalanches t s).1 e2
      have hstep : ∀ t3 : ℕ → ℚ, SandPile.stabilizeGo t3 (f + 1) s =
          ((SandPile.stabilizeGo t3 f (SandPile.processAvalanches t3 s).1).1,
           (SandPile.stabilizeGo t3 f (SandPile.processAvalanches t3 s).1).2 + 1) := by
        intro t3
        simp only [stabilizeGo, if_neg he]
      rw [hstep t, hstep t2]
      refine ⟨?_, j2, by rw [j3, e3]⟩
      rw [j1, e1]

/-- Running a sequence of `addSand` calls is tape-independent, draws no
randomness, and keeps randomness factor / criticalMass / size. -/
theorem runGridOps_addSand_only (t t2 : ℕ → ℚ) (ops : List GridOp) :
    ∀ s : SandPile, (∀ op ∈ ops, ∃ x y a, op = GridOp.addSand x y a) →
    runGridOps t ops s = runGridOps t2 ops s ∧
    (runGridOps t ops s).randomnessFactor = s.randomnessFactor ∧
    (runGridOps t ops s).rngCount = s.rngCount := by
  induction ops with
  | nil =>
    intro s _
    simp only [runGridOps, List.foldl_nil]
    simp
  | cons op rest ih =>
    intro s hops
    obtain ⟨x, y, a, rfl⟩ := hops op (List.mem_cons_self op rest)
    have hrest : ∀ op2 ∈ rest, ∃ x y a, op2 = GridOp.addSand x y a :=
      fun op2 h2 => hops op2 (List.mem_cons_of_mem _ h2)
    obtain ⟨j1, j2, j3⟩ := ih (SandPile.addSand x y a s) hrest
    obtain ⟨f1, f2, _, _⟩ := addSand_frame x y a s
    have hstep : ∀ t3 : ℕ → ℚ, runGridOps t3 (GridOp.addSand x y a :: rest) s =
        runGridOps t3 rest (SandPile.addSand x y a s) := fun t3 => rfl
    rw [hstep t, hstep t2]
    exact ⟨j1, by rw [j2, f1], by rw [j3, f2]⟩

end SandPile

/-! The C3 theorem itself. -/

/-- **C3.** Determinism at randomness 0: for every grid size and critical
mass, two Grid Engines with randomness factor 0 driven by the identical
sequence of `addSand` calls produce identical grids after `stabilize()`
(with its source-default cap 1000), even when their `Math.random` tapes
differ arbitrarily — and no random draw is invoked anywhere (the RNG cursor
stays at 0): the execution takes the deterministic distribution branch. -/
theorem SandPile.determinism_rand0 (size : ℕ) (crit : ℤ) (t t2 : ℕ → ℚ)
    (ops : List GridOp) (hops : ∀ op ∈ ops, ∃ x y a, op = GridOp.addSand x y a) :
    (SandPile.stabilize t (runGridOps t ops (SandPile.init size crit)) 1000).1.grid =
      (SandPile.stabilize t2 (runGridOps t2 ops (SandPile.init size crit)) 1000).1.grid ∧
    (SandPile.stabilize t (runGridOps t ops (SandPile.init size crit)) 1000).1.rngCount
      = 0 := by
  have hr0 : (SandPile.init size crit).randomnessFactor = 0 := rfl
  obtain ⟨j1, j2, j3⟩ :=
    SandPile.runGridOps_addSand_only t t2 ops (SandPile.init size crit) hops
  obtain ⟨k1, k2, k3⟩ := SandPile.stabilizeGo_rand0 t t2 1000
    (runGridOps t ops (SandPile.init size crit)) (by rw [j2]; exact hr0)
  constructor
  · unfold SandPile.stabilize
    rw [k1, j1]
  · unfold SandPile.stabilize
    rw [k3, j3]
    rfl

/-- Witness for C3: a 5×5 engine with criticalMass 4, fed `addSand(2,2,9)`,
compared across the all-zero tape and the all-one-half tape. -/
theorem SandPile.determinism_rand0_witness :
    (SandPile.stabilize tapeZero
      (runGridOps tapeZero [GridOp.addSand 2 2 9] (SandPile.init 5 4)) 1000).1.grid =
    (SandPile.stabilize (fun _ => 1/2)
      (runGridOps (fun _ => 1/2) [GridOp.addSand 2 2 9] (SandPile.init 5 4)) 1000).1.grid ∧
    (SandPile.stabilize tapeZero
      (runGridOps tapeZero [GridOp.addSand 2 2 9] (SandPile.init 5 4)) 1000).1.rngCount = 0 :=
  SandPile.determinism_rand0 5 4 tapeZero (fun _ => 1/2) [GridOp.addSand 2 2 9]
    (by
      intro op hop
      simp only [List.mem_singleton] at hop
      exact ⟨2, 2, 9, hop⟩)

/-! ## C1 — the Signal Deriver's circular buffer -/

theorem getD_replicate' {α : Type} (n i : ℕ) (a d : α) (h : i < n) :
    (List.replicate n a).getD i d = a := by
  rw [List.getD_eq_getElem?_getD, List.getElem?_replicate]
  simp [h]

/-- JS truncated `%` agrees with the euclidean `%` on non-negative operands. -/
theorem tmod_eq_emod_of_nonneg (a b : ℤ) (ha : 0 ≤ a) (hb : 0 ≤ b) :
    Int.tmod a b = a % b := by
  obtain ⟨n, rfl⟩ := Int.eq_ofNat_of_zero_le ha
  obtain ⟨k, rfl⟩ := Int.eq_ofNat_of_zero_le hb
  rfl

namespace SeismographData

theorem pushSamples_append (ss : List ℚ) (v : ℚ) (d : SeismographData) :
    SeismographData.pushSamples (ss ++ [v]) d =
      SeismographData.addSample v (SeismographData.pushSamples ss d) := by
  simp [pushSamples, List.foldl_append]

/-- State of the circular buffer after pushing the samples `ss` into a fresh
deriver of capacity `B`: the cursor is `|ss| % B`, the wrapped flag is
`B ≤ |ss|`, and slot `p` holds the latest sample whose index is congruent to
`p` mod `B` (or the initial 0 if no sample landed there). -/
theorem pushSamples_state (B : ℕ) (hB : 0 < B) (ss : List ℚ) :
    (SeismographData.pushSamples ss (SeismographData.init B)).bufferSize = B ∧
    (SeismographData.pushSamples ss (SeismographData.init B)).bufferIndex = ss.length % B ∧
    (SeismographData.pushSamples ss (SeismographData.init B)).bufferFull
      = decide (B ≤ ss.length) ∧
    (SeismographData.pushSamples ss (SeismographData.init B)).signalBuffer.length = B ∧
    ∀ p : ℕ, p < B →
      (SeismographData.pushSamples ss (SeismographData.init B)).signalBuffer.getD p (some 0) =
        if p < ss.length then
          some (ss.getD (ss.length - 1 - ((ss.length - 1 - p) % B)) 0)
        else some 0 := by
  induction ss using List.reverseRecOn with
  | nil =>
    refine ⟨rfl, by simp [pushSamples, init], by simp [pushSamples, init, Nat.not_le.mpr hB], by simp [pushSamples, init], ?_⟩
    intro p hp
    simp only [pushSamples, List.foldl_nil, init]
    rw [getD_replicate' B p _ _ hp]
    simp
  | append_singleton ss v ih =>
    obtain ⟨i0, i1, i2, i3, i4⟩ := ih
    set d := SeismographData.pushSamples ss (SeismographData.init B) with hd
    set m := ss.length with hm
    have hlen2 : (ss ++ [v]).length = m + 1 := by simp [hm]
    rw [pushSamples_append, ← hd]
    have hidx : (SeismographData.addSample v d).bufferIndex = (m + 1) % B := by
      simp only [addSample, i1, i0]
      rw [Nat.mod_add_mod]
    refine ⟨i0, ?_, ?_, ?_, ?_⟩
    · rw [hidx, hlen2]
    · show (if (d.bufferIndex + 1) % d.bufferSize = 0 then true else d.bufferFull)
        = decide (B ≤ (ss ++ [v]).length)
      rw [i0, i1, Nat.mod_add_mod, hlen2]
      rcases Decidable.em ((m + 1) % B = 0) with hz | hz
      · rw [if_pos hz]
        have : B ≤ m + 1 := Nat.le_of_dvd (by omega) (Nat.dvd_of_mod_eq_zero hz)
        simp [this]
      · rw [if_neg hz, i2]
        apply decide_eq_decide.mpr
        constructor
        · omega
        · intro h
          rcases Decidable.em (B ≤ m) with h2 | h2
          · exact h2
          · exfalso
            have he2 : m + 1 = B := by omega
            rw [he2, Nat.mod_self] at hz
            exact hz rfl
    · show (d.signalBuffer.set d.bufferIndex (some v)).length = B
      rw [List.length_set, i3]
    · intro p hp
      show (d.signalBuffer.set d.bufferIndex (some v)).getD p (some 0) = _
      rw [i1]
      rcases Decidable.em (p = m % B) with hpm | hpm
      · subst hpm
        rw [getD_set_self _ _ _ _ (by rw [i3]; exact Nat.mod_lt _ hB)]
        have hlt : m % B < m + 1 := by
          have := Nat.mod_le m B
          omega
        rw [hlen2, if_pos hlt]
        have hidx2 : m + 1 - 1 - ((m + 1 - 1 - m % B) % B) = m := by
          have e1 : m + 1 - 1 - m % B = m - m % B := by omega
          have e2 : m - m % B = B * (m / B) := by
            have := Nat.div_add_mod m B
            omega
          rw [e1, e2, Nat.mul_mod_right]
          omega
        rw [hidx2]
        have : (ss ++ [v]).getD m 0 = v := by
          rw [List.getD_eq_getElem?_getD, hm, List.getElem?_concat_length]
          rfl
        rw [this]
      · rw [getD_set_ne _ _ _ _ _ (fun hc => hpm hc.symm), i4 p hp]
        rcases Decidable.em (p < m) with hplt | hplt
        · rw [if_pos hplt, hlen2, if_pos (by omega)]
          have hBne1 : 1 < B := by
            rcases Decidable.em (B = 1) with h1 | h1
            · exfalso
              apply hpm
              rw [h1] at hp ⊢
              omega
            · omega
          have hmodne : (m - p) % B ≠ 0 := by
            intro hz
            apply hpm
            have hdvd : B * ((m - p) / B) = m - p := by
              have := Nat.div_add_mod (m - p) B
              omega
            have : m = p + B * ((m - p) / B) := by omega
            rw [this, Nat.add_mul_mod_self_left, Nat.mod_eq_of_lt hp]
          have hsucc : (m - p) % B = (m - 1 - p) % B + 1 := by
            have e1 : m - p = (m - 1 - p) + 1 := by omega
            rw [e1, Nat.add_mod]
            have h1B : 1 % B = 1 := Nat.mod_eq_of_lt hBne1
            rw [h1B]
            rcases Decidable.em ((m - 1 - p) % B + 1 < B) with hlt2 | hlt2
            · rw [Nat.mod_eq_of_lt hlt2]
            · exfalso
              have hm1 : (m - 1 - p) % B < B := Nat.mod_lt _ hB
              have he : (m - 1 - p) % B + 1 = B := by omega
              apply hmodne
              rw [e1, Nat.add_mod, h1B, he, Nat.mod_self]
          have hidx3 : m + 1 - 1 - ((m + 1 - 1 - p) % B) = m - 1 - ((m - 1 - p) % B) := by
            have e1 : m + 1 - 1 - p = m - p := by omega
            rw [e1, hsucc]
            have := Nat.mod_le (m - 1 - p) B
            omega
          rw [hidx3]
          congr 1
          rw [List.getD_eq_getElem?_getD, List.getD_eq_getElem?_getD,
            List.getElem?_append_left]
          have hmod := Nat.mod_le (m - 1 - p) B
          omega
        · rw [if_neg hplt, hlen2]
          have hge : ¬ (p < m + 1) := by
            rcases Decidable.em (p = m) with he | he
            · exfalso
              apply hpm
              rw [he]
              rw [Nat.mod_eq_of_lt (by omega)]
            · omega
          rw [if_neg hge]

end SeismographData

/-- **C1 (amended).** For every Signal Deriver of capacity `B > 0` and every
requested length `0 < len` not exceeding the number of available samples
(`len ≤ #samples pushed` and `len ≤ B`), `getSignalData(len)` returns exactly
the `len` most recent samples in chronological order (most-recent-last).
When `len` exceeds the available samples the call does NOT return only what
is available: it returns an array of exactly `len` entries (zero-padded
before the buffer wraps; with wrapped and NaN junk entries once it has) —
see the counterexample. -/
theorem SeismographData.getSignalData_recent (B len : ℕ) (ss : List ℚ)
    (hB : 0 < B) (hlen : 0 < len) (hm : len ≤ ss.length) (hBle : len ≤ B) :
    SeismographData.getSignalData
        (SeismographData.pushSamples ss (SeismographData.init B)) len =
      (ss.drop (ss.length - len)).map some := by
  obtain ⟨i0, i1, i2, i3, i4⟩ := SeismographData.pushSamples_state B hB ss
  set d := SeismographData.pushSamples ss (SeismographData.init B) with hd
  set m := ss.length with hm2
  have hz : ¬ (len = 0) := by omega
  have hcond : ¬ (d.bufferFull = false ∧ d.bufferIndex < len) := by
    rintro ⟨hf, hidx⟩
    rw [i2] at hf
    have hnb : ¬ B ≤ m := by
      intro hb
      rw [decide_eq_true hb] at hf
      exact Bool.true_eq_false.mp hf
    rw [i1, Nat.mod_eq_of_lt (by omega)] at hidx
    omega
  simp only [getSignalData, if_neg hz]
  rw [if_neg hcond]
  apply List.ext_getElem
  · simp only [List.length_map, List.length_range, List.length_drop]
    omega
  · intro i h1 h2
    simp only [List.length_map, List.length_range] at h1
    simp only [List.getElem_map, List.getElem_range, List.getElem_drop]
    set t := m - len + i with ht
    have htm : t < m := by omega
    have hnum : (d.bufferIndex : ℤ) - len + i + d.bufferSize
        = ((m % B + (B - len) + i : ℕ) : ℤ) := by
      rw [i0, i1]
      have := Nat.mod_le m B
      push_cast
      omega
    have hnat : (m % B + (B - len) + i) % B = t % B := by
      rw [Nat.add_assoc, Nat.mod_add_mod]
      have he : m + (B - len + i) = t + B := by omega
      rw [he, Nat.add_mod_right]
    have hmod : Int.tmod ((d.bufferIndex : ℤ) - len + i + d.bufferSize) d.bufferSize
        = ((t % B : ℕ) : ℤ) := by
      rw [hnum, i0, tmod_eq_emod_of_nonneg _ _ (Int.ofNat_nonneg _) (Int.ofNat_nonneg _)]
      rw [show ((m % B + (B - len) + i : ℕ) : ℤ) % ((B : ℕ) : ℤ)
          = (((m % B + (B - len) + i) % B : ℕ) : ℤ) from rfl]
      rw [hnat]
    rw [hmod]
    have hguard : (0 : ℤ) ≤ ((t % B : ℕ) : ℤ) ∧ ((t % B : ℕ) : ℤ) < (d.bufferSize : ℤ) := by
      constructor
      · exact Int.ofNat_nonneg _
      · rw [i0]
        exact_mod_cast Nat.mod_lt _ hB
    rw [if_pos hguard, Int.toNat_natCast]
    have hpm : t % B < m := by
      have := Nat.mod_le t B
      omega
    rw [i4 (t % B) (Nat.mod_lt _ hB), if_pos hpm]
    have hidx : m - 1 - ((m - 1 - t % B) % B) = t := by
      have e0 := Nat.div_add_mod t B
      have e1 : m - 1 - t % B = (m - 1 - t) + B * (t / B) := by omega
      rw [e1, Nat.add_mul_mod_self_left, Nat.mod_eq_of_lt (show m - 1 - t < B by omega)]
      omega
    rw [hidx]
    congr 1
    rw [List.getD_eq_getElem?_getD, List.getElem?_eq_getElem (by omega : t < ss.length)]
    simp only [Option.getD_some]

/-- **C1 (counterexample).** With bufferSize 4 and 6 samples pushed,
`getSignalData(10)` does not return only the 4 samples that exist: it
returns a 10-entry array (containing a stale wrapped prefix and NaN entries
from negative-index reads). -/
theorem SeismographData.getSignalData_overlong_counterexample :
    SeismographData.getSignalData
        (SeismographData.pushSamples [1, 2, 3, 4, 5, 6] (SeismographData.init 4)) 10 ≠
      List.map some [3, 4, 5, 6] := by
  decide

/-- Witness for C1 on the spec's scenario: bufferSize 4, six samples,
`getSignalData(4)` returns exactly the four most recent in order. -/
theorem SeismographData.getSignalData_recent_witness :
    SeismographData.getSignalData
        (SeismographData.pushSamples [1, 2, 3, 4, 5, 6] (SeismographData.init 4)) 4 =
      List.map some [3, 4, 5, 6] := by
  have h := SeismographData.getSignalData_recent 4 4 [1, 2, 3, 4, 5, 6]
    (by decide) (by decide) (by decide) (by decide)
  rw [h]
  decide

/-! ## C4 — the unstable set versus the set of super-critical cells -/

namespace SandPile

theorem mem_addCell_self (l : List Cell) (c : Cell) : c ∈ SandPile.addCell l c := by
  unfold addCell
  split
  · assumption
  · simp

theorem mem_addCell_of_mem (l : List Cell) (c c2 : Cell) (h : c2 ∈ l) :
    c2 ∈ SandPile.addCell l c := by
  unfold addCell
  split
  · exact h
  · exact List.mem_append_left _ h

/-- `addSandToCell` keeps every over-critical cell covered by the new
unstable set (relative to a pending set `S` and a region restriction `R`). -/
theorem addSandToCell_pred (R : ℕ → ℕ → Prop) (x y : ℕ) (a : ℤ) (s : SandPile)
    (u : List Cell) (S : List Cell)
    (hpred : ∀ p q : ℕ, R p q → s.criticalMass ≤ s.getGrid p q →
      (p, q) ∈ u ∨ (p, q) ∈ S) :
    (∀ c ∈ u, c ∈ (SandPile.addSandToCell x y a s u).2) ∧
    ∀ p q : ℕ, R p q →
      (SandPile.addSandToCell x y a s u).1.criticalMass ≤
        (SandPile.addSandToCell x y a s u).1.getGrid p q →
      (p, q) ∈ (SandPile.addSandToCell x y a s u).2 ∨ (p, q) ∈ S := by
  have hmono : ∀ c ∈ u, c ∈ (SandPile.addSandToCell x y a s u).2 := by
    intro c hc
    rcases addSandToCell_snd x y a s u with h2 | h2
    · rw [h2]
      exact hc
    · rw [h2]
      exact mem_addCell_of_mem _ _ _ hc
  refine ⟨hmono, ?_⟩
  intro p q hR hcrit
  have hcm : (SandPile.addSandToCell x y a s u).1.criticalMass = s.criticalMass :=
    (addSandToCell_frame _ _ _ _ _).2.1
  rcases Decidable.em (p = x ∧ q = y) with hc | hc
  · obtain ⟨rfl, rfl⟩ := hc
    left
    have : (SandPile.addSandToCell p q a s u).2 = addCell u (p, q) := by
      simp only [addSandToCell]
      rw [if_pos]
      rw [addSandToCell_fst] at hcrit
      exact hcrit
    rw [this]
    exact mem_addCell_self u (p, q)
  · rw [addSandToCell_fst, getGrid_setGrid_ne s x y _ p q hc] at hcrit
    rcases hpred p q hR hcrit with h | h
    · exact Or.inl (hmono _ h)
    · exact Or.inr h

end SandPile

namespace SandPile

/-- Frame facts for `jitterStep`: size, critical mass, randomness factor and
RNG cursor are untouched. -/
theorem jitterStep_frame (tj : ℤ) (tw : Qrt2) (acc : SandPile × List Cell × ℤ)
    (c : ℕ × ℕ × Qrt2) :
    (SandPile.jitterStep tj tw acc c).1.size = acc.1.size ∧
    (SandPile.jitterStep tj tw acc c).1.criticalMass = acc.1.criticalMass ∧
    (SandPile.jitterStep tj tw acc c).1.randomnessFactor = acc.1.randomnessFactor ∧
    (SandPile.jitterStep tj tw acc c).1.rngCount = acc.1.rngCount := by
  simp only [jitterStep]
  obtain ⟨f1, f2, f3, _, _, f6, _⟩ := addSandToCell_frame c.1 c.2.1
    (min acc.2.2 (Qrt2.floor (Qrt2.mul (Qrt2.ofInt tj) (Qrt2.mul c.2.2 (Qrt2.inv tw)))))
    acc.1 acc.2.1
  split
  · split
    · exact ⟨f1, f2, f3, f6⟩
    · exact ⟨rfl, rfl, rfl, rfl⟩
  · exact ⟨rfl, rfl, rfl, rfl⟩

theorem jitterStepFold_frame (tj : ℤ) (tw : Qrt2) (cs : List (ℕ × ℕ × Qrt2)) :
    ∀ acc : SandPile × List Cell × ℤ,
    (cs.foldl (SandPile.jitterStep tj tw) acc).1.size = acc.1.size ∧
    (cs.foldl (SandPile.jitterStep tj tw) acc).1.criticalMass = acc.1.criticalMass ∧
    (cs.foldl (SandPile.jitterStep tj tw) acc).1.randomnessFactor = acc.1.randomnessFactor ∧
    (cs.foldl (SandPile.jitterStep tj tw) acc).1.rngCount = acc.1.rngCount := by
  induction cs with
  | nil =>
    intro acc
    exact ⟨rfl, rfl, rfl, rfl⟩
  | cons c rest ih =>
    intro acc
    simp only [List.foldl_cons]
    obtain ⟨i1, i2, i3, i4⟩ := ih (SandPile.jitterStep tj tw acc c)
    obtain ⟨f1, f2, f3, f4⟩ := jitterStep_frame tj tw acc c
    exact ⟨i1.trans f1, i2.trans f2, i3.trans f3, i4.trans f4⟩

/-- Frame facts for `distributeJitteredSand`: size, critical mass and
randomness factor are untouched. -/
theorem distributeJitteredSand_frame (t : ℕ → ℚ) (cx cy : ℕ) (tj : ℤ)
    (radius : ℕ) (s : SandPile) (u : List Cell) :
    (SandPile.distributeJitteredSand t cx cy tj radius s u).1.size = s.size ∧
    (SandPile.distributeJitteredSand t cx cy tj radius s u).1.criticalMass = s.criticalMass ∧
    (SandPile.distributeJitteredSand t cx cy tj radius s u).1.randomnessFactor
      = s.randomnessFactor := by
  simp only [distributeJitteredSand]
  split
  · exact ⟨rfl, rfl, rfl⟩
  · obtain ⟨g1, g2, g3, _⟩ := jitterStepFold_frame tj
      ((jitterCandidates cx cy radius s.size).foldl (fun w c => Qrt2.add w c.2.2) (Qrt2.ofRat 0))
      (jitterCandidates cx cy radius s.size) (s, u, tj)
    split
    · obtain ⟨f1, f2, f3, _, _, _, _⟩ := addSandToCell_frame _ _ _ _ _
      exact ⟨f1.trans g1, f2.trans g2, f3.trans g3⟩
    · exact ⟨g1, g2, g3⟩

/-- Frame facts for `randomNeighborStep`. -/
theorem randomNeighborStep_frame (t : ℕ → ℚ) (n : ℤ) (radius : ℕ)
    (acc : SandPile × List Cell) (nb : ℤ × ℤ) :
    (SandPile.randomNeighborStep t n radius acc nb).1.size = acc.1.size ∧
    (SandPile.randomNeighborStep t n radius acc nb).1.criticalMass = acc.1.criticalMass ∧
    (SandPile.randomNeighborStep t n radius acc nb).1.randomnessFactor
      = acc.1.randomnessFactor := by
  simp only [randomNeighborStep]
  split
  · obtain ⟨f1, f2, f3, _, _, _, _⟩ := addSandToCell_frame _ _ _ _ _
    split
    · obtain ⟨g1, g2, g3⟩ := distributeJitteredSand_frame t nb.1.toNat nb.2.toNat _ radius _ _
      exact ⟨g1.trans f1, g2.trans f2, g3.trans f3⟩
    · exact ⟨f1, f2, f3⟩
  · exact ⟨rfl, rfl, rfl⟩

/-- Frame facts for `distributeWithRandomness`. -/
theorem distributeWithRandomness_frame (t : ℕ → ℚ) (n : ℤ) (nbs : List (ℤ × ℤ)) :
    ∀ (s : SandPile) (u : List Cell),
    (SandPile.distributeWithRandomness t n nbs s u).1.size = s.size ∧
    (SandPile.distributeWithRandomness t n nbs s u).1.criticalMass = s.criticalMass ∧
    (SandPile.distributeWithRandomness t n nbs s u).1.randomnessFactor
      = s.randomnessFactor := by
  have main : ∀ (cs : List (ℤ × ℤ)) (radius : ℕ) (acc : SandPile × List Cell),
      (cs.foldl (SandPile.randomNeighborStep t n radius) acc).1.size = acc.1.size ∧
      (cs.foldl (SandPile.randomNeighborStep t n radius) acc).1.criticalMass
        = acc.1.criticalMass ∧
      (cs.foldl (SandPile.randomNeighborStep t n radius) acc).1.randomnessFactor
        = acc.1.randomnessFactor := by
    intro cs
    induction cs with
    | nil =>
      intro radius acc
      exact ⟨rfl, rfl, rfl⟩
    | cons nb rest ih =>
      intro radius acc
      simp only [List.foldl_cons]
      obtain ⟨i1, i2, i3⟩ := ih radius (SandPile.randomNeighborStep t n radius acc nb)
      obtain ⟨f1, f2, f3⟩ := randomNeighborStep_frame t n radius acc nb
      exact ⟨i1.trans f1, i2.trans f2, i3.trans f3⟩
  intro s u
  simp only [distributeWithRandomness]
  exact main nbs _ (s, u)

/-- The first component of `topple` is the result of the chosen distribution
branch (the final re-check only affects the returned unstable set). -/
theorem topple_fst (t : ℕ → ℚ) (x y : ℕ) (s : SandPile) (u : List Cell) :
    (SandPile.topple t x y s u).1 =
      (if 0 < (s.setGrid x y (Int.tmod (s.getGrid x y) 4)).randomnessFactor then
        SandPile.distributeWithRandomness t (Int.fdiv (s.getGrid x y) 4)
          (getNeighbors x y) (s.setGrid x y (Int.tmod (s.getGrid x y) 4)) u
      else
        SandPile.distributeToNeighbors (Int.fdiv (s.getGrid x y) 4)
          (getNeighbors x y) (s.setGrid x y (Int.tmod (s.getGrid x y) 4)) u).1 := by
  simp only [topple]
  rcases Decidable.em (0 < (s.setGrid x y (Int.tmod (s.getGrid x y) 4)).randomnessFactor)
    with hb | hb
  · rw [if_pos hb]
    split <;> rfl
  · rw [if_neg hb]
    split <;> rfl

/-- Full frame for `topple` (any randomness): size, critical mass and
randomness factor are untouched. -/
theorem topple_frame (t : ℕ → ℚ) (x y : ℕ) (s : SandPile) (u : List Cell) :
    (SandPile.topple t x y s u).1.size = s.size ∧
    (SandPile.topple t x y s u).1.criticalMass = s.criticalMass ∧
    (SandPile.topple t x y s u).1.randomnessFactor = s.randomnessFactor := by
  rw [topple_fst]
  rcases Decidable.em (0 < (s.setGrid x y (Int.tmod (s.getGrid x y) 4)).randomnessFactor)
    with hb | hb
  · rw [if_pos hb]
    obtain ⟨g1, g2, g3⟩ := distributeWithRandomness_frame t (Int.fdiv (s.getGrid x y) 4)
      (getNeighbors x y) (s.setGrid x y (Int.tmod (s.getGrid x y) 4)) u
    exact ⟨g1, g2, g3⟩
  · rw [if_neg hb]
    obtain ⟨d1, d2, d3, d4⟩ := distributeToNeighbors_frame (Int.fdiv (s.getGrid x y) 4)
      (getNeighbors x y) (s.setGrid x y (Int.tmod (s.getGrid x y) 4)) u
    exact ⟨d4, d3, d1⟩

end SandPile

namespace SandPile

/-- `addSandToCell_pred`, restated through `covered`. -/
theorem addSandToCell_covered (R : ℕ → ℕ → Prop) (x y : ℕ) (a : ℤ) (s : SandPile)
    (u S : List Cell) (hcov : covered s R u S) :
    (∀ c ∈ u, c ∈ (SandPile.addSandToCell x y a s u).2) ∧
    covered (SandPile.addSandToCell x y a s u).1 R (SandPile.addSandToCell x y a s u).2 S :=
  addSandToCell_pred R x y a s u S hcov

/-- The deterministic distribution keeps every over-critical cell covered. -/
theorem distributeToNeighbors_covered (n : ℤ) (nbs : List (ℤ × ℤ)) :
    ∀ (s : SandPile) (u S : List Cell) (R : ℕ → ℕ → Prop), covered s R u S →
      (∀ c ∈ u, c ∈ (SandPile.distributeToNeighbors n nbs s u).2) ∧
      covered (SandPile.distributeToNeighbors n nbs s u).1 R
        (SandPile.distributeToNeighbors n nbs s u).2 S := by
  induction nbs with
  | nil =>
    intro s u S R hcov
    exact ⟨fun c hc => hc, hcov⟩
  | cons nb rest ih =>
    intro s u S R hcov
    rcases Decidable.em (isValidGridPosition nb.1 nb.2 s.size) with hv | hv
    · have hstep : SandPile.distributeToNeighbors n (nb :: rest) s u =
          SandPile.distributeToNeighbors n rest
            (SandPile.addSandToCell nb.1.toNat nb.2.toNat n s u).1
            (SandPile.addSandToCell nb.1.toNat nb.2.toNat n s u).2 := by
        simp only [distributeToNeighbors, List.foldl_cons, if_pos hv]
      rw [hstep]
      obtain ⟨m1, c1⟩ := addSandToCell_covered R nb.1.toNat nb.2.toNat n s u S hcov
      obtain ⟨m2, c2⟩ := ih (SandPile.addSandToCell nb.1.toNat nb.2.toNat n s u).1
        (SandPile.addSandToCell nb.1.toNat nb.2.toNat n s u).2 S R c1
      exact ⟨fun c hc => m2 c (m1 c hc), c2⟩
    · have hstep : SandPile.distributeToNeighbors n (nb :: rest) s u =
          SandPile.distributeToNeighbors n rest
            { s with totalSand := s.totalSand - n, lostSand := s.lostSand + n } u := by
        simp only [distributeToNeighbors, List.foldl_cons, if_neg hv]
      rw [hstep]
      exact ih _ u S R hcov

/-- The weighted jitter loop keeps every over-critical cell covered. -/
theorem jitterFold_covered (tj : ℤ) (tw : Qrt2) (cs : List (ℕ × ℕ × Qrt2)) :
    ∀ (acc : SandPile × List Cell × ℤ) (S : List Cell) (R : ℕ → ℕ → Prop),
      covered acc.1 R acc.2.1 S →
      (∀ c ∈ acc.2.1, c ∈ (cs.foldl (SandPile.jitterStep tj tw) acc).2.1) ∧
      covered (cs.foldl (SandPile.jitterStep tj tw) acc).1 R
        (cs.foldl (SandPile.jitterStep tj tw) acc).2.1 S := by
  induction cs with
  | nil =>
    intro acc S R hcov
    exact ⟨fun c hc => hc, hcov⟩
  | cons cand rest ih =>
    intro acc S R hcov
    simp only [List.foldl_cons]
    have hstep : (∀ c ∈ acc.2.1, c ∈ (SandPile.jitterStep tj tw acc cand).2.1) ∧
        covered (SandPile.jitterStep tj tw acc cand).1 R
          (SandPile.jitterStep tj tw acc cand).2.1 S := by
      simp only [jitterStep]
      split
      · split
        · exact addSandToCell_covered R cand.1 cand.2.1 _ acc.1 acc.2.1 S hcov
        · exact ⟨fun c hc => hc, hcov⟩
      · exact ⟨fun c hc => hc, hcov⟩
    obtain ⟨m1, c1⟩ := hstep
    obtain ⟨m2, c2⟩ := ih (SandPile.jitterStep tj tw acc cand) S R c1
    exact ⟨fun c hc => m2 c (m1 c hc), c2⟩

/-- `distributeJitteredSand` keeps every over-critical cell covered. -/
theorem distributeJitteredSand_covered (t : ℕ → ℚ) (cx cy : ℕ) (tj : ℤ) (radius : ℕ)
    (s : SandPile) (u S : List Cell) (R : ℕ → ℕ → Prop) (hcov : covered s R u S) :
    (∀ c ∈ u, c ∈ (SandPile.distributeJitteredSand t cx cy tj radius s u).2) ∧
    covered (SandPile.distributeJitteredSand t cx cy tj radius s u).1 R
      (SandPile.distributeJitteredSand t cx cy tj radius s u).2 S := by
  simp only [distributeJitteredSand]
  set cands := jitterCandidates cx cy radius s.size with hcands
  set tw := cands.foldl (fun w c => Qrt2.add w c.2.2) (Qrt2.ofRat 0) with htw
  set st := cands.foldl (SandPile.jitterStep tj tw) (s, u, tj) with hst
  split
  · exact ⟨fun c hc => hc, hcov⟩
  · obtain ⟨m1, c1⟩ := jitterFold_covered tj tw cands (s, u, tj) S R hcov
    rw [← hst] at m1 c1
    split
    · obtain ⟨m2, c2⟩ := addSandToCell_covered R
        (cands.getD ((Int.floor (t st.1.rngCount * (cands.length : ℚ))).toNat)
          (0, 0, Qrt2.ofRat 0)).1
        (cands.getD ((Int.floor (t st.1.rngCount * (cands.length : ℚ))).toNat)
          (0, 0, Qrt2.ofRat 0)).2.1
        st.2.2 { st.1 with rngCount := st.1.rngCount + 1 } st.2.1 S c1
      exact ⟨fun cc hcc => m2 cc (m1 cc hcc), c2⟩
    · exact ⟨m1, c1⟩

/-- One stochastic per-neighbor step keeps every over-critical cell covered. -/
theorem randomNeighborStep_covered (t : ℕ → ℚ) (n : ℤ) (radius : ℕ)
    (acc : SandPile × List Cell) (nb : ℤ × ℤ) (S : List Cell) (R : ℕ → ℕ → Prop)
    (hcov : covered acc.1 R acc.2 S) :
    (∀ c ∈ acc.2, c ∈ (SandPile.randomNeighborStep t n radius acc nb).2) ∧
    covered (SandPile.randomNeighborStep t n radius acc nb).1 R
      (SandPile.randomNeighborStep t n radius acc nb).2 S := by
  simp only [randomNeighborStep]
  split
  · obtain ⟨m1, c1⟩ := addSandToCell_covered R nb.1.toNat nb.2.toNat _
      { acc.1 with rngCount := acc.1.rngCount + 1 } acc.2 S hcov
    split
    · obtain ⟨m2, c2⟩ := distributeJitteredSand_covered t nb.1.toNat nb.2.toNat _ radius
        _ _ S R c1
      exact ⟨fun c hc => m2 c (m1 c hc), c2⟩
    · exact ⟨m1, c1⟩
  · exact ⟨fun c hc => hc, hcov⟩

/-- `distributeWithRandomness` keeps every over-critical cell covered. -/
theorem distributeWithRandomness_covered (t : ℕ → ℚ) (n : ℤ) (nbs : List (ℤ × ℤ))
    (s : SandPile) (u S : List Cell) (R : ℕ → ℕ → Prop) (hcov : covered s R u S) :
    (∀ c ∈ u, c ∈ (SandPile.distributeWithRandomness t n nbs s u).2) ∧
    covered (SandPile.distributeWithRandomness t n nbs s u).1 R
      (SandPile.distributeWithRandomness t n nbs s u).2 S := by
  have main : ∀ (cs : List (ℤ × ℤ)) (radius : ℕ) (acc : SandPile × List Cell),
      covered acc.1 R acc.2 S →
      (∀ c ∈ acc.2, c ∈ (cs.foldl (SandPile.randomNeighborStep t n radius) acc).2) ∧
      covered (cs.foldl (SandPile.randomNeighborStep t n radius) acc).1 R
        (cs.foldl (SandPile.randomNeighborStep t n radius) acc).2 S := by
    intro cs
    induction cs with
    | nil =>
      intro radius acc h
      exact ⟨fun c hc => hc, h⟩
    | cons nb rest ih =>
      intro radius acc h
      simp only [List.foldl_cons]
      obtain ⟨m1, c1⟩ := randomNeighborStep_covered t n radius acc nb S R h
      obtain ⟨m2, c2⟩ := ih radius (SandPile.randomNeighborStep t n radius acc nb) c1
      exact ⟨fun c hc => m2 c (m1 c hc), c2⟩
  simp only [distributeWithRandomness]
  exact main nbs _ (s, u) hcov

end SandPile

namespace SandPile

/-- The second component of `topple`: the branch's unstable set, with the
toppled cell re-added when it is still over-critical. -/
theorem topple_snd (t : ℕ → ℚ) (x y : ℕ) (s : SandPile) (u : List Cell) :
    (SandPile.topple t x y s u).2 =
      (if (SandPile.topple t x y s u).1.criticalMass ≤
          (SandPile.topple t x y s u).1.getGrid x y then
        addCell
          (if 0 < (s.setGrid x y (Int.tmod (s.getGrid x y) 4)).randomnessFactor then
            SandPile.distributeWithRandomness t (Int.fdiv (s.getGrid x y) 4)
              (getNeighbors x y) (s.setGrid x y (Int.tmod (s.getGrid x y) 4)) u
          else
            SandPile.distributeToNeighbors (Int.fdiv (s.getGrid x y) 4)
              (getNeighbors x y) (s.setGrid x y (Int.tmod (s.getGrid x y) 4)) u).2 (x, y)
      else
        (if 0 < (s.setGrid x y (Int.tmod (s.getGrid x y) 4)).randomnessFactor then
          SandPile.distributeWithRandomness t (Int.fdiv (s.getGrid x y) 4)
            (getNeighbors x y) (s.setGrid x y (Int.tmod (s.getGrid x y) 4)) u
        else
          SandPile.distributeToNeighbors (Int.fdiv (s.getGrid x y) 4)
            (getNeighbors x y) (s.setGrid x y (Int.tmod (s.getGrid x y) 4)) u).2) := by
  rw [topple_fst]
  simp only [topple]
  rcases Decidable.em (0 < (s.setGrid x y (Int.tmod (s.getGrid x y) 4)).randomnessFactor)
    with hb | hb
  · rw [if_pos hb]
    split <;> rfl
  · rw [if_neg hb]
    split <;> rfl

/-- `topple` keeps every over-critical cell covered, the toppled cell
included (handled by the final re-check). -/
theorem topple_covered (t : ℕ → ℚ) (x y : ℕ) (s : SandPile) (u S : List Cell)
    (hpred : ∀ p q : ℕ, s.criticalMass ≤ s.getGrid p q →
      (p, q) ∈ u ∨ (p, q) ∈ S ∨ (p = x ∧ q = y)) :
    (∀ c ∈ u, c ∈ (SandPile.topple t x y s u).2) ∧
    ∀ p q : ℕ, (SandPile.topple t x y s u).1.criticalMass ≤
        (SandPile.topple t x y s u).1.getGrid p q →
      (p, q) ∈ (SandPile.topple t x y s u).2 ∨ (p, q) ∈ S := by
  have hcov1 : covered (s.setGrid x y (Int.tmod (s.getGrid x y) 4))
      (fun p q => ¬(p = x ∧ q = y)) u S := by
    intro p q hR hc
    rw [getGrid_setGrid_ne s x y _ p q hR] at hc
    rcases hpred p q hc with h | h | h
    · exact Or.inl h
    · exact Or.inr h
    · exact absurd h hR
  obtain ⟨mB, cB⟩ :
      (∀ c ∈ u, c ∈ (if 0 < (s.setGrid x y (Int.tmod (s.getGrid x y) 4)).randomnessFactor then
          SandPile.distributeWithRandomness t (Int.fdiv (s.getGrid x y) 4)
            (getNeighbors x y) (s.setGrid x y (Int.tmod (s.getGrid x y) 4)) u
        else
          SandPile.distributeToNeighbors (Int.fdiv (s.getGrid x y) 4)
            (getNeighbors x y) (s.setGrid x y (Int.tmod (s.getGrid x y) 4)) u).2) ∧
      covered (if 0 < (s.setGrid x y (Int.tmod (s.getGrid x y) 4)).randomnessFactor then
          SandPile.distributeWithRandomness t (Int.fdiv (s.getGrid x y) 4)
            (getNeighbors x y) (s.setGrid x y (Int.tmod (s.getGrid x y) 4)) u
        else
          SandPile.distributeToNeighbors (Int.fdiv (s.getGrid x y) 4)
            (getNeighbors x y) (s.setGrid x y (Int.tmod (s.getGrid x y) 4)) u).1
        (fun p q => ¬(p = x ∧ q = y))
        (if 0 < (s.setGrid x y (Int.tmod (s.getGrid x y) 4)).randomnessFactor then
          SandPile.distributeWithRandomness t (Int.fdiv (s.getGrid x y) 4)
            (getNeighbors x y) (s.setGrid x y (Int.tmod (s.getGrid x y) 4)) u
        else
          SandPile.distributeToNeighbors (Int.fdiv (s.getGrid x y) 4)
            (getNeighbors x y) (s.setGrid x y (Int.tmod (s.getGrid x y) 4)) u).2 S := by
    split
    · exact distributeWithRandomness_covered t _ (getNeighbors x y) _ u S _ hcov1
    · exact distributeToNeighbors_covered _ (getNeighbors x y) _ u S _ hcov1
  constructor
  · intro c hc
    rw [topple_snd]
    split
    · exact mem_addCell_of_mem _ _ _ (mB c hc)
    · exact mB c hc
  · intro p q hc
    rw [topple_snd]
    rcases Decidable.em (p = x ∧ q = y) with hcen | hcen
    · obtain ⟨rfl, rfl⟩ := hcen
      split
      · exact Or.inl (mem_addCell_self _ _)
      · rename_i hno
        rw [topple_fst] at hc
        rw [topple_fst] at hno
        exact absurd hc hno
    · rw [topple_fst] at hc
      rcases cB p q hcen hc with h | h
      · left
        split
        · exact mem_addCell_of_mem _ _ _ h
        · exact h
      · exact Or.inr h

end SandPile

namespace SandPile

/-- Frame facts for `processCell` (any randomness). -/
theorem processCell_frame (t : ℕ → ℚ) (acc : SandPile × List Cell × Bool) (c : Cell) :
    (SandPile.processCell t acc c).1.size = acc.1.size ∧
    (SandPile.processCell t acc c).1.criticalMass = acc.1.criticalMass ∧
    (SandPile.processCell t acc c).1.randomnessFactor = acc.1.randomnessFactor := by
  simp only [processCell]
  split
  · obtain ⟨f1, f2, f3⟩ := topple_frame t c.1 c.2 acc.1 acc.2.1
    exact ⟨f1, f2, f3⟩
  · exact ⟨rfl, rfl, rfl⟩

theorem processCellFold_frame (t : ℕ → ℚ) (cs : List Cell) :
    ∀ acc : SandPile × List Cell × Bool,
    (cs.foldl (SandPile.processCell t) acc).1.size = acc.1.size ∧
    (cs.foldl (SandPile.processCell t) acc).1.criticalMass = acc.1.criticalMass ∧
    (cs.foldl (SandPile.processCell t) acc).1.randomnessFactor = acc.1.randomnessFactor := by
  induction cs with
  | nil =>
    intro acc
    exact ⟨rfl, rfl, rfl⟩
  | cons c rest ih =>
    intro acc
    simp only [List.foldl_cons]
    obtain ⟨i1, i2, i3⟩ := ih (SandPile.processCell t acc c)
    obtain ⟨f1, f2, f3⟩ := processCell_frame t acc c
    exact ⟨i1.trans f1, i2.trans f2, i3.trans f3⟩

/-- Frame facts for `processAvalanches` (any randomness). -/
theorem processAvalanches_frame (t : ℕ → ℚ) (s : SandPile) :
    (SandPile.processAvalanches t s).1.size = s.size ∧
    (SandPile.processAvalanches t s).1.criticalMass = s.criticalMass ∧
    (SandPile.processAvalanches t s).1.randomnessFactor = s.randomnessFactor := by
  simp only [processAvalanches]
  split
  · exact ⟨rfl, rfl, rfl⟩
  · obtain ⟨f1, f2, f3⟩ := processCellFold_frame t s.unstableCells
      ({ s with avalancheSize := 0 }, [], false)
    split
    · exact ⟨f1, f2, f3⟩
    · exact ⟨f1, f2, f3⟩

theorem stabilizeGo_frame (t : ℕ → ℚ) (fuel : ℕ) :
    ∀ s : SandPile,
    (SandPile.stabilizeGo t fuel s).1.size = s.size ∧
    (SandPile.stabilizeGo t fuel s).1.criticalMass = s.criticalMass ∧
    (SandPile.stabilizeGo t fuel s).1.randomnessFactor = s.randomnessFactor := by
  induction fuel with
  | zero =>
    intro s
    exact ⟨rfl, rfl, rfl⟩
  | succ f ih =>
    intro s
    rcases Decidable.em (s.unstableCells.isEmpty = true) with he | he
    · rw [stabilizeGo_of_stable t _ _ he]
      exact ⟨rfl, rfl, rfl⟩
    · have hstep : SandPile.stabilizeGo t (f + 1) s =
          ((SandPile.stabilizeGo t f (SandPile.processAvalanches t s).1).1,
           (SandPile.stabilizeGo t f (SandPile.processAvalanches t s).1).2 + 1) := by
        simp only [stabilizeGo, if_neg he]
      rw [hstep]
      obtain ⟨i1, i2, i3⟩ := ih (SandPile.processAvalanches t s).1
      obtain ⟨f1, f2, f3⟩ := processAvalanches_frame t s
      exact ⟨i1.trans f1, i2.trans f2, i3.trans f3⟩

/-- The relaxation pass's fold keeps every over-critical cell covered by the
new unstable set together with the still-pending cells. -/
theorem processCellFold_covered (t : ℕ → ℚ) (cs : List Cell) :
    ∀ acc : SandPile × List Cell × Bool,
    (∀ p q : ℕ, acc.1.criticalMass ≤ acc.1.getGrid p q →
      (p, q) ∈ acc.2.1 ∨ (p, q) ∈ cs) →
    ∀ p q : ℕ, (cs.foldl (SandPile.processCell t) acc).1.criticalMass ≤
        (cs.foldl (SandPile.processCell t) acc).1.getGrid p q →
      (p, q) ∈ (cs.foldl (SandPile.processCell t) acc).2.1 := by
  induction cs with
  | nil =>
    intro acc hpred p q hc
    rcases hpred p q hc with h | h
    · exact h
    · exact absurd h (List.not_mem_nil _)
  | cons c rest ih =>
    intro acc hpred
    simp only [List.foldl_cons]
    rcases Decidable.em (acc.1.criticalMass ≤ acc.1.getGrid c.1 c.2) with hcheck | hcheck
    · have hstep : SandPile.processCell t acc c =
          ({ (SandPile.topple t c.1 c.2 acc.1 acc.2.1).1 with
              avalancheSize := (SandPile.topple t c.1 c.2 acc.1 acc.2.1).1.avalancheSize + 1 },
           (SandPile.topple t c.1 c.2 acc.1 acc.2.1).2, true) := by
        simp only [processCell, if_pos hcheck]
      obtain ⟨mT, cT⟩ := topple_covered t c.1 c.2 acc.1 acc.2.1 rest
        (by
          intro p q hc
          rcases hpred p q hc with h | h
          · exact Or.inl h
          · rcases List.mem_cons.mp h with h2 | h2
            · right
              right
              rw [Prod.ext_iff] at h2
              exact h2
            · exact Or.inr (Or.inl h2))
      rw [hstep]
      apply ih
      intro p q hc
      exact cT p q hc
    · have hstep : SandPile.processCell t acc c = acc := by
        simp only [processCell, if_neg hcheck]
      rw [hstep]
      apply ih
      intro p q hc
      rcases hpred p q hc with h | h
      · exact Or.inl h
      · rcases List.mem_cons.mp h with h2 | h2
        · exfalso
          apply hcheck
          rw [Prod.ext_iff] at h2
          rw [← h2.1, ← h2.2]
          exact hc
        · exact Or.inr h2

/-- `processAvalanches` keeps every over-critical cell in the unstable set. -/
theorem processAvalanches_covered (t : ℕ → ℚ) (s : SandPile)
    (hpred : ∀ p q : ℕ, s.criticalMass ≤ s.getGrid p q → (p, q) ∈ s.unstableCells) :
    ∀ p q : ℕ, (SandPile.processAvalanches t s).1.criticalMass ≤
        (SandPile.processAvalanches t s).1.getGrid p q →
      (p, q) ∈ (SandPile.processAvalanches t s).1.unstableCells := by
  intro p q
  simp only [processAvalanches]
  split
  · intro hc
    exact hpred p q hc
  · have hfold := processCellFold_covered t s.unstableCells
      ({ s with avalancheSize := 0 }, [], false)
      (by
        intro p2 q2 hc2
        exact Or.inr (hpred p2 q2 hc2))
      p q
    split
    · intro hc
      exact hfold hc
    · intro hc
      exact hfold hc

/-- `addSand` keeps every over-critical cell in the unstable set. -/
theorem addSand_covered (x y a : ℤ) (s : SandPile)
    (hpred : ∀ p q : ℕ, s.criticalMass ≤ s.getGrid p q → (p, q) ∈ s.unstableCells) :
    ∀ p q : ℕ, (SandPile.addSand x y a s).criticalMass ≤
        (SandPile.addSand x y a s).getGrid p q →
      (p, q) ∈ (SandPile.addSand x y a s).unstableCells := by
  intro p q
  simp only [addSand]
  rcases Decidable.em (isValidGridPosition x y s.size) with hv | hv
  · rw [if_pos hv]
    split
    · intro hc
      rcases Decidable.em (p = x.toNat ∧ q = y.toNat) with hcen | hcen
      · obtain ⟨rfl, rfl⟩ := hcen
        exact mem_addCell_self _ _
      · have hg : (s.setGrid x.toNat y.toNat (s.getGrid x.toNat y.toNat + a)).getGrid p q
            = s.getGrid p q := getGrid_setGrid_ne s x.toNat y.toNat _ p q hcen
        exact mem_addCell_of_mem _ _ _ (hpred p q (by rw [← hg]; exact hc))
    · intro hc
      rcases Decidable.em (p = x.toNat ∧ q = y.toNat) with hcen | hcen
      · obtain ⟨rfl, rfl⟩ := hcen
        rename_i hno
        exact absurd hc hno
      · have hg : (s.setGrid x.toNat y.toNat (s.getGrid x.toNat y.toNat + a)).getGrid p q
            = s.getGrid p q := getGrid_setGrid_ne s x.toNat y.toNat _ p q hcen
        exact hpred p q (by rw [← hg]; exact hc)
  · rw [if_neg hv]
    intro hc
    exact hpred p q hc

/-- The stabilize loop keeps every over-critical cell in the unstable set. -/
theorem stabilizeGo_covered (t : ℕ → ℚ) (fuel : ℕ) :
    ∀ s : SandPile,
    (∀ p q : ℕ, s.criticalMass ≤ s.getGrid p q → (p, q) ∈ s.unstableCells) →
    ∀ p q : ℕ, (SandPile.stabilizeGo t fuel s).1.criticalMass ≤
        (SandPile.stabilizeGo t fuel s).1.getGrid p q →
      (p, q) ∈ (SandPile.stabilizeGo t fuel s).1.unstableCells := by
  induction fuel with
  | zero =>
    intro s hpred p q hc
    exact hpred p q hc
  | succ f ih =>
    intro s hpred
    rcases Decidable.em (s.unstableCells.isEmpty = true) with he | he
    · rw [stabilizeGo_of_stable t _ _ he]
      exact hpred
    · have hstep : SandPile.stabilizeGo t (f + 1) s =
          ((SandPile.stabilizeGo t f (SandPile.processAvalanches t s).1).1,
           (SandPile.stabilizeGo t f (SandPile.processAvalanches t s).1).2 + 1) := by
        simp only [stabilizeGo, if_neg he]
      rw [hstep]
      exact ih (SandPile.processAvalanches t s).1 (processAvalanches_covered t s hpred)

end SandPile

namespace SandPile

theorem getGrid_init (size : ℕ) (crit : ℤ) (p q : ℕ) :
    (SandPile.init size crit).getGrid p q = 0 := by
  unfold init getGrid
  simp only
  rcases Decidable.em (p < size) with hp | hp
  · rw [getD_replicate' size p _ _ hp]
    rcases Decidable.em (q < size) with hq | hq
    · rw [getD_replicate' size q _ _ hq]
    · rw [getD_eq_default' _ q 0 (by rw [List.length_replicate]; omega)]
  · rw [getD_eq_default' _ p [] (by rw [List.length_replicate]; omega)]
    rfl

/-- Any driver operation keeps every over-critical cell in the unstable
set. -/
theorem applyGridOp_covered (t : ℕ → ℚ) (op : GridOp) (s : SandPile)
    (hpred : ∀ p q : ℕ, s.criticalMass ≤ s.getGrid p q → (p, q) ∈ s.unstableCells) :
    ∀ p q : ℕ, (applyGridOp t s op).criticalMass ≤ (applyGridOp t s op).getGrid p q →
      (p, q) ∈ (applyGridOp t s op).unstableCells := by
  cases op with
  | addSand x y a => exact addSand_covered x y a s hpred
  | processAvalanches => exact processAvalanches_covered t s hpred
  | stabilize m => exact stabilizeGo_covered t m s hpred
  | setRandomnessFactor f => exact hpred

theorem runGridOps_covered (t : ℕ → ℚ) (ops : List GridOp) :
    ∀ s : SandPile,
    (∀ p q : ℕ, s.criticalMass ≤ s.getGrid p q → (p, q) ∈ s.unstableCells) →
    ∀ p q : ℕ, (runGridOps t ops s).criticalMass ≤ (runGridOps t ops s).getGrid p q →
      (p, q) ∈ (runGridOps t ops s).unstableCells := by
  induction ops with
  | nil =>
    intro s hpred
    exact hpred
  | cons op rest ih =>
    intro s hpred
    have hstep : runGridOps t (op :: rest) s = runGridOps t rest (applyGridOp t s op) :=
      rfl
    rw [hstep]
    exact ih (applyGridOp t s op) (applyGridOp_covered t op s hpred)

theorem applyGridOp_criticalMass (t : ℕ → ℚ) (op : GridOp) (s : SandPile) :
    (applyGridOp t s op).criticalMass = s.criticalMass := by
  cases op with
  | addSand x y a => exact (addSand_frame x y a s).2.2.1
  | processAvalanches => exact (processAvalanches_frame t s).2.1
  | stabilize m => exact (stabilizeGo_frame t m s).2.1
  | setRandomnessFactor f => rfl

theorem runGridOps_criticalMass (t : ℕ → ℚ) (ops : List GridOp) :
    ∀ s : SandPile, (runGridOps t ops s).criticalMass = s.criticalMass := by
  induction ops with
  | nil =>
    intro s
    rfl
  | cons op rest ih =>
    intro s
    exact (ih (applyGridOp t s op)).trans (applyGridOp_criticalMass t op s)

end SandPile

/-- **C4 (amended).** Starting from the all-zero grid (criticalMass ≥ 1),
after any sequence of driver operations the unstable set CONTAINS every cell
whose height is at or above the critical mass — hence `isStable() = true`
implies every cell is strictly below the critical mass.  The claimed exact
equality does not hold: the set may also retain cells that received sand
mid-pass and then toppled back below the threshold (see the
counterexample). -/
theorem SandPile.unstable_superset (t : ℕ → ℚ) (ops : List GridOp) (size : ℕ)
    (crit : ℤ) (hcrit : 1 ≤ crit) :
    (∀ p q : ℕ,
      crit ≤ (runGridOps t ops (SandPile.init size crit)).getGrid p q →
      (p, q) ∈ (runGridOps t ops (SandPile.init size crit)).unstableCells) ∧
    ((runGridOps t ops (SandPile.init size crit)).isStable = true →
      ∀ p q : ℕ, (runGridOps t ops (SandPile.init size crit)).getGrid p q < crit) := by
  have hcm : (runGridOps t ops (SandPile.init size crit)).criticalMass = crit :=
    SandPile.runGridOps_criticalMass t ops (SandPile.init size crit)
  have hmain := SandPile.runGridOps_covered t ops (SandPile.init size crit)
    (by
      intro p q hc
      rw [SandPile.getGrid_init] at hc
      exfalso
      have : (SandPile.init size crit).criticalMass = crit := rfl
      omega)
  constructor
  · intro p q hc
    exact hmain p q (by rw [hcm]; exact hc)
  · intro hstable p q
    by_contra hge
    have hmem := hmain p q (by rw [hcm]; omega)
    have : (runGridOps t ops (SandPile.init size crit)).unstableCells = [] := by
      simpa [SandPile.isStable, List.isEmpty_iff] using hstable
    rw [this] at hmem
    exact List.not_mem_nil _ hmem

/-- **C4 (counterexample).** On a 4×4 grid with criticalMass 4:
`addSand(1,1,8)`, `addSand(2,1,4)`, then one `processAvalanches()` leaves
cell (2,1) at height 2 < 4 yet still recorded in the unstable set (it
crossed the threshold mid-pass and then toppled), so the unstable set is not
exactly the set of cells with height ≥ criticalMass, and `isStable()`
returns false on a grid whose cells are all below the threshold. -/
theorem SandPile.unstable_superset_counterexample :
    ((2, 1) : Cell) ∈ (runGridOps tapeZero
      [GridOp.addSand 1 1 8, GridOp.addSand 2 1 4, GridOp.processAvalanches]
      (SandPile.init 4 4)).unstableCells ∧
    (runGridOps tapeZero
      [GridOp.addSand 1 1 8, GridOp.addSand 2 1 4, GridOp.processAvalanches]
      (SandPile.init 4 4)).getGrid 2 1 < 4 ∧
    (runGridOps tapeZero
      [GridOp.addSand 1 1 8, GridOp.addSand 2 1 4, GridOp.processAvalanches]
      (SandPile.init 4 4)).isStable = false ∧
    ∀ p ∈ List.range 4, ∀ q ∈ List.range 4,
      (runGridOps tapeZero
        [GridOp.addSand 1 1 8, GridOp.addSand 2 1 4, GridOp.processAvalanches]
        (SandPile.init 4 4)).getGrid p q < 4 := by
  decide

/-- Witness for C4 on a concrete run: a 3×3 engine after `addSand(1,1,5)`
has cell (1,1) at height 5 ≥ 4 and the superset theorem places it in the
unstable set. -/
theorem SandPile.unstable_superset_witness :
    ((1, 1) : Cell) ∈ (runGridOps tapeZero [GridOp.addSand 1 1 5]
      (SandPile.init 3 4)).unstableCells :=
  (SandPile.unstable_superset tapeZero [GridOp.addSand 1 1 5] 3 4 (by decide)).1
    1 1 (by decide)

/-! ## C2 — conservation of sand -/

namespace SandPile

/-- Eliminating membership in `addCell`: either already present or the added
cell. -/
theorem mem_addCell_elim (l : List Cell) (c c2 : Cell) (h : c2 ∈ addCell l c) :
    c2 ∈ l ∨ c2 = c := by
  unfold addCell at h
  split at h
  · exact Or.inl h
  · rcases List.mem_append.mp h with h1 | h1
    · exact Or.inl h1
    · exact Or.inr (List.mem_singleton.mp h1)

/-- Pointwise characterization of `setGrid` on a well-formed grid. -/
theorem getGrid_setGrid (s : SandPile) (x y : ℕ) (v : ℤ) (hwf : s.wf)
    (hx : x < s.size) (hy : y < s.size) (p q : ℕ) :
    (s.setGrid x y v).getGrid p q = if p = x ∧ q = y then v else s.getGrid p q := by
  by_cases hc : p = x ∧ q = y
  · obtain ⟨rfl, rfl⟩ := hc
    rw [if_pos ⟨rfl, rfl⟩]
    obtain ⟨hlen, hrows⟩ := hwf
    have hx2 : p < s.grid.length := by omega
    refine getGrid_setGrid_self s p q v hx2 ?_
    have hrow : s.grid.getD p [] = s.grid[p] := by
      rw [List.getD_eq_getElem?_getD, List.getElem?_eq_getElem hx2]
      rfl
    rw [hrow]
    have := hrows _ (List.getElem_mem hx2)
    omega
  · rw [if_neg hc]
    exact getGrid_setGrid_ne s x y v p q hc

/-- Every candidate produced by the inner jitter loop is an in-range cell. -/
theorem jitterRow_valid (cx cy radius size : ℕ) (dx : ℤ) :
    ∀ c ∈ jitterRow cx cy radius size dx, c.1 < size ∧ c.2.1 < size := by
  unfold jitterRow
  generalize jitterOffsets radius = es
  induction es with
  | nil =>
    intro c hc
    simp at hc
  | cons dy rest ih =>
    intro c hc
    simp only [List.foldr_cons] at hc
    split at hc
    · exact ih c hc
    · split at hc
      · split at hc
        · rcases List.mem_cons.mp hc with hh | hh
          · rename_i h0 hv hd
            have hv2 : (0 : ℤ) ≤ (cx : ℤ) + dx ∧ (cx : ℤ) + dx < (size : ℤ) ∧
                (0 : ℤ) ≤ (cy : ℤ) + dy ∧ (cy : ℤ) + dy < (size : ℤ) := hv
            obtain ⟨hx0, hx1, hy0, hy1⟩ := hv2
            rw [hh]
            refine ⟨?_, ?_⟩
            · show ((cx : ℤ) + dx).toNat < size
              omega
            · show ((cy : ℤ) + dy).toNat < size
              omega
          · exact ih c hh
        · exact ih c hc
      · exact ih c hc

/-- Every jitter candidate is an in-range cell. -/
theorem jitterCandidates_valid (cx cy radius size : ℕ) :
    ∀ c ∈ jitterCandidates cx cy radius size, c.1 < size ∧ c.2.1 < size := by
  unfold jitterCandidates
  generalize jitterOffsets radius = ds
  induction ds with
  | nil =>
    intro c hc
    simp at hc
  | cons dx rest ih =>
    intro c hc
    simp only [List.foldr_cons, List.mem_append] at hc
    rcases hc with hc | hc
    · exact jitterRow_valid cx cy radius size dx c hc
    · exact ih c hc

/-- Full accounting for one in-range `addSandToCell`: shape preserved, the
grid sum gains exactly the added amount, the running totals are untouched,
heights only grow (for non-negative amounts), and the new unstable set stays
in range. -/
theorem addSandToCell_full (x y : ℕ) (a : ℤ) (s : SandPile) (u : List Cell) (size0 : ℕ)
    (hwf : s.wf) (hsz : s.size = size0) (hx : x < size0) (hy : y < size0) (ha : 0 ≤ a)
    (hu : ∀ d ∈ u, d.1 < size0 ∧ d.2 < size0) :
    (SandPile.addSandToCell x y a s u).1.wf ∧
    (SandPile.addSandToCell x y a s u).1.size = size0 ∧
    (SandPile.addSandToCell x y a s u).1.totalSand = s.totalSand ∧
    (SandPile.addSandToCell x y a s u).1.lostSand = s.lostSand ∧
    (SandPile.addSandToCell x y a s u).1.gridSum = s.gridSum + a ∧
    (∀ p q : ℕ, s.getGrid p q ≤ (SandPile.addSandToCell x y a s u).1.getGrid p q) ∧
    (∀ d ∈ (SandPile.addSandToCell x y a s u).2, d.1 < size0 ∧ d.2 < size0) := by
  have hx' : x < s.size := by omega
  have hy' : y < s.size := by omega
  obtain ⟨f1, _, _, f4, f5, _, _⟩ := addSandToCell_frame x y a s u
  refine ⟨?_, by omega, f4, f5, ?_, ?_, ?_⟩
  · rw [addSandToCell_fst]
    exact wf_setGrid s x y _ hwf
  · rw [addSandToCell_fst, gridSum_setGrid s x y _ hwf hx' hy']
    ring
  · intro p q
    rw [addSandToCell_fst, getGrid_setGrid s x y _ hwf hx' hy' p q]
    by_cases hc : p = x ∧ q = y
    · rw [if_pos hc]
      obtain ⟨rfl, rfl⟩ := hc
      omega
    · rw [if_neg hc]
  · intro d hd
    rcases addSandToCell_snd x y a s u with h | h
    · rw [h] at hd
      exact hu d hd
    · rw [h] at hd
      rcases mem_addCell_elim u (x, y) d hd with h2 | h2
      · exact hu d h2
      · rw [h2]
        exact ⟨hx, hy⟩

/-- Accounting for one step of the weighted jitter loop. -/
theorem jitterStep_account (tj : ℤ) (tw : Qrt2) (size0 : ℕ)
    (acc : SandPile × List Cell × ℤ) (c : ℕ × ℕ × Qrt2)
    (hwf : acc.1.wf) (hsz : acc.1.size = size0)
    (hcx : c.1 < size0) (hcy : c.2.1 < size0) (hrem : 0 ≤ acc.2.2)
    (hu : ∀ d ∈ acc.2.1, d.1 < size0 ∧ d.2 < size0) :
    (SandPile.jitterStep tj tw acc c).1.wf ∧
    (SandPile.jitterStep tj tw acc c).1.size = size0 ∧
    0 ≤ (SandPile.jitterStep tj tw acc c).2.2 ∧
    (SandPile.jitterStep tj tw acc c).1.totalSand = acc.1.totalSand ∧
    (SandPile.jitterStep tj tw acc c).1.lostSand = acc.1.lostSand ∧
    (SandPile.jitterStep tj tw acc c).1.gridSum + (SandPile.jitterStep tj tw acc c).2.2
      = acc.1.gridSum + acc.2.2 ∧
    (∀ p q : ℕ, acc.1.getGrid p q ≤ (SandPile.jitterStep tj tw acc c).1.getGrid p q) ∧
    (∀ d ∈ (SandPile.jitterStep tj tw acc c).2.1, d.1 < size0 ∧ d.2 < size0) := by
  by_cases h1 : 0 < acc.2.2
  · by_cases h2 : 0 < min acc.2.2
        (Qrt2.floor (Qrt2.mul (Qrt2.ofInt tj) (Qrt2.mul c.2.2 (Qrt2.inv tw))))
    · have hstep : SandPile.jitterStep tj tw acc c =
          ((SandPile.addSandToCell c.1 c.2.1
              (min acc.2.2 (Qrt2.floor (Qrt2.mul (Qrt2.ofInt tj)
                (Qrt2.mul c.2.2 (Qrt2.inv tw))))) acc.1 acc.2.1).1,
           (SandPile.addSandToCell c.1 c.2.1
              (min acc.2.2 (Qrt2.floor (Qrt2.mul (Qrt2.ofInt tj)
                (Qrt2.mul c.2.2 (Qrt2.inv tw))))) acc.1 acc.2.1).2,
           acc.2.2 - min acc.2.2 (Qrt2.floor (Qrt2.mul (Qrt2.ofInt tj)
              (Qrt2.mul c.2.2 (Qrt2.inv tw))))) := by
        simp only [jitterStep, if_pos h1, if_pos h2]
      rw [hstep]
      obtain ⟨b1, b2, b3, b4, b5, b6, b7⟩ := addSandToCell_full c.1 c.2.1
        (min acc.2.2 (Qrt2.floor (Qrt2.mul (Qrt2.ofInt tj) (Qrt2.mul c.2.2 (Qrt2.inv tw)))))
        acc.1 acc.2.1 size0 hwf hsz hcx hcy (le_of_lt h2) hu
      have hle : min acc.2.2 (Qrt2.floor (Qrt2.mul (Qrt2.ofInt tj)
          (Qrt2.mul c.2.2 (Qrt2.inv tw)))) ≤ acc.2.2 := min_le_left _ _
      refine ⟨b1, b2, ?_, b3, b4, ?_, ?_, b7⟩
      · show 0 ≤ acc.2.2 - min acc.2.2 (Qrt2.floor (Qrt2.mul (Qrt2.ofInt tj)
            (Qrt2.mul c.2.2 (Qrt2.inv tw))))
        omega
      · show (SandPile.addSandToCell c.1 c.2.1
            (min acc.2.2 (Qrt2.floor (Qrt2.mul (Qrt2.ofInt tj)
              (Qrt2.mul c.2.2 (Qrt2.inv tw))))) acc.1 acc.2.1).1.gridSum
            + (acc.2.2 - min acc.2.2 (Qrt2.floor (Qrt2.mul (Qrt2.ofInt tj)
              (Qrt2.mul c.2.2 (Qrt2.inv tw)))))
            = acc.1.gridSum + acc.2.2
        rw [b5]
        ring
      · intro p q
        exact b6 p q
    · have hstep : SandPile.jitterStep tj tw acc c = acc := by
        simp only [jitterStep, if_pos h1, if_neg h2]
      rw [hstep]
      exact ⟨hwf, hsz, hrem, rfl, rfl, rfl, fun p q => le_refl _, hu⟩
  · have hstep : SandPile.jitterStep tj tw acc c = acc := by
      simp only [jitterStep, if_neg h1]
    rw [hstep]
    exact ⟨hwf, hsz, hrem, rfl, rfl, rfl, fun p q => le_refl _, hu⟩

/-- Accounting for the whole weighted jitter loop: the grid sum plus the
remaining jitter is invariant, and the remainder stays non-negative. -/
theorem jitterFold_account (tj : ℤ) (tw : Qrt2) (size0 : ℕ) (cs : List (ℕ × ℕ × Qrt2)) :
    ∀ acc : SandPile × List Cell × ℤ,
      (∀ c ∈ cs, c.1 < size0 ∧ c.2.1 < size0) →
      acc.1.wf → acc.1.size = size0 → 0 ≤ acc.2.2 →
      (∀ d ∈ acc.2.1, d.1 < size0 ∧ d.2 < size0) →
      (cs.foldl (SandPile.jitterStep tj tw) acc).1.wf ∧
      (cs.foldl (SandPile.jitterStep tj tw) acc).1.size = size0 ∧
      0 ≤ (cs.foldl (SandPile.jitterStep tj tw) acc).2.2 ∧
      (cs.foldl (SandPile.jitterStep tj tw) acc).1.totalSand = acc.1.totalSand ∧
      (cs.foldl (SandPile.jitterStep tj tw) acc).1.lostSand = acc.1.lostSand ∧
      (cs.foldl (SandPile.jitterStep tj tw) acc).1.gridSum
          + (cs.foldl (SandPile.jitterStep tj tw) acc).2.2
        = acc.1.gridSum + acc.2.2 ∧
      (∀ p q : ℕ, acc.1.getGrid p q
        ≤ (cs.foldl (SandPile.jitterStep tj tw) acc).1.getGrid p q) ∧
      (∀ d ∈ (cs.foldl (SandPile.jitterStep tj tw) acc).2.1, d.1 < size0 ∧ d.2 < size0) := by
  induction cs with
  | nil =>
    intro acc _ h1 h2 h3 h4
    exact ⟨h1, h2, h3, rfl, rfl, rfl, fun p q => le_refl _, h4⟩
  | cons c rest ih =>
    intro acc hval h1 h2 h3 h4
    simp only [List.foldl_cons]
    have hcv := hval c (List.mem_cons_self c rest)
    obtain ⟨s1, s2, s3, s4, s5, s6, s7, s8⟩ :=
      jitterStep_account tj tw size0 acc c h1 h2 hcv.1 hcv.2 h3 h4
    obtain ⟨i1, i2, i3, i4, i5, i6, i7, i8⟩ :=
      ih (SandPile.jitterStep tj tw acc c)
        (fun c2 hc2 => hval c2 (List.mem_cons_of_mem c hc2)) s1 s2 s3 s8
    refine ⟨i1, i2, i3, i4.trans s4, i5.trans s5, by omega, ?_, i8⟩
    intro p q
    exact le_trans (s7 p q) (i7 p q)

end SandPile

namespace SandPile

set_option maxHeartbeats 800000 in
/-- Accounting for `distributeJitteredSand`: the running total drops by the
whole jitter amount relative to the grid sum (the grid gains it when
candidates exist, otherwise `totalSand`/`lostSand` absorb it), the
total-plus-lost budget is unchanged, and heights only grow. -/
theorem distributeJitteredSand_account (t : ℕ → ℚ) (cx cy : ℕ) (tj : ℤ) (radius : ℕ)
    (s : SandPile) (u : List Cell) (size0 : ℕ)
    (htape : ∀ i, 0 ≤ t i ∧ t i < 1) (hwf : s.wf) (hsz : s.size = size0) (htj : 0 ≤ tj)
    (hu : ∀ d ∈ u, d.1 < size0 ∧ d.2 < size0) :
    (SandPile.distributeJitteredSand t cx cy tj radius s u).1.wf ∧
    (SandPile.distributeJitteredSand t cx cy tj radius s u).1.size = size0 ∧
    (SandPile.distributeJitteredSand t cx cy tj radius s u).1.totalSand
        - (SandPile.distributeJitteredSand t cx cy tj radius s u).1.gridSum
      = s.totalSand - s.gridSum - tj ∧
    (SandPile.distributeJitteredSand t cx cy tj radius s u).1.totalSand
        + (SandPile.distributeJitteredSand t cx cy tj radius s u).1.lostSand
      = s.totalSand + s.lostSand ∧
    (∀ p q : ℕ, s.getGrid p q
      ≤ (SandPile.distributeJitteredSand t cx cy tj radius s u).1.getGrid p q) ∧
    (∀ d ∈ (SandPile.distributeJitteredSand t cx cy tj radius s u).2,
      d.1 < size0 ∧ d.2 < size0) := by
  simp only [distributeJitteredSand]
  set cands := jitterCandidates cx cy radius s.size with hcands
  set tw := cands.foldl (fun w c => Qrt2.add w c.2.2) (Qrt2.ofRat 0) with htw
  set stp := cands.foldl (SandPile.jitterStep tj tw) (s, u, tj) with hstp
  have hval : ∀ c ∈ cands, c.1 < size0 ∧ c.2.1 < size0 := by
    intro c hc
    have h := jitterCandidates_valid cx cy radius s.size c hc
    omega
  split
  · refine ⟨hwf, hsz, ?_, ?_, fun p q => le_refl _, hu⟩
    · show s.totalSand - tj - s.gridSum = s.totalSand - s.gridSum - tj
      ring
    · show s.totalSand - tj + (s.lostSand + tj) = s.totalSand + s.lostSand
      ring
  · rename_i hemp
    obtain ⟨a1, a2, a3, a4, a5, a6, a7, a8⟩ :=
      jitterFold_account tj tw size0 cands (s, u, tj) hval hwf hsz htj hu
    have a3' : 0 ≤ stp.2.2 := a3
    have a4' : stp.1.totalSand = s.totalSand := a4
    have a5' : stp.1.lostSand = s.lostSand := a5
    have a6' : stp.1.gridSum + stp.2.2 = s.gridSum + tj := a6
    have a7' : ∀ p q : ℕ, s.getGrid p q ≤ stp.1.getGrid p q := a7
    have a8' : ∀ d ∈ stp.2.1, d.1 < size0 ∧ d.2 < size0 := a8
    have a1' : stp.1.wf := a1
    have a2' : stp.1.size = size0 := a2
    split
    · rename_i hrem
      have hlen : 0 < cands.length := by
        rw [List.isEmpty_iff] at hemp
        exact List.length_pos.mpr hemp
      have hU := htape stp.1.rngCount
      have hfl0 : 0 ≤ Int.floor (t stp.1.rngCount * (cands.length : ℚ)) :=
        Int.floor_nonneg.mpr (mul_nonneg hU.1 (by positivity))
      have hfl : Int.floor (t stp.1.rngCount * (cands.length : ℚ)) < (cands.length : ℤ) := by
        rw [Int.floor_lt]
        have h2 : t stp.1.rngCount * (cands.length : ℚ) < 1 * (cands.length : ℚ) := by
          apply mul_lt_mul_of_pos_right hU.2
          exact_mod_cast hlen
        push_cast
        linarith
      have hidx : (Int.floor (t stp.1.rngCount * (cands.length : ℚ))).toNat < cands.length := by
        omega
    
      have hC : (cands.getD ((Int.floor (t stp.1.rngCount * (cands.length : ℚ))).toNat)
          (0, 0, Qrt2.ofRat 0)) ∈ cands := by
        rw [List.getD_eq_getElem cands (0, 0, Qrt2.ofRat 0) hidx]
        exact List.getElem_mem hidx
      have hCv := hval _ hC
      have hsz2 : ({ stp.1 with rngCount := stp.1.rngCount + 1 } : SandPile).size = size0 := a2
      obtain ⟨b1, b2, b3, b4, b5, b6, b7⟩ := addSandToCell_full
        (cands.getD ((Int.floor (t stp.1.rngCount * (cands.length : ℚ))).toNat)
          (0, 0, Qrt2.ofRat 0)).1
        (cands.getD ((Int.floor (t stp.1.rngCount * (cands.length : ℚ))).toNat)
          (0, 0, Qrt2.ofRat 0)).2.1
        stp.2.2 { stp.1 with rngCount := stp.1.rngCount + 1 } stp.2.1 size0
        a1 hsz2 hCv.1 hCv.2 (le_of_lt hrem) a8'
      have b3' : (SandPile.addSandToCell
          (cands.getD ((Int.floor (t stp.1.rngCount * (cands.length : ℚ))).toNat)
            (0, 0, Qrt2.ofRat 0)).1
          (cands.getD ((Int.floor (t stp.1.rngCount * (cands.length : ℚ))).toNat)
            (0, 0, Qrt2.ofRat 0)).2.1
          stp.2.2 { stp.1 with rngCount := stp.1.rngCount + 1 } stp.2.1).1.totalSand
          = stp.1.totalSand := b3
      have b4' : (SandPile.addSandToCell
          (cands.getD ((Int.floor (t stp.1.rngCount * (cands.length : ℚ))).toNat)
            (0, 0, Qrt2.ofRat 0)).1
          (cands.getD ((Int.floor (t stp.1.rngCount * (cands.length : ℚ))).toNat)
            (0, 0, Qrt2.ofRat 0)).2.1
          stp.2.2 { stp.1 with rngCount := stp.1.rngCount + 1 } stp.2.1).1.lostSand
          = stp.1.lostSand := b4
      have b5' : (SandPile.addSandToCell
          (cands.getD ((Int.floor (t stp.1.rngCount * (cands.length : ℚ))).toNat)
            (0, 0, Qrt2.ofRat 0)).1
          (cands.getD ((Int.floor (t stp.1.rngCount * (cands.length : ℚ))).toNat)
            (0, 0, Qrt2.ofRat 0)).2.1
          stp.2.2 { stp.1 with rngCount := stp.1.rngCount + 1 } stp.2.1).1.gridSum
          = stp.1.gridSum + stp.2.2 := b5
      refine ⟨b1, b2, ?_, ?_, ?_, b7⟩
      · show (SandPile.addSandToCell
            (cands.getD ((Int.floor (t stp.1.rngCount * (cands.length : ℚ))).toNat)
              (0, 0, Qrt2.ofRat 0)).1
            (cands.getD ((Int.floor (t stp.1.rngCount * (cands.length : ℚ))).toNat)
              (0, 0, Qrt2.ofRat 0)).2.1
            stp.2.2 { stp.1 with rngCount := stp.1.rngCount + 1 } stp.2.1).1.totalSand
            - (SandPile.addSandToCell
              (cands.getD ((Int.floor (t stp.1.rngCount * (cands.length : ℚ))).toNat)
                (0, 0, Qrt2.ofRat 0)).1
              (cands.getD ((Int.floor (t stp.1.rngCount * (cands.length : ℚ))).toNat)
                (0, 0, Qrt2.ofRat 0)).2.1
              stp.2.2 { stp.1 with rngCount := stp.1.rngCount + 1 } stp.2.1).1.gridSum
          = s.totalSand - s.gridSum - tj
        omega
      · show (SandPile.addSandToCell
            (cands.getD ((Int.floor (t stp.1.rngCount * (cands.length : ℚ))).toNat)
              (0, 0, Qrt2.ofRat 0)).1
            (cands.getD ((Int.floor (t stp.1.rngCount * (cands.length : ℚ))).toNat)
              (0, 0, Qrt2.ofRat 0)).2.1
            stp.2.2 { stp.1 with rngCount := stp.1.rngCount + 1 } stp.2.1).1.totalSand
            + (SandPile.addSandToCell
              (cands.getD ((Int.floor (t stp.1.rngCount * (cands.length : ℚ))).toNat)
                (0, 0, Qrt2.ofRat 0)).1
              (cands.getD ((Int.floor (t stp.1.rngCount * (cands.length : ℚ))).toNat)
                (0, 0, Qrt2.ofRat 0)).2.1
              stp.2.2 { stp.1 with rngCount := stp.1.rngCount + 1 } stp.2.1).1.lostSand
          = s.totalSand + s.lostSand
        omega
      · intro p q
        exact le_trans (a7' p q) (b6 p q)
    · rename_i hrem
      refine ⟨a1', a2', ?_, ?_, a7', a8'⟩
      · show stp.1.totalSand - stp.1.gridSum = s.totalSand - s.gridSum - tj
        omega
      · show stp.1.totalSand + stp.1.lostSand = s.totalSand + s.lostSand
        omega

set_option maxHeartbeats 800000 in
/-- Accounting for one stochastic per-neighbor step: the running total drops
by exactly the per-neighbor share `n` relative to the grid sum, the
total-plus-lost budget is unchanged, and heights only grow. -/
theorem randomNeighborStep_account (t : ℕ → ℚ) (n : ℤ) (radius : ℕ)
    (acc : SandPile × List Cell) (nb : ℤ × ℤ) (size0 : ℕ)
    (htape : ∀ i, 0 ≤ t i ∧ t i < 1) (hwf : acc.1.wf) (hsz : acc.1.size = size0)
    (hn : 0 ≤ n) (hr0 : 0 ≤ acc.1.randomnessFactor) (hr1 : acc.1.randomnessFactor ≤ 1)
    (hu : ∀ d ∈ acc.2, d.1 < size0 ∧ d.2 < size0) :
    (SandPile.randomNeighborStep t n radius acc nb).1.wf ∧
    (SandPile.randomNeighborStep t n radius acc nb).1.size = size0 ∧
    (SandPile.randomNeighborStep t n radius acc nb).1.totalSand
        - (SandPile.randomNeighborStep t n radius acc nb).1.gridSum
      = acc.1.totalSand - acc.1.gridSum - n ∧
    (SandPile.randomNeighborStep t n radius acc nb).1.totalSand
        + (SandPile.randomNeighborStep t n radius acc nb).1.lostSand
      = acc.1.totalSand + acc.1.lostSand ∧
    (∀ p q : ℕ, acc.1.getGrid p q
      ≤ (SandPile.randomNeighborStep t n radius acc nb).1.getGrid p q) ∧
    (∀ d ∈ (SandPile.randomNeighborStep t n radius acc nb).2, d.1 < size0 ∧ d.2 < size0) := by
  simp only [randomNeighborStep]
  split
  · rename_i hv
    have hU := htape acc.1.rngCount
    have hj0 : 0 ≤ Int.floor ((n : ℚ) * acc.1.randomnessFactor * t acc.1.rngCount) :=
      Int.floor_nonneg.mpr (mul_nonneg (mul_nonneg (by exact_mod_cast hn) hr0) hU.1)
    have hjn : Int.floor ((n : ℚ) * acc.1.randomnessFactor * t acc.1.rngCount) ≤ n := by
      have hle : (n : ℚ) * acc.1.randomnessFactor * t acc.1.rngCount ≤ (n : ℚ) := by
        rw [mul_assoc]
        have hone : acc.1.randomnessFactor * t acc.1.rngCount ≤ 1 :=
          mul_le_one₀ hr1 hU.1 (le_of_lt hU.2)
        have hn' : (0 : ℚ) ≤ (n : ℚ) := by exact_mod_cast hn
        calc (n : ℚ) * (acc.1.randomnessFactor * t acc.1.rngCount)
            ≤ (n : ℚ) * 1 := mul_le_mul_of_nonneg_left hone hn'
          _ = (n : ℚ) := mul_one _
      have h3 := Int.floor_le_floor hle
      rwa [Int.floor_intCast] at h3
    have hv2 : (0 : ℤ) ≤ nb.1 ∧ nb.1 < (acc.1.size : ℤ) ∧
        (0 : ℤ) ≤ nb.2 ∧ nb.2 < (acc.1.size : ℤ) := hv
    have hnx : nb.1.toNat < size0 := by omega
    have hny : nb.2.toNat < size0 := by omega
    have hsz1 : ({ acc.1 with rngCount := acc.1.rngCount + 1 } : SandPile).size = size0 := hsz
    obtain ⟨b1, b2, b3, b4, b5, b6, b7⟩ := addSandToCell_full nb.1.toNat nb.2.toNat
      (n - Int.floor ((n : ℚ) * acc.1.randomnessFactor * t acc.1.rngCount))
      { acc.1 with rngCount := acc.1.rngCount + 1 } acc.2 size0
      hwf hsz1 hnx hny (by omega) hu
    have b3' : (SandPile.addSandToCell nb.1.toNat nb.2.toNat
        (n - Int.floor ((n : ℚ) * acc.1.randomnessFactor * t acc.1.rngCount))
        { acc.1 with rngCount := acc.1.rngCount + 1 } acc.2).1.totalSand
        = acc.1.totalSand := b3
    have b4' : (SandPile.addSandToCell nb.1.toNat nb.2.toNat
        (n - Int.floor ((n : ℚ) * acc.1.randomnessFactor * t acc.1.rngCount))
        { acc.1 with rngCount := acc.1.rngCount + 1 } acc.2).1.lostSand
        = acc.1.lostSand := b4
    have b5' : (SandPile.addSandToCell nb.1.toNat nb.2.toNat
        (n - Int.floor ((n : ℚ) * acc.1.randomnessFactor * t acc.1.rngCount))
        { acc.1 with rngCount := acc.1.rngCount + 1 } acc.2).1.gridSum
        = acc.1.gridSum
          + (n - Int.floor ((n : ℚ) * acc.1.randomnessFactor * t acc.1.rngCount)) := b5
    split
    · rename_i hjpos
      obtain ⟨c1, c2, c3, c4, c5, c6⟩ := distributeJitteredSand_account t
        nb.1.toNat nb.2.toNat
        (Int.floor ((n : ℚ) * acc.1.randomnessFactor * t acc.1.rngCount)) radius
        (SandPile.addSandToCell nb.1.toNat nb.2.toNat
          (n - Int.floor ((n : ℚ) * acc.1.randomnessFactor * t acc.1.rngCount))
          { acc.1 with rngCount := acc.1.rngCount + 1 } acc.2).1
        (SandPile.addSandToCell nb.1.toNat nb.2.toNat
          (n - Int.floor ((n : ℚ) * acc.1.randomnessFactor * t acc.1.rngCount))
          { acc.1 with rngCount := acc.1.rngCount + 1 } acc.2).2
        size0 htape b1 b2 (le_of_lt hjpos) b7
      refine ⟨c1, c2, ?_, ?_, ?_, c6⟩
      · show (SandPile.distributeJitteredSand t nb.1.toNat nb.2.toNat
            (Int.floor ((n : ℚ) * acc.1.randomnessFactor * t acc.1.rngCount)) radius
            (SandPile.addSandToCell nb.1.toNat nb.2.toNat
              (n - Int.floor ((n : ℚ) * acc.1.randomnessFactor * t acc.1.rngCount))
              { acc.1 with rngCount := acc.1.rngCount + 1 } acc.2).1
            (SandPile.addSandToCell nb.1.toNat nb.2.toNat
              (n - Int.floor ((n : ℚ) * acc.1.randomnessFactor * t acc.1.rngCount))
              { acc.1 with rngCount := acc.1.rngCount + 1 } acc.2).2).1.totalSand
            - (SandPile.distributeJitteredSand t nb.1.toNat nb.2.toNat
              (Int.floor ((n : ℚ) * acc.1.randomnessFactor * t acc.1.rngCount)) radius
              (SandPile.addSandToCell nb.1.toNat nb.2.toNat
                (n - Int.floor ((n : ℚ) * acc.1.randomnessFactor * t acc.1.rngCount))
                { acc.1 with rngCount := acc.1.rngCount + 1 } acc.2).1
              (SandPile.addSandToCell nb.1.toNat nb.2.toNat
                (n - Int.floor ((n : ℚ) * acc.1.randomnessFactor * t acc.1.rngCount))
                { acc.1 with rngCount := acc.1.rngCount + 1 } acc.2).2).1.gridSum
          = acc.1.totalSand - acc.1.gridSum - n
        omega
      · show (SandPile.distributeJitteredSand t nb.1.toNat nb.2.toNat
            (Int.floor ((n : ℚ) * acc.1.randomnessFactor * t acc.1.rngCount)) radius
            (SandPile.addSandToCell nb.1.toNat nb.2.toNat
              (n - Int.floor ((n : ℚ) * acc.1.randomnessFactor * t acc.1.rngCount))
              { acc.1 with rngCount := acc.1.rngCount + 1 } acc.2).1
            (SandPile.addSandToCell nb.1.toNat nb.2.toNat
              (n - Int.floor ((n : ℚ) * acc.1.randomnessFactor * t acc.1.rngCount))
              { acc.1 with rngCount := acc.1.rngCount + 1 } acc.2).2).1.totalSand
            + (SandPile.distributeJitteredSand t nb.1.toNat nb.2.toNat
              (Int.floor ((n : ℚ) * acc.1.randomnessFactor * t acc.1.rngCount)) radius
              (SandPile.addSandToCell nb.1.toNat nb.2.toNat
                (n - Int.floor ((n : ℚ) * acc.1.randomnessFactor * t acc.1.rngCount))
                { acc.1 with rngCount := acc.1.rngCount + 1 } acc.2).1
              (SandPile.addSandToCell nb.1.toNat nb.2.toNat
                (n - Int.floor ((n : ℚ) * acc.1.randomnessFactor * t acc.1.rngCount))
                { acc.1 with rngCount := acc.1.rngCount + 1 } acc.2).2).1.lostSand
          = acc.1.totalSand + acc.1.lostSand
        omega
      · intro p q
        exact le_trans (b6 p q) (c5 p q)
    · rename_i hjneg
      refine ⟨b1, b2, ?_, ?_, b6, b7⟩
      · show (SandPile.addSandToCell nb.1.toNat nb.2.toNat
            (n - Int.floor ((n : ℚ) * acc.1.randomnessFactor * t acc.1.rngCount))
            { acc.1 with rngCount := acc.1.rngCount + 1 } acc.2).1.totalSand
            - (SandPile.addSandToCell nb.1.toNat nb.2.toNat
              (n - Int.floor ((n : ℚ) * acc.1.randomnessFactor * t acc.1.rngCount))
              { acc.1 with rngCount := acc.1.rngCount + 1 } acc.2).1.gridSum
          = acc.1.totalSand - acc.1.gridSum - n
        omega
      · show (SandPile.addSandToCell nb.1.toNat nb.2.toNat
            (n - Int.floor ((n : ℚ) * acc.1.randomnessFactor * t acc.1.rngCount))
            { acc.1 with rngCount := acc.1.rngCount + 1 } acc.2).1.totalSand
            + (SandPile.addSandToCell nb.1.toNat nb.2.toNat
              (n - Int.floor ((n : ℚ) * acc.1.randomnessFactor * t acc.1.rngCount))
              { acc.1 with rngCount := acc.1.rngCount + 1 } acc.2).1.lostSand
          = acc.1.totalSand + acc.1.lostSand
        omega
  · rename_i hv
    refine ⟨hwf, hsz, ?_, ?_, fun p q => le_refl _, hu⟩
    · show acc.1.totalSand - n - acc.1.gridSum = acc.1.totalSand - acc.1.gridSum - n
      ring
    · show acc.1.totalSand - n + (acc.1.lostSand + n) = acc.1.totalSand + acc.1.lostSand
      ring

/-- Accounting for the stochastic per-neighbor loop. -/
theorem rnsFold_account (t : ℕ → ℚ) (n : ℤ) (radius : ℕ) (size0 : ℕ)
    (htape : ∀ i, 0 ≤ t i ∧ t i < 1) (hn : 0 ≤ n) (nbs : List (ℤ × ℤ)) :
    ∀ acc : SandPile × List Cell,
      acc.1.wf → acc.1.size = size0 →
      0 ≤ acc.1.randomnessFactor → acc.1.randomnessFactor ≤ 1 →
      (∀ d ∈ acc.2, d.1 < size0 ∧ d.2 < size0) →
      (nbs.foldl (SandPile.randomNeighborStep t n radius) acc).1.wf ∧
      (nbs.foldl (SandPile.randomNeighborStep t n radius) acc).1.size = size0 ∧
      (nbs.foldl (SandPile.randomNeighborStep t n radius) acc).1.totalSand
          - (nbs.foldl (SandPile.randomNeighborStep t n radius) acc).1.gridSum
        = acc.1.totalSand - acc.1.gridSum - n * nbs.length ∧
      (nbs.foldl (SandPile.randomNeighborStep t n radius) acc).1.totalSand
          + (nbs.foldl (SandPile.randomNeighborStep t n radius) acc).1.lostSand
        = acc.1.totalSand + acc.1.lostSand ∧
      (∀ p q : ℕ, acc.1.getGrid p q
        ≤ (nbs.foldl (SandPile.randomNeighborStep t n radius) acc).1.getGrid p q) ∧
      (∀ d ∈ (nbs.foldl (SandPile.randomNeighborStep t n radius) acc).2,
        d.1 < size0 ∧ d.2 < size0) := by
  induction nbs with
  | nil =>
    intro acc h1 h2 h3 h4 h5
    refine ⟨h1, h2, ?_, rfl, fun p q => le_refl _, h5⟩
    show acc.1.totalSand - acc.1.gridSum
      = acc.1.totalSand - acc.1.gridSum - n * (([] : List (ℤ × ℤ)).length : ℤ)
    simp
  | cons nb rest ih =>
    intro acc h1 h2 h3 h4 h5
    simp only [List.foldl_cons]
    obtain ⟨s1, s2, s3, s4, s5, s6⟩ := randomNeighborStep_account t n radius acc nb size0
      htape h1 h2 hn h3 h4 h5
    obtain ⟨f1, f2, f3⟩ := randomNeighborStep_frame t n radius acc nb
    have hr0' : 0 ≤ (SandPile.randomNeighborStep t n radius acc nb).1.randomnessFactor := by
      rw [f3]
      exact h3
    have hr1' : (SandPile.randomNeighborStep t n radius acc nb).1.randomnessFactor ≤ 1 := by
      rw [f3]
      exact h4
    obtain ⟨i1, i2, i3, i4, i5, i6⟩ := ih (SandPile.randomNeighborStep t n radius acc nb)
      s1 s2 hr0' hr1' s6
    refine ⟨i1, i2, ?_, ?_, ?_, i6⟩
    · have hlen : (((nb :: rest).length : ℕ) : ℤ) = ((rest.length : ℕ) : ℤ) + 1 := by
        push_cast [List.length_cons]
        ring
      rw [hlen, i3, s3]
      ring
    · rw [i4, s4]
    · intro p q
      exact le_trans (s5 p q) (i5 p q)

/-- Accounting for `distributeWithRandomness`: the running total drops by
`n` per neighbor-list entry relative to the grid sum. -/
theorem distributeWithRandomness_account (t : ℕ → ℚ) (n : ℤ) (nbs : List (ℤ × ℤ))
    (s : SandPile) (u : List Cell) (size0 : ℕ)
    (htape : ∀ i, 0 ≤ t i ∧ t i < 1) (hwf : s.wf) (hsz : s.size = size0) (hn : 0 ≤ n)
    (hr0 : 0 ≤ s.randomnessFactor) (hr1 : s.randomnessFactor ≤ 1)
    (hu : ∀ d ∈ u, d.1 < size0 ∧ d.2 < size0) :
    (SandPile.distributeWithRandomness t n nbs s u).1.wf ∧
    (SandPile.distributeWithRandomness t n nbs s u).1.size = size0 ∧
    (SandPile.distributeWithRandomness t n nbs s u).1.totalSand
        - (SandPile.distributeWithRandomness t n nbs s u).1.gridSum
      = s.totalSand - s.gridSum - n * nbs.length ∧
    (SandPile.distributeWithRandomness t n nbs s u).1.totalSand
        + (SandPile.distributeWithRandomness t n nbs s u).1.lostSand
      = s.totalSand + s.lostSand ∧
    (∀ p q : ℕ, s.getGrid p q
      ≤ (SandPile.distributeWithRandomness t n nbs s u).1.getGrid p q) ∧
    (∀ d ∈ (SandPile.distributeWithRandomness t n nbs s u).2, d.1 < size0 ∧ d.2 < size0) := by
  simp only [distributeWithRandomness]
  exact rnsFold_account t n ((Int.ceil (s.randomnessFactor * 2)).toNat) size0 htape hn nbs
    (s, u) hwf hsz hr0 hr1 hu

/-- Accounting for the deterministic `distributeToNeighbors`: the running
total drops by `n` per neighbor-list entry relative to the grid sum. -/
theorem distributeToNeighbors_account (n : ℤ) (size0 : ℕ) (nbs : List (ℤ × ℤ)) (hn : 0 ≤ n) :
    ∀ (s : SandPile) (u : List Cell), s.wf → s.size = size0 →
      (∀ d ∈ u, d.1 < size0 ∧ d.2 < size0) →
      (SandPile.distributeToNeighbors n nbs s u).1.wf ∧
      (SandPile.distributeToNeighbors n nbs s u).1.size = size0 ∧
      (SandPile.distributeToNeighbors n nbs s u).1.totalSand
          - (SandPile.distributeToNeighbors n nbs s u).1.gridSum
        = s.totalSand - s.gridSum - n * nbs.length ∧
      (SandPile.distributeToNeighbors n nbs s u).1.totalSand
          + (SandPile.distributeToNeighbors n nbs s u).1.lostSand
        = s.totalSand + s.lostSand ∧
      (∀ p q : ℕ, s.getGrid p q ≤ (SandPile.distributeToNeighbors n nbs s u).1.getGrid p q) ∧
      (∀ d ∈ (SandPile.distributeToNeighbors n nbs s u).2, d.1 < size0 ∧ d.2 < size0) := by
  induction nbs with
  | nil =>
    intro s u h1 h2 h3
    have heq : SandPile.distributeToNeighbors n [] s u = (s, u) := by
      simp only [distributeToNeighbors, List.foldl_nil]
    rw [heq]
    refine ⟨h1, h2, ?_, rfl, fun p q => le_refl _, h3⟩
    show s.totalSand - s.gridSum
      = s.totalSand - s.gridSum - n * (([] : List (ℤ × ℤ)).length : ℤ)
    simp
  | cons nb rest ih =>
    intro s u h1 h2 h3
    have hlen : (((nb :: rest).length : ℕ) : ℤ) = ((rest.length : ℕ) : ℤ) + 1 := by
      push_cast [List.length_cons]
      ring
    by_cases hv : isValidGridPosition nb.1 nb.2 s.size
    · have hstep : SandPile.distributeToNeighbors n (nb :: rest) s u =
          SandPile.distributeToNeighbors n rest
            (SandPile.addSandToCell nb.1.toNat nb.2.toNat n s u).1
            (SandPile.addSandToCell nb.1.toNat nb.2.toNat n s u).2 := by
        simp only [distributeToNeighbors, List.foldl_cons, if_pos hv]
      rw [hstep]
      have hv2 : (0 : ℤ) ≤ nb.1 ∧ nb.1 < (s.size : ℤ) ∧
          (0 : ℤ) ≤ nb.2 ∧ nb.2 < (s.size : ℤ) := hv
      obtain ⟨b1, b2, b3, b4, b5, b6, b7⟩ := addSandToCell_full nb.1.toNat nb.2.toNat n s u
        size0 h1 h2 (by omega) (by omega) hn h3
      obtain ⟨i1, i2, i3, i4, i5, i6⟩ := ih
        (SandPile.addSandToCell nb.1.toNat nb.2.toNat n s u).1
        (SandPile.addSandToCell nb.1.toNat nb.2.toNat n s u).2 b1 b2 b7
      refine ⟨i1, i2, ?_, ?_, ?_, i6⟩
      · rw [hlen, i3, b3, b5]
        ring
      · rw [i4, b3, b4]
      · intro p q
        exact le_trans (b6 p q) (i5 p q)
    · have hstep : SandPile.distributeToNeighbors n (nb :: rest) s u =
          SandPile.distributeToNeighbors n rest
            { s with totalSand := s.totalSand - n, lostSand := s.lostSand + n } u := by
        simp only [distributeToNeighbors, List.foldl_cons, if_neg hv]
      rw [hstep]
      obtain ⟨i1, i2, i3, i4, i5, i6⟩ := ih
        { s with totalSand := s.totalSand - n, lostSand := s.lostSand + n } u h1 h2 h3
      have i3' : (SandPile.distributeToNeighbors n rest
          { s with totalSand := s.totalSand - n, lostSand := s.lostSand + n } u).1.totalSand
          - (SandPile.distributeToNeighbors n rest
            { s with totalSand := s.totalSand - n, lostSand := s.lostSand + n } u).1.gridSum
          = s.totalSand - n - s.gridSum - n * ((rest.length : ℕ) : ℤ) := i3
      have i4' : (SandPile.distributeToNeighbors n rest
          { s with totalSand := s.totalSand - n, lostSand := s.lostSand + n } u).1.totalSand
          + (SandPile.distributeToNeighbors n rest
            { s with totalSand := s.totalSand - n, lostSand := s.lostSand + n } u).1.lostSand
          = s.totalSand - n + (s.lostSand + n) := i4
      refine ⟨i1, i2, ?_, ?_, i5, i6⟩
      · rw [hlen, i3']
        ring
      · rw [i4']
        ring

end SandPile

namespace SandPile

set_option maxHeartbeats 800000 in
/-- Accounting for `topple`: an in-range topple of a non-negative cell keeps
`totalSand - gridSum` and `totalSand + lostSand` invariant and keeps all
heights non-negative. -/
theorem topple_account (t : ℕ → ℚ) (x y : ℕ) (s : SandPile) (u : List Cell) (size0 : ℕ)
    (htape : ∀ i, 0 ≤ t i ∧ t i < 1) (hwf : s.wf) (hsz : s.size = size0)
    (hx : x < size0) (hy : y < size0)
    (hh : ∀ p q : ℕ, 0 ≤ s.getGrid p q)
    (hr0 : 0 ≤ s.randomnessFactor) (hr1 : s.randomnessFactor ≤ 1)
    (hu : ∀ d ∈ u, d.1 < size0 ∧ d.2 < size0) :
    (SandPile.topple t x y s u).1.wf ∧
    (SandPile.topple t x y s u).1.size = size0 ∧
    (SandPile.topple t x y s u).1.totalSand - (SandPile.topple t x y s u).1.gridSum
      = s.totalSand - s.gridSum ∧
    (SandPile.topple t x y s u).1.totalSand + (SandPile.topple t x y s u).1.lostSand
      = s.totalSand + s.lostSand ∧
    (∀ p q : ℕ, 0 ≤ (SandPile.topple t x y s u).1.getGrid p q) ∧
    (∀ d ∈ (SandPile.topple t x y s u).2, d.1 < size0 ∧ d.2 < size0) := by
  have hx' : x < s.size := by omega
  have hy' : y < s.size := by omega
  have hh0 : 0 ≤ s.getGrid x y := hh x y
  have hn0 : 0 ≤ Int.fdiv (s.getGrid x y) 4 := by
    rw [fdiv_four_eq_ediv _ hh0]
    exact Int.ediv_nonneg hh0 (by norm_num)
  have hrem0 : 0 ≤ Int.tmod (s.getGrid x y) 4 := by
    rw [tmod_four_eq_emod _ hh0]
    exact Int.emod_nonneg _ (by norm_num)
  have hbal : 4 * Int.fdiv (s.getGrid x y) 4 + Int.tmod (s.getGrid x y) 4
      = s.getGrid x y := by
    rw [tmod_four_eq_emod _ hh0, fdiv_four_eq_ediv _ hh0]
    exact Int.ediv_add_emod _ 4
  have hwf1 : (s.setGrid x y (Int.tmod (s.getGrid x y) 4)).wf := wf_setGrid s x y _ hwf
  have hsz1 : (s.setGrid x y (Int.tmod (s.getGrid x y) 4)).size = size0 := by
    rw [size_setGrid]
    omega
  have hgs1 : (s.setGrid x y (Int.tmod (s.getGrid x y) 4)).gridSum
      = s.gridSum + Int.tmod (s.getGrid x y) 4 - s.getGrid x y :=
    gridSum_setGrid s x y _ hwf hx' hy'
  have hh1 : ∀ p q : ℕ, 0 ≤ (s.setGrid x y (Int.tmod (s.getGrid x y) 4)).getGrid p q := by
    intro p q
    rw [getGrid_setGrid s x y _ hwf hx' hy' p q]
    by_cases hc : p = x ∧ q = y
    · rw [if_pos hc]
      exact hrem0
    · rw [if_neg hc]
      exact hh p q
  have hlen4 : (((getNeighbors x y).length : ℕ) : ℤ) = 4 := by
    simp [getNeighbors]
  rcases Decidable.em (0 < (s.setGrid x y (Int.tmod (s.getGrid x y) 4)).randomnessFactor)
    with hb | hb
  · obtain ⟨c1, c2, c3, c4, c5, c6⟩ := distributeWithRandomness_account t
      (Int.fdiv (s.getGrid x y) 4) (getNeighbors x y)
      (s.setGrid x y (Int.tmod (s.getGrid x y) 4)) u size0 htape hwf1 hsz1 hn0 hr0 hr1 hu
    have c3' : (SandPile.distributeWithRandomness t (Int.fdiv (s.getGrid x y) 4)
        (getNeighbors x y) (s.setGrid x y (Int.tmod (s.getGrid x y) 4)) u).1.totalSand
        - (SandPile.distributeWithRandomness t (Int.fdiv (s.getGrid x y) 4)
          (getNeighbors x y) (s.setGrid x y (Int.tmod (s.getGrid x y) 4)) u).1.gridSum
        = s.totalSand - (s.setGrid x y (Int.tmod (s.getGrid x y) 4)).gridSum
          - Int.fdiv (s.getGrid x y) 4 * (((getNeighbors x y).length : ℕ) : ℤ) := c3
    rw [hgs1, hlen4] at c3'
    have c4' : (SandPile.distributeWithRandomness t (Int.fdiv (s.getGrid x y) 4)
        (getNeighbors x y) (s.setGrid x y (Int.tmod (s.getGrid x y) 4)) u).1.totalSand
        + (SandPile.distributeWithRandomness t (Int.fdiv (s.getGrid x y) 4)
          (getNeighbors x y) (s.setGrid x y (Int.tmod (s.getGrid x y) 4)) u).1.lostSand
        = s.totalSand + s.lostSand := c4
    refine ⟨?_, ?_, ?_, ?_, ?_, ?_⟩
    · rw [topple_fst, if_pos hb]
      exact c1
    · rw [topple_fst, if_pos hb]
      exact c2
    · rw [topple_fst, if_pos hb]
      omega
    · rw [topple_fst, if_pos hb]
      exact c4'
    · rw [topple_fst, if_pos hb]
      intro p q
      exact le_trans (hh1 p q) (c5 p q)
    · intro d hd
      rw [topple_snd, if_pos hb] at hd
      split at hd
      · rcases mem_addCell_elim _ _ _ hd with h | h
        · exact c6 d h
        · rw [h]
          exact ⟨hx, hy⟩
      · exact c6 d hd
  · obtain ⟨c1, c2, c3, c4, c5, c6⟩ := distributeToNeighbors_account
      (Int.fdiv (s.getGrid x y) 4) size0 (getNeighbors x y) hn0
      (s.setGrid x y (Int.tmod (s.getGrid x y) 4)) u hwf1 hsz1 hu
    have c3' : (SandPile.distributeToNeighbors (Int.fdiv (s.getGrid x y) 4)
        (getNeighbors x y) (s.setGrid x y (Int.tmod (s.getGrid x y) 4)) u).1.totalSand
        - (SandPile.distributeToNeighbors (Int.fdiv (s.getGrid x y) 4)
          (getNeighbors x y) (s.setGrid x y (Int.tmod (s.getGrid x y) 4)) u).1.gridSum
        = s.totalSand - (s.setGrid x y (Int.tmod (s.getGrid x y) 4)).gridSum
          - Int.fdiv (s.getGrid x y) 4 * (((getNeighbors x y).length : ℕ) : ℤ) := c3
    rw [hgs1, hlen4] at c3'
    have c4' : (SandPile.distributeToNeighbors (Int.fdiv (s.getGrid x y) 4)
        (getNeighbors x y) (s.setGrid x y (Int.tmod (s.getGrid x y) 4)) u).1.totalSand
        + (SandPile.distributeToNeighbors (Int.fdiv (s.getGrid x y) 4)
          (getNeighbors x y) (s.setGrid x y (Int.tmod (s.getGrid x y) 4)) u).1.lostSand
        = s.totalSand + s.lostSand := c4
    refine ⟨?_, ?_, ?_, ?_, ?_, ?_⟩
    · rw [topple_fst, if_neg hb]
      exact c1
    · rw [topple_fst, if_neg hb]
      exact c2
    · rw [topple_fst, if_neg hb]
      omega
    · rw [topple_fst, if_neg hb]
      exact c4'
    · rw [topple_fst, if_neg hb]
      intro p q
      exact le_trans (hh1 p q) (c5 p q)
    · intro d hd
      rw [topple_snd, if_neg hb] at hd
      split at hd
      · rcases mem_addCell_elim _ _ _ hd with h | h
        · exact c6 d h
        · rw [h]
          exact ⟨hx, hy⟩
      · exact c6 d hd

/-- Accounting for one `processAvalanches` loop-body step. -/
theorem processCell_account (t : ℕ → ℚ) (acc : SandPile × List Cell × Bool) (c : Cell)
    (size0 : ℕ) (htape : ∀ i, 0 ≤ t i ∧ t i < 1)
    (hwf : acc.1.wf) (hsz : acc.1.size = size0)
    (hh : ∀ p q : ℕ, 0 ≤ acc.1.getGrid p q)
    (hr0 : 0 ≤ acc.1.randomnessFactor) (hr1 : acc.1.randomnessFactor ≤ 1)
    (hc : c.1 < size0 ∧ c.2 < size0)
    (hu : ∀ d ∈ acc.2.1, d.1 < size0 ∧ d.2 < size0) :
    (SandPile.processCell t acc c).1.wf ∧
    (SandPile.processCell t acc c).1.size = size0 ∧
    (SandPile.processCell t acc c).1.totalSand - (SandPile.processCell t acc c).1.gridSum
      = acc.1.totalSand - acc.1.gridSum ∧
    (SandPile.processCell t acc c).1.totalSand + (SandPile.processCell t acc c).1.lostSand
      = acc.1.totalSand + acc.1.lostSand ∧
    (∀ p q : ℕ, 0 ≤ (SandPile.processCell t acc c).1.getGrid p q) ∧
    (∀ d ∈ (SandPile.processCell t acc c).2.1, d.1 < size0 ∧ d.2 < size0) := by
  simp only [processCell]
  split
  · obtain ⟨t1, t2, t3, t4, t5, t6⟩ := topple_account t c.1 c.2 acc.1 acc.2.1 size0
      htape hwf hsz hc.1 hc.2 hh hr0 hr1 hu
    exact ⟨t1, t2, t3, t4, t5, t6⟩
  · exact ⟨hwf, hsz, rfl, rfl, hh, hu⟩

/-- Accounting for the whole `processAvalanches` fold. -/
theorem processCellFold_account (t : ℕ → ℚ) (size0 : ℕ)
    (htape : ∀ i, 0 ≤ t i ∧ t i < 1) (cs : List Cell) :
    ∀ acc : SandPile × List Cell × Bool,
      (∀ c ∈ cs, c.1 < size0 ∧ c.2 < size0) →
      acc.1.wf → acc.1.size = size0 → (∀ p q : ℕ, 0 ≤ acc.1.getGrid p q) →
      0 ≤ acc.1.randomnessFactor → acc.1.randomnessFactor ≤ 1 →
      (∀ d ∈ acc.2.1, d.1 < size0 ∧ d.2 < size0) →
      (cs.foldl (SandPile.processCell t) acc).1.wf ∧
      (cs.foldl (SandPile.processCell t) acc).1.size = size0 ∧
      (cs.foldl (SandPile.processCell t) acc).1.totalSand
          - (cs.foldl (SandPile.processCell t) acc).1.gridSum
        = acc.1.totalSand - acc.1.gridSum ∧
      (cs.foldl (SandPile.processCell t) acc).1.totalSand
          + (cs.foldl (SandPile.processCell t) acc).1.lostSand
        = acc.1.totalSand + acc.1.lostSand ∧
      (∀ p q : ℕ, 0 ≤ (cs.foldl (SandPile.processCell t) acc).1.getGrid p q) ∧
      (∀ d ∈ (cs.foldl (SandPile.processCell t) acc).2.1, d.1 < size0 ∧ d.2 < size0) := by
  induction cs with
  | nil =>
    intro acc _ h1 h2 h3 h4 h5 h6
    exact ⟨h1, h2, rfl, rfl, h3, h6⟩
  | cons c rest ih =>
    intro acc hval h1 h2 h3 h4 h5 h6
    simp only [List.foldl_cons]
    have hcv := hval c (List.mem_cons_self c rest)
    obtain ⟨p1, p2, p3, p4, p5, p6⟩ :=
      processCell_account t acc c size0 htape h1 h2 h3 h4 h5 hcv h6
    obtain ⟨f1, f2, f3⟩ := processCell_frame t acc c
    have hr0' : 0 ≤ (SandPile.processCell t acc c).1.randomnessFactor := by
      rw [f3]
      exact h4
    have hr1' : (SandPile.processCell t acc c).1.randomnessFactor ≤ 1 := by
      rw [f3]
      exact h5
    obtain ⟨i1, i2, i3, i4, i5, i6⟩ := ih (SandPile.processCell t acc c)
      (fun c2 hc2 => hval c2 (List.mem_cons_of_mem c hc2)) p1 p2 p5 hr0' hr1' p6
    refine ⟨i1, i2, by omega, by omega, i5, i6⟩

/-- Accounting for a full `processAvalanches` pass: the conservation
invariant is preserved, as are the grid size and the `totalSand + lostSand`
budget. -/
theorem processAvalanches_account (t : ℕ → ℚ) (s : SandPile)
    (htape : ∀ i, 0 ≤ t i ∧ t i < 1) (hcons : conserved s) :
    conserved (SandPile.processAvalanches t s).1 ∧
    (SandPile.processAvalanches t s).1.size = s.size ∧
    (SandPile.processAvalanches t s).1.totalSand
        + (SandPile.processAvalanches t s).1.lostSand
      = s.totalSand + s.lostSand := by
  obtain ⟨hwf, hh, hr0, hr1, huv, htot⟩ := hcons
  simp only [processAvalanches]
  split
  · exact ⟨⟨hwf, hh, hr0, hr1, huv, htot⟩, rfl, rfl⟩
  · obtain ⟨a1, a2, a3, a4, a5, a6⟩ := processCellFold_account t s.size htape
      s.unstableCells ({ s with avalancheSize := 0 }, [], false) huv hwf rfl hh hr0 hr1
      (fun d hd => absurd hd (List.not_mem_nil d))
    obtain ⟨g1, g2, g3⟩ := processCellFold_frame t s.unstableCells
      ({ s with avalancheSize := 0 }, [], false)
    set F := s.unstableCells.foldl (SandPile.processCell t)
      ({ s with avalancheSize := 0 }, [], false) with hF
    have a3' : F.1.totalSand - F.1.gridSum = s.totalSand - s.gridSum := a3
    have a4' : F.1.totalSand + F.1.lostSand = s.totalSand + s.lostSand := a4
    have g3' : F.1.randomnessFactor = s.randomnessFactor := g3
    split
    · refine ⟨⟨a1, a5, le_of_le_of_eq hr0 g3'.symm, le_of_eq_of_le g3' hr1, ?_, ?_⟩, a2, a4'⟩
      · intro c hc
        have h := a6 c hc
        exact ⟨lt_of_lt_of_eq h.1 a2.symm, lt_of_lt_of_eq h.2 a2.symm⟩
      · show F.1.totalSand = F.1.gridSum
        omega
    · refine ⟨⟨a1, a5, le_of_le_of_eq hr0 g3'.symm, le_of_eq_of_le g3' hr1, ?_, ?_⟩, a2, a4'⟩
      · intro c hc
        have h := a6 c hc
        exact ⟨lt_of_lt_of_eq h.1 a2.symm, lt_of_lt_of_eq h.2 a2.symm⟩
      · show F.1.totalSand = F.1.gridSum
        omega

/-- Accounting for the stabilize loop. -/
theorem stabilizeGo_account (t : ℕ → ℚ) (htape : ∀ i, 0 ≤ t i ∧ t i < 1) (fuel : ℕ) :
    ∀ s : SandPile, conserved s →
      conserved (SandPile.stabilizeGo t fuel s).1 ∧
      (SandPile.stabilizeGo t fuel s).1.size = s.size ∧
      (SandPile.stabilizeGo t fuel s).1.totalSand
          + (SandPile.stabilizeGo t fuel s).1.lostSand
        = s.totalSand + s.lostSand := by
  induction fuel with
  | zero =>
    intro s hc
    exact ⟨hc, rfl, rfl⟩
  | succ f ih =>
    intro s hc
    rcases Decidable.em (s.unstableCells.isEmpty = true) with he | he
    · rw [stabilizeGo_of_stable t _ _ he]
      exact ⟨hc, rfl, rfl⟩
    · have hstep : SandPile.stabilizeGo t (f + 1) s =
          ((SandPile.stabilizeGo t f (SandPile.processAvalanches t s).1).1,
           (SandPile.stabilizeGo t f (SandPile.processAvalanches t s).1).2 + 1) := by
        simp only [stabilizeGo, if_neg he]
      rw [hstep]
      obtain ⟨p1, p2, p3⟩ := processAvalanches_account t s htape hc
      obtain ⟨q1, q2, q3⟩ := ih (SandPile.processAvalanches t s).1 p1
      refine ⟨q1, q2.trans p2, ?_⟩
      show (SandPile.stabilizeGo t f (SandPile.processAvalanches t s).1).1.totalSand
          + (SandPile.stabilizeGo t f (SandPile.processAvalanches t s).1).1.lostSand
        = s.totalSand + s.lostSand
      omega

/-- Accounting for `addSand`: the conservation invariant is preserved, and an
in-range call raises the `totalSand + lostSand` budget by exactly the amount
added. -/
theorem addSand_account (x y a : ℤ) (s : SandPile) (ha : 0 ≤ a) (hcons : conserved s) :
    conserved (SandPile.addSand x y a s) ∧
    (SandPile.addSand x y a s).size = s.size ∧
    (isValidGridPosition x y s.size →
      (SandPile.addSand x y a s).totalSand + (SandPile.addSand x y a s).lostSand
        = s.totalSand + s.lostSand + a) := by
  obtain ⟨hwf, hh, hr0, hr1, huv, htot⟩ := hcons
  by_cases hv : isValidGridPosition x y s.size
  · have hv2 : (0 : ℤ) ≤ x ∧ x < (s.size : ℤ) ∧ (0 : ℤ) ≤ y ∧ y < (s.size : ℤ) := hv
    have hx' : x.toNat < s.size := by omega
    have hy' : y.toNat < s.size := by omega
    have hwf1 : (s.setGrid x.toNat y.toNat (s.getGrid x.toNat y.toNat + a)).wf :=
      wf_setGrid s _ _ _ hwf
    have hgs1 : (s.setGrid x.toNat y.toNat (s.getGrid x.toNat y.toNat + a)).gridSum
        = s.gridSum + (s.getGrid x.toNat y.toNat + a) - s.getGrid x.toNat y.toNat :=
      gridSum_setGrid s _ _ _ hwf hx' hy'
    have hh1 : ∀ p q : ℕ,
        0 ≤ (s.setGrid x.toNat y.toNat (s.getGrid x.toNat y.toNat + a)).getGrid p q := by
      intro p q
      rw [getGrid_setGrid s _ _ _ hwf hx' hy' p q]
      by_cases hcen : p = x.toNat ∧ q = y.toNat
      · rw [if_pos hcen]
        have := hh x.toNat y.toNat
        omega
      · rw [if_neg hcen]
        exact hh p q
    simp only [addSand, if_pos hv]
    split
    · refine ⟨⟨hwf1, hh1, hr0, hr1, ?_, ?_⟩, rfl, fun _ => ?_⟩
      · intro c hcm
        rcases mem_addCell_elim _ _ _ hcm with h | h
        · exact huv c h
        · rw [h]
          exact ⟨hx', hy'⟩
      · show s.totalSand + a
          = (s.setGrid x.toNat y.toNat (s.getGrid x.toNat y.toNat + a)).gridSum
        rw [hgs1]
        omega
      · show s.totalSand + a + s.lostSand = s.totalSand + s.lostSand + a
        ring
    · refine ⟨⟨hwf1, hh1, hr0, hr1, huv, ?_⟩, rfl, fun _ => ?_⟩
      · show s.totalSand + a
          = (s.setGrid x.toNat y.toNat (s.getGrid x.toNat y.toNat + a)).gridSum
        rw [hgs1]
        omega
      · show s.totalSand + a + s.lostSand = s.totalSand + s.lostSand + a
        ring
  · have heq : SandPile.addSand x y a s = s := by
      simp only [addSand, if_neg hv]
    rw [heq]
    exact ⟨⟨hwf, hh, hr0, hr1, huv, htot⟩, rfl, fun hvv => absurd hvv hv⟩

/-- Accounting for `setRandomnessFactor`: the clamp keeps the randomness
factor in `[0,1]` and touches nothing else. -/
theorem setRandomnessFactor_account (f : ℚ) (s : SandPile) (hcons : conserved s) :
    conserved (SandPile.setRandomnessFactor f s) ∧
    (SandPile.setRandomnessFactor f s).size = s.size ∧
    (SandPile.setRandomnessFactor f s).totalSand
        + (SandPile.setRandomnessFactor f s).lostSand
      = s.totalSand + s.lostSand := by
  obtain ⟨hwf, hh, hr0, hr1, huv, htot⟩ := hcons
  refine ⟨⟨hwf, hh, ?_, ?_, huv, htot⟩, rfl, rfl⟩
  · show (0 : ℚ) ≤ max 0 (min 1 f)
    exact le_max_left 0 (min 1 f)
  · show max 0 (min 1 f) ≤ 1
    exact max_le (by norm_num) (min_le_left 1 f)

/-- The sum of heights of the all-zero initial grid is zero. -/
theorem gridSum_init (size : ℕ) (crit : ℤ) : (SandPile.init size crit).gridSum = 0 := by
  simp [init, gridSum, List.map_replicate, List.sum_replicate]

/-- The initial state satisfies the conservation invariant. -/
theorem init_conserved (size : ℕ) (crit : ℤ) : conserved (SandPile.init size crit) := by
  refine ⟨⟨?_, ?_⟩, ?_, le_refl 0, by show (0 : ℚ) ≤ 1; norm_num, ?_, ?_⟩
  · simp [init]
  · intro row hrow
    simp only [init] at hrow
    have := List.eq_of_mem_replicate hrow
    rw [this, List.length_replicate]
    rfl
  · intro p q
    rw [getGrid_init]
  · intro c hcm
    exact absurd hcm (List.not_mem_nil c)
  · show (0 : ℤ) = (SandPile.init size crit).gridSum
    rw [gridSum_init]

end SandPile

namespace SandPile

/-- Accounting for one driver operation. -/
theorem applyGridOp_account (t : ℕ → ℚ) (htape : ∀ i, 0 ≤ t i ∧ t i < 1) (op : GridOp)
    (s : SandPile) (hcons : conserved s) (ha : 0 ≤ opAmount op) :
    conserved (applyGridOp t s op) ∧
    (applyGridOp t s op).size = s.size ∧
    ((∀ x y a : ℤ, op = GridOp.addSand x y a → isValidGridPosition x y s.size) →
      (applyGridOp t s op).totalSand + (applyGridOp t s op).lostSand
        = s.totalSand + s.lostSand + opAmount op) := by
  cases op with
  | addSand x y a =>
    simp only [applyGridOp, opAmount]
    obtain ⟨c1, c2, c3⟩ := addSand_account x y a s ha hcons
    exact ⟨c1, c2, fun hin => c3 (hin x y a rfl)⟩
  | processAvalanches =>
    simp only [applyGridOp, opAmount, add_zero]
    obtain ⟨c1, c2, c3⟩ := processAvalanches_account t s htape hcons
    exact ⟨c1, c2, fun _ => c3⟩
  | stabilize m =>
    simp only [applyGridOp, opAmount, SandPile.stabilize, add_zero]
    obtain ⟨c1, c2, c3⟩ := stabilizeGo_account t htape m s hcons
    exact ⟨c1, c2, fun _ => c3⟩
  | setRandomnessFactor f =>
    simp only [applyGridOp, opAmount, add_zero]
    obtain ⟨c1, c2, c3⟩ := setRandomnessFactor_account f s hcons
    exact ⟨c1, c2, fun _ => c3⟩

/-- Accounting for a whole driver run: the conservation invariant holds
throughout, and when every `addSand` is in range the `totalSand + lostSand`
budget equals exactly the sum of all injected amounts. -/
theorem runGridOps_account (t : ℕ → ℚ) (htape : ∀ i, 0 ≤ t i ∧ t i < 1)
    (ops : List GridOp) :
    ∀ s : SandPile, conserved s →
      (∀ op ∈ ops, 0 ≤ opAmount op) →
      conserved (runGridOps t ops s) ∧
      (runGridOps t ops s).size = s.size ∧
      ((∀ x y a : ℤ, GridOp.addSand x y a ∈ ops → isValidGridPosition x y s.size) →
        (runGridOps t ops s).totalSand + (runGridOps t ops s).lostSand
          = s.totalSand + s.lostSand + (ops.map opAmount).sum) := by
  induction ops with
  | nil =>
    intro s hc _
    refine ⟨hc, rfl, fun _ => ?_⟩
    show s.totalSand + s.lostSand = s.totalSand + s.lostSand + (0 : ℤ)
    ring
  | cons op rest ih =>
    intro s hc hamt
    have hstep : runGridOps t (op :: rest) s = runGridOps t rest (applyGridOp t s op) :=
      rfl
    rw [hstep]
    obtain ⟨c1, c2, c3⟩ := applyGridOp_account t htape op s hc
      (hamt op (List.mem_cons_self op rest))
    obtain ⟨i1, i2, i3⟩ := ih (applyGridOp t s op) c1
      (fun o ho => hamt o (List.mem_cons_of_mem op ho))
    refine ⟨i1, i2.trans c2, ?_⟩
    intro hin
    have hin1 : ∀ x y a : ℤ, op = GridOp.addSand x y a → isValidGridPosition x y s.size := by
      intro x y a hop
      refine hin x y a ?_
      rw [← hop]
      exact List.mem_cons_self op rest
    have hin2 : ∀ x y a : ℤ, GridOp.addSand x y a ∈ rest →
        isValidGridPosition x y (applyGridOp t s op).size := by
      intro x y a hmem
      rw [c2]
      exact hin x y a (List.mem_cons_of_mem op hmem)
    have e1 := i3 hin2
    have e2 := c3 hin1
    rw [e1, e2, List.map_cons, List.sum_cons]
    ring

end SandPile

/-- **C2.** Interior conservation.  Starting from the all-zero grid, for any
driver run whose `addSand` amounts are non-negative (and any `Math.random`
tape drawing from `[0,1)`): the running total `totalSand` always equals the
sum of all grid heights; when moreover every `addSand` call is in range,
`totalSand` plus the sand discarded at the open boundary (`lostSand`) equals
the sum of all amounts added, so a run whose avalanches never push sand
off-grid and never discard jitter (`lostSand = 0`) ends with `sum(grid)`
equal to the total amount injected — in particular after a final
`stabilize()`. -/
theorem SandPile.conservation (t : ℕ → ℚ) (ops : List GridOp) (size : ℕ) (crit : ℤ)
    (htape : ∀ i, 0 ≤ t i ∧ t i < 1)
    (hamt : ∀ op ∈ ops, 0 ≤ SandPile.opAmount op) :
    (runGridOps t ops (SandPile.init size crit)).totalSand
      = (runGridOps t ops (SandPile.init size crit)).gridSum ∧
    ((∀ x y a : ℤ, GridOp.addSand x y a ∈ ops → isValidGridPosition x y size) →
      (runGridOps t ops (SandPile.init size crit)).totalSand
          + (runGridOps t ops (SandPile.init size crit)).lostSand
        = (ops.map SandPile.opAmount).sum ∧
      ((runGridOps t ops (SandPile.init size crit)).lostSand = 0 →
        (runGridOps t ops (SandPile.init size crit)).gridSum
          = (ops.map SandPile.opAmount).sum)) := by
  obtain ⟨c1, c2, c3⟩ := SandPile.runGridOps_account t htape ops (SandPile.init size crit)
    (SandPile.init_conserved size crit) hamt
  obtain ⟨_, _, _, _, _, htot⟩ := c1
  refine ⟨htot, ?_⟩
  intro hin
  have hin' : ∀ x y a : ℤ, GridOp.addSand x y a ∈ ops →
      isValidGridPosition x y (SandPile.init size crit).size := hin
  have e2 : (runGridOps t ops (SandPile.init size crit)).totalSand
      + (runGridOps t ops (SandPile.init size crit)).lostSand
      = 0 + 0 + (ops.map SandPile.opAmount).sum := c3 hin'
  refine ⟨by omega, fun hl => by omega⟩

/-- Witness for C2: dropping 4 grains at the interior cell (2,2) of a 5×5
grid (criticalMass 4) and stabilizing; the hypotheses hold at this input and
the theorem applies. -/
theorem SandPile.conservation_witness :
    (∀ i, 0 ≤ tapeZero i ∧ tapeZero i < 1) ∧
    (∀ op ∈ [GridOp.addSand 2 2 4, GridOp.stabilize 1000], 0 ≤ SandPile.opAmount op) ∧
    ((runGridOps tapeZero [GridOp.addSand 2 2 4, GridOp.stabilize 1000]
        (SandPile.init 5 4)).totalSand
      = (runGridOps tapeZero [GridOp.addSand 2 2 4, GridOp.stabilize 1000]
        (SandPile.init 5 4)).gridSum ∧
     ((∀ x y a : ℤ,
         GridOp.addSand x y a ∈ [GridOp.addSand 2 2 4, GridOp.stabilize 1000] →
         isValidGridPosition x y 5) →
       (runGridOps tapeZero [GridOp.addSand 2 2 4, GridOp.stabilize 1000]
           (SandPile.init 5 4)).totalSand
           + (runGridOps tapeZero [GridOp.addSand 2 2 4, GridOp.stabilize 1000]
             (SandPile.init 5 4)).lostSand
         = ([GridOp.addSand 2 2 4, GridOp.stabilize 1000].map SandPile.opAmount).sum ∧
       ((runGridOps tapeZero [GridOp.addSand 2 2 4, GridOp.stabilize 1000]
           (SandPile.init 5 4)).lostSand = 0 →
         (runGridOps tapeZero [GridOp.addSand 2 2 4, GridOp.stabilize 1000]
             (SandPile.init 5 4)).gridSum
           = ([GridOp.addSand 2 2 4, GridOp.stabilize 1000].map SandPile.opAmount).sum))) :=
  ⟨fun i => ⟨le_refl 0, by show (0 : ℚ) < 1; norm_num⟩, by decide,
   SandPile.conservation tapeZero [GridOp.addSand 2 2 4, GridOp.stabilize 1000] 5 4
     (fun i => ⟨le_refl 0, by show (0 : ℚ) < 1; norm_num⟩) (by decide)⟩
